import Mathlib

/-!
# Verification of the Cardinal3D mesh-editing kernel (src/student/meshedit.cpp)

A shallow embedding of the half-edge mesh data structure and of the local and
global operators implemented in `meshedit.cpp`.  Element handles are natural
numbers; each of the four element pools (half-edges, vertices, edges, faces)
is an association list from handle to record, and the mesh carries a fresh-id
counter used by the allocators.  Positions use exact rationals in place of
IEEE floats: every claim under test is about connectivity, counts, refusal
conditions or exact algebraic formulas, none about rounding.

The C++ `do/while` orbit walks can diverge on garbage connectivity, so every
walk takes explicit fuel and returns `Option`; `none` models the source
looping forever.  The store's erasure is deferred in C++ (an erased element
stays dereferenceable until `validate`); here erasure removes the entry at
once, and every place where the source reads a field of an element after
erasing it is translated by binding the value before the removal, which is
exactly what deferred erasure guarantees.
-/

set_option maxRecDepth 8000

/-- Record of one half-edge: `next`, `twin`, origin `vertex`, `edge`, `face`. -/
structure HERec where
  next : Nat
  twin : Nat
  vertex : Nat
  edge : Nat
  face : Nat
deriving DecidableEq, Repr, Inhabited

/-- Exact-rational stand-in for the external `Vec3`. -/
structure Vec3 where
  x : ℚ
  y : ℚ
  z : ℚ
deriving DecidableEq, Repr, Inhabited

instance : Add Vec3 := ⟨fun a b => ⟨a.x + b.x, a.y + b.y, a.z + b.z⟩⟩
instance : Sub Vec3 := ⟨fun a b => ⟨a.x - b.x, a.y - b.y, a.z - b.z⟩⟩
instance : Neg Vec3 := ⟨fun a => ⟨-a.x, -a.y, -a.z⟩⟩

/-- Componentwise division by a scalar (total: division by zero gives zeros). -/
def Vec3.divQ (v : Vec3) (q : ℚ) : Vec3 := ⟨v.x / q, v.y / q, v.z / q⟩

/-- Dot product of the external geometry library. -/
def Vec3.dot (a b : Vec3) : ℚ := a.x * b.x + a.y * b.y + a.z * b.z

/-- Cross product of the external geometry library. -/
def Vec3.cross (a b : Vec3) : Vec3 :=
  ⟨a.y * b.z - a.z * b.y, a.z * b.x - a.x * b.z, a.x * b.y - a.y * b.x⟩

/-- Squared Euclidean norm. -/
def Vec3.normSq (v : Vec3) : ℚ := v.x * v.x + v.y * v.y + v.z * v.z

/-- Exact square root of a rational when numerator and denominator are perfect
squares, junk otherwise (total function). -/
def ratSqrt (q : ℚ) : ℚ := (Nat.sqrt q.num.toNat : ℚ) / (Nat.sqrt q.den : ℚ)

/-- Modelled from the spec: the external `Vec3::normalize` divides a vector by
its Euclidean norm.  The norm is irrational in general; this model computes it
exactly whenever the squared norm is a perfect square and returns junk values
otherwise.  The only claims that evaluate it concretely do not depend on the
value (the simplifier's control flow ignores quadric magnitudes). -/
def Vec3.normalize (v : Vec3) : Vec3 := v.divQ (ratSqrt v.normSq)

/-- Record of one vertex: position and canonical outgoing half-edge. -/
structure VRec where
  pos : Vec3
  he : Nat
deriving DecidableEq, Repr, Inhabited

/-- Record of one edge: canonical half-edge. -/
structure ERec where
  he : Nat
deriving DecidableEq, Repr, Inhabited

/-- Record of one face: canonical half-edge and boundary flag. -/
structure FRec where
  he : Nat
  boundary : Bool
deriving DecidableEq, Repr, Inhabited

/-- Lookup in an association list keyed by handle. -/
def findA {α : Type} (l : List (Nat × α)) (k : Nat) : Option α :=
  match l with
  | [] => none
  | p :: rest => if p.1 = k then some p.2 else findA rest k

/-- Update the entry at a key, leaving other entries untouched. -/
def updA {α : Type} (l : List (Nat × α)) (k : Nat) (f : α → α) : List (Nat × α) :=
  l.map fun p => if p.1 = k then (p.1, f p.2) else p

/-- Delete the entry at a key. -/
def delA {α : Type} (l : List (Nat × α)) (k : Nat) : List (Nat × α) :=
  l.filter fun p => p.1 != k

/-- Key membership in an association list. -/
def hasA {α : Type} (l : List (Nat × α)) (k : Nat) : Bool :=
  (findA l k).isSome

/-- The mesh: four pools plus the allocator's fresh-id counter. -/
structure Mesh where
  hs : List (Nat × HERec)
  vs : List (Nat × VRec)
  es : List (Nat × ERec)
  fs : List (Nat × FRec)
  fresh : Nat
deriving DecidableEq, Repr

/-- Half-edge record accessor; erased/unknown handles read default fields,
mirroring that the C++ would be dereferencing a dangling iterator. -/
def Mesh.heR (m : Mesh) (h : Nat) : HERec := (findA m.hs h).getD default

/-- The `next` field of a half-edge. -/
def Mesh.nxt (m : Mesh) (h : Nat) : Nat := (m.heR h).next

/-- The `twin` field of a half-edge. -/
def Mesh.twn (m : Mesh) (h : Nat) : Nat := (m.heR h).twin

/-- The origin `vertex` field of a half-edge. -/
def Mesh.hv (m : Mesh) (h : Nat) : Nat := (m.heR h).vertex

/-- The `edge` field of a half-edge. -/
def Mesh.hedge (m : Mesh) (h : Nat) : Nat := (m.heR h).edge

/-- The `face` field of a half-edge. -/
def Mesh.hface (m : Mesh) (h : Nat) : Nat := (m.heR h).face

/-- Vertex record accessor. -/
def Mesh.vR (m : Mesh) (v : Nat) : VRec := (findA m.vs v).getD default

/-- Position of a vertex. -/
def Mesh.vpos (m : Mesh) (v : Nat) : Vec3 := (m.vR v).pos

/-- Canonical outgoing half-edge of a vertex. -/
def Mesh.vhe (m : Mesh) (v : Nat) : Nat := (m.vR v).he

/-- Canonical half-edge of an edge. -/
def Mesh.ehe (m : Mesh) (e : Nat) : Nat := ((findA m.es e).getD default).he

/-- Canonical half-edge of a face. -/
def Mesh.fhe (m : Mesh) (f : Nat) : Nat := ((findA m.fs f).getD default).he

/-- Boundary flag of a face. -/
def Mesh.fbd (m : Mesh) (f : Nat) : Bool := ((findA m.fs f).getD default).boundary

/-- Modelled from the spec: the external `Edge::on_boundary()` returns true
iff either incident face is a boundary face (spec section 4.1). -/
def Mesh.onBoundaryE (m : Mesh) (e : Nat) : Bool :=
  m.fbd (m.hface (m.ehe e)) || m.fbd (m.hface (m.twn (m.ehe e)))

/-- Setter updating the full half-edge record: the C++
`set_neighbors(next, twin, vertex, edge, face)`. -/
def Mesh.setNb (m : Mesh) (h nx tw vx ed fc : Nat) : Mesh :=
  { m with hs := updA m.hs h (fun _ => ⟨nx, tw, vx, ed, fc⟩) }

/-- Set only the `next` field of a half-edge. -/
def Mesh.setNxt (m : Mesh) (h nx : Nat) : Mesh :=
  { m with hs := updA m.hs h (fun r => { r with next := nx }) }

/-- Set only the `twin` field of a half-edge. -/
def Mesh.setTwn (m : Mesh) (h tw : Nat) : Mesh :=
  { m with hs := updA m.hs h (fun r => { r with twin := tw }) }

/-- Set only the `vertex` field of a half-edge. -/
def Mesh.setHv (m : Mesh) (h vx : Nat) : Mesh :=
  { m with hs := updA m.hs h (fun r => { r with vertex := vx }) }

/-- Set only the `edge` field of a half-edge. -/
def Mesh.setHEdge (m : Mesh) (h ed : Nat) : Mesh :=
  { m with hs := updA m.hs h (fun r => { r with edge := ed }) }

/-- Set only the `face` field of a half-edge. -/
def Mesh.setHFace (m : Mesh) (h fc : Nat) : Mesh :=
  { m with hs := updA m.hs h (fun r => { r with face := fc }) }

/-- Set the canonical half-edge of a vertex. -/
def Mesh.setVhe (m : Mesh) (v h : Nat) : Mesh :=
  { m with vs := updA m.vs v (fun r => { r with he := h }) }

/-- Set the position of a vertex. -/
def Mesh.setVpos (m : Mesh) (v : Nat) (p : Vec3) : Mesh :=
  { m with vs := updA m.vs v (fun r => { r with pos := p }) }

/-- Set the canonical half-edge of an edge. -/
def Mesh.setEhe (m : Mesh) (e h : Nat) : Mesh :=
  { m with es := updA m.es e (fun _ => ⟨h⟩) }

/-- Set the canonical half-edge of a face. -/
def Mesh.setFhe (m : Mesh) (f h : Nat) : Mesh :=
  { m with fs := updA m.fs f (fun r => { r with he := h }) }

/-- Allocator `new_halfedge`: returns the new handle and the grown mesh. -/
def Mesh.newHalfedge (m : Mesh) : Nat × Mesh :=
  (m.fresh, { m with hs := (m.fresh, default) :: m.hs, fresh := m.fresh + 1 })

/-- Allocator `new_vertex`. -/
def Mesh.newVertex (m : Mesh) : Nat × Mesh :=
  (m.fresh, { m with vs := (m.fresh, default) :: m.vs, fresh := m.fresh + 1 })

/-- Allocator `new_edge`. -/
def Mesh.newEdge (m : Mesh) : Nat × Mesh :=
  (m.fresh, { m with es := (m.fresh, default) :: m.es, fresh := m.fresh + 1 })

/-- Allocator `new_face` (non-boundary, like the source's default). -/
def Mesh.newFace (m : Mesh) : Nat × Mesh :=
  (m.fresh, { m with fs := (m.fresh, ⟨0, false⟩) :: m.fs, fresh := m.fresh + 1 })

/-- Erase a half-edge from the pool. -/
def Mesh.eraseHE (m : Mesh) (h : Nat) : Mesh := { m with hs := delA m.hs h }

/-- Erase a vertex from the pool. -/
def Mesh.eraseV (m : Mesh) (v : Nat) : Mesh := { m with vs := delA m.vs v }

/-- Erase an edge from the pool. -/
def Mesh.eraseE (m : Mesh) (e : Nat) : Mesh := { m with es := delA m.es e }

/-- Erase a face from the pool. -/
def Mesh.eraseF (m : Mesh) (f : Nat) : Mesh := { m with fs := delA m.fs f }

/-- Bool membership of a half-edge handle among live half-edges. -/
def Mesh.hasHE (m : Mesh) (h : Nat) : Bool := hasA m.hs h

/-- Bool membership of a vertex handle among live vertices. -/
def Mesh.hasV (m : Mesh) (v : Nat) : Bool := hasA m.vs v

/-- Bool membership of an edge handle among live edges. -/
def Mesh.hasE (m : Mesh) (e : Nat) : Bool := hasA m.es e

/-- Bool membership of a face handle among live faces. -/
def Mesh.hasF (m : Mesh) (f : Nat) : Bool := hasA m.fs f

/-! ## Connectivity helpers translated from meshedit.cpp -/

/-- The free function `face_normal` (meshedit.cpp lines 10-14): cross product
of two consecutive edge vectors of the face, normalized. -/
def face_normal (m : Mesh) (f : Nat) : Vec3 :=
  let v1 := m.vpos (m.hv (m.fhe f)) - m.vpos (m.hv (m.twn (m.fhe f)))
  let v2 := m.vpos (m.hv (m.nxt (m.fhe f))) - m.vpos (m.hv (m.twn (m.nxt (m.fhe f))))
  (Vec3.cross v1 v2).normalize

/-- Body-first loop of `num_of_edges` (lines 132-142): count the `next` orbit
of a face, do/while style, with fuel. -/
def numEdgesAux (m : Mesh) (stop : Nat) : Nat → Nat → Nat → Option Nat
  | 0, _, _ => none
  | fuel + 1, cur, count =>
    let count2 := count + 1
    let cur2 := m.nxt cur
    if cur2 = stop then some count2 else numEdgesAux m stop fuel cur2 count2

/-- The helper `num_of_edges(f)`: arity of a face. -/
def num_of_edges (m : Mesh) (fuel f : Nat) : Option Nat :=
  numEdgesAux m (m.fhe f) fuel (m.fhe f) 0

/-- Loop of `can_collapse_edge` (lines 198-211): walk `h := h.twin.next`
around a vertex inserting `h.twin.vertex` into an `std::set`, do/while. -/
def neighborsAux (m : Mesh) (stop : Nat) : Nat → Nat → Finset Nat → Option (Finset Nat)
  | 0, _, _ => none
  | fuel + 1, cur, s =>
    let s2 := insert (m.hv (m.twn cur)) s
    let cur2 := m.nxt (m.twn cur)
    if cur2 = stop then some s2 else neighborsAux m stop fuel cur2 s2

/-- Neighbour-vertex set of the vertex at the origin of `h0`, as the source
collects it (twin-next orbit starting and ending at `h0`). -/
def vertexNeighbors (m : Mesh) (fuel h0 : Nat) : Option (Finset Nat) :=
  neighborsAux m h0 fuel h0 ∅

/-- The predicate `can_collapse_edge(e)` (lines 172-225).  `none` models the
source spinning forever in an orbit walk.  Note the third refusal test
compares edges ACROSS the two incident triangles: `e3 == e4 || e1 == e2`,
where `e3, e1` lie in the twin-side face and `e4, e2` in the other. -/
def can_collapse_edge (m : Mesh) (fuel e : Nat) : Option Bool :=
  if m.onBoundaryE e then some false else
  let h0 := m.ehe e
  let h2 := m.nxt h0
  let h4 := m.nxt h2
  let h1 := m.twn h0
  let h3 := m.nxt h1
  let h5 := m.nxt h3
  let e2 := m.hedge h2
  let e4 := m.hedge h4
  let e1 := m.hedge h5
  let e3 := m.hedge h3
  if m.hv (m.ehe e) = m.hv (m.twn (m.ehe e)) ∨ e3 = e4 ∨ e1 = e2 then some false
  else
    match vertexNeighbors m fuel h0, vertexNeighbors m fuel h1 with
    | some n0, some n1 => some (decide ((n0 ∩ n1).card = 2))
    | _, _ => none

/-- Loop of `get_all_half_edges_of_vertex` (lines 112-130): the counter-parity
walk that alternates a twin step (recording the half-edge) with a next step,
checking the do/while condition after every half-step. -/
def getAllHEsAux (m : Mesh) (stop : Nat) : Nat → Nat → Nat → List Nat → Option (List Nat)
  | 0, _, _, _ => none
  | fuel + 1, cur, counter, acc =>
    if counter % 2 ≠ 0 then
      let cur2 := m.nxt cur
      if cur2 = stop then some acc else getAllHEsAux m stop fuel cur2 (counter + 1) acc
    else
      let acc2 := acc ++ [cur]
      let cur2 := m.twn cur
      if cur2 = stop then some acc2 else getAllHEsAux m stop fuel cur2 (counter + 1) acc2

/-- The helper `get_all_half_edges_of_vertex(v)`: half-edges leaving `v`. -/
def get_all_half_edges_of_vertex (m : Mesh) (fuel v : Nat) : Option (List Nat) :=
  getAllHEsAux m (m.vhe v) fuel (m.vhe v) 0 []

/-- Loop of `all_face_normals` (lines 228-238): visit the faces around a
vertex, recording each normal.  The result is dead in `collapse_edge`, but
the walk itself must terminate, so it is kept. -/
def faceNormalsAux (m : Mesh) (stop : Nat) :
    Nat → Nat → List (Nat × Vec3) → Option (List (Nat × Vec3))
  | 0, _, _ => none
  | fuel + 1, h, acc =>
    let acc2 := acc ++ [(m.hface h, face_normal m (m.hface h))]
    let h2 := m.nxt (m.twn h)
    if h2 = stop then some acc2 else faceNormalsAux m stop fuel h2 acc2

/-- The helper `all_face_normals(v)`. -/
def all_face_normals (m : Mesh) (fuel v : Nat) : Option (List (Nat × Vec3)) :=
  faceNormalsAux m (m.vhe v) fuel (m.vhe v) []

/-- The helper `reassign_erase_for_collapse_edge(mesh, h0, new_v)`
(lines 144-170): collapse one triangle side onto an edge.  All local reads
happen before the writes, exactly as the C++ binds them first. -/
def reassign_erase_for_collapse_edge (m : Mesh) (h0 newV : Nat) : Mesh :=
  let face := m.hface h0
  let h1 := m.nxt h0
  let h2 := m.nxt (m.nxt h0)
  let h3 := m.twn (m.nxt (m.nxt h0))
  let h4 := m.twn (m.nxt h0)
  let v := m.hv h2
  let e1 := m.hedge h1
  let e2 := m.hedge h2
  let m1 := m.setTwn h3 h4
  let m2 := m1.setTwn h4 h3
  let m3 := m2.setHEdge h4 e2
  let m4 := m3.setEhe e2 h4
  let m5 := if m4.vhe v = h2 then m4.setVhe v h4 else m4
  let m6 := m5.setVhe newV h3
  (((m6.eraseF face).eraseHE h1).eraseHE h2).eraseE e1

/-- Do/while of `collapse_edge`'s n-gon splice (lines 288-295): advance
`h := h.next` until `h.next` is the target, returning that predecessor. -/
def prevOfAux (m : Mesh) (target : Nat) : Nat → Nat → Option Nat
  | 0, _ => none
  | fuel + 1, h =>
    let h2 := m.nxt h
    if m.nxt h2 = target then some h2 else prevOfAux m target fuel h2

/-- The else-branch of `collapse_edge` (lines 282-298): splice `e` out of both
face cycles.  The two predecessor walks complete before either write, as in
the source. -/
def spliceOutEdge (m : Mesh) (fuel e : Nat) : Option Mesh :=
  let m1 := m.setFhe (m.hface (m.ehe e)) (m.nxt (m.ehe e))
  let m2 := m1.setFhe (m1.hface (m1.twn (m1.ehe e))) (m1.nxt (m1.twn (m1.ehe e)))
  match prevOfAux m2 (m2.ehe e) fuel (m2.ehe e),
        prevOfAux m2 (m2.twn (m2.ehe e)) fuel (m2.twn (m2.ehe e)) with
  | some p1, some p2 =>
    let m3 := m2.setNxt p1 (m2.nxt (m2.ehe e))
    some (m3.setNxt p2 (m3.nxt (m3.twn (m3.ehe e))))
  | _, _ => none

/-- The operator `collapse_edge(e)` (lines 245-307).  The result is `none`
when an orbit walk in the source would spin forever; `some (m, none)` is the
refusal (the mesh is returned untouched); `some (m2, some v3)` is success.
The final erasures read `e->halfedge()` and its twin before removing the
entries, which is what the store's deferred erasure guarantees the C++. -/
def collapse_edge (m : Mesh) (fuel e : Nat) : Option (Mesh × Option Nat) :=
  match can_collapse_edge m fuel e with
  | none => none
  | some false => some (m, none)
  | some true =>
    match num_of_edges m fuel (m.hface (m.ehe e)) with
    | none => none
    | some n1 =>
      match (if n1 = 3 then
               (num_of_edges m fuel (m.hface (m.twn (m.ehe e)))).map (fun n2 => decide (n2 = 3))
             else some false) with
      | none => none
      | some dbl =>
        let v1 := m.hv (m.ehe e)
        let v2 := m.hv (m.twn (m.ehe e))
        let al := m.newVertex
        let v3 := al.1
        let ma := al.2
        let ma2 := ma.setVpos v3 ((ma.vpos v1 + ma.vpos v2).divQ 2)
        match all_face_normals ma2 fuel v1, all_face_normals ma2 fuel v2 with
        | some _, some _ =>
          match get_all_half_edges_of_vertex ma2 fuel v1,
                get_all_half_edges_of_vertex ma2 fuel v2 with
          | some l1, some l2 =>
            let allL := l1 ++ l2
            let mb := allL.foldl (fun mm h => mm.setHv h v3) ma2
            let mc := mb.setVhe v3 (allL.headD 0)
            match (if dbl then
                     let md := reassign_erase_for_collapse_edge mc (mc.ehe e) v3
                     some (reassign_erase_for_collapse_edge md (md.twn (md.ehe e)) v3)
                   else spliceOutEdge mc fuel e) with
            | none => none
            | some m5 =>
              let he0 := m5.ehe e
              let ht := m5.twn he0
              some (((((m5.eraseE e).eraseHE he0).eraseHE ht).eraseV v1).eraseV v2, some v3)
          | _, _ => none
        | _, _ => none

/-! ## Stub operators (lines 106-110, 313-317, 507-514, 524-531) -/

/-- The operator `erase_edge(e)`: a stub that refuses every input. -/
def erase_edge (m : Mesh) (e : Nat) : Mesh × Option Nat := (m, none)

/-- The operator `collapse_face(f)`: a stub that refuses every input. -/
def collapse_face (m : Mesh) (f : Nat) : Mesh × Option Nat := (m, none)

/-- The operator `bevel_vertex(v)`: a stub that refuses every input. -/
def bevel_vertex (m : Mesh) (v : Nat) : Mesh × Option Nat := (m, none)

/-- The operator `bevel_edge(e)`: a stub that refuses every input. -/
def bevel_edge (m : Mesh) (e : Nat) : Mesh × Option Nat := (m, none)

/-! ## flip_edge (lines 323-379) -/

/-- Pre-test while loop `while (h->next() != target) h = h->next()` used to
reset `h4` and `h7` in `flip_edge`. -/
def whilePrevAux (m : Mesh) (target : Nat) : Nat → Nat → Option Nat
  | 0, _ => none
  | fuel + 1, h => if m.nxt h = target then some h else whilePrevAux m target fuel (m.nxt h)

/-- The operator `flip_edge(e)`.  Refuses, leaving the mesh untouched, when
either incident face is a boundary face; otherwise rewires the ten affected
half-edges and re-picks the canonical half-edges.  Sequential writes read the
current mesh exactly where the source reads fields after earlier writes
(`h6->next()` etc.). -/
def flip_edge (m : Mesh) (fuel e : Nat) : Option (Mesh × Option Nat) :=
  let f0 := m.hface (m.ehe e)
  let f1 := m.hface (m.twn (m.ehe e))
  if m.fbd f0 || m.fbd f1 then some (m, none) else
  let h0 := m.ehe e
  let h1 := m.nxt h0
  let h2 := m.nxt h1
  let h3 := m.twn h0
  let h4 := m.nxt h3
  let h5 := m.nxt h4
  let h6 := m.twn h1
  let h7 := m.twn h2
  let h8 := m.twn h4
  let h9 := m.twn h5
  match whilePrevAux m h0 fuel h4, whilePrevAux m h1 fuel h7 with
  | some h4r, some h7r =>
    let v0 := m.hv h0
    let v1 := m.hv h3
    let v2 := m.hv h8
    let v3 := m.hv h6
    let e1 := m.hedge h5
    let e2 := m.hedge h4r
    let e3 := m.hedge h2
    let e4 := m.hedge h1
    let ma := m.setNb h0 h1 h3 v2 e f0
    let ma := ma.setNb h1 h2 h7r v3 e3 f0
    let ma := ma.setNb h2 h0 h8 v0 e2 f0
    let ma := ma.setNb h3 h4r h0 v3 e f1
    let ma := ma.setNb h4r h5 h9 v2 e1 f1
    let ma := ma.setNb h5 h3 h6 v1 e4 f1
    let ma := ma.setNb h6 (ma.nxt h6) h5 v3 e4 (ma.hface h6)
    let ma := ma.setNb h7r (ma.nxt h7r) h1 v0 e3 (ma.hface h7r)
    let ma := ma.setNb h8 (ma.nxt h8) h2 v2 e2 (ma.hface h8)
    let ma := ma.setNb h9 (ma.nxt h9) h4r v1 e1 (ma.hface h9)
    let ma := ma.setVhe v0 h2
    let ma := ma.setVhe v1 h5
    let ma := ma.setVhe v2 h4r
    let ma := ma.setVhe v3 h3
    let ma := ma.setEhe e h0
    let ma := ma.setEhe e1 h4r
    let ma := ma.setEhe e2 h2
    let ma := ma.setEhe e3 h1
    let ma := ma.setEhe e4 h5
    let ma := ma.setFhe f0 h0
    let ma := ma.setFhe f1 h3
    some (ma, some e)
  | _, _ => none

/-! ## split_edge (lines 386-473) -/

/-- The `h3_prev` walk of `split_edge` (lines 427-431): pre-test while over
`twin.next` looking for the half-edge whose `next` is `h3`, then one more
twin step.  Only reachable in the boundary variant, which the up-front
refusal makes dead code. -/
def splitPrevAux (m : Mesh) (h3 : Nat) : Nat → Nat → Option Nat
  | 0, _ => none
  | fuel + 1, hp =>
    if m.nxt (m.twn hp) = h3 then some (m.twn hp)
    else splitPrevAux m h3 fuel (m.nxt (m.twn hp))

/-- The operator `split_edge(e)`.  Refuses while the mesh is untouched when
either incident face is a boundary face.  Allocations happen in source order
(six half-edges, two faces, one vertex, three edges) before the branch, so
they occur in the boundary variant too. -/
def split_edge (m : Mesh) (fuel e : Nat) : Option (Mesh × Option Nat) :=
  let f0 := m.hface (m.ehe e)
  let f1 := m.hface (m.twn (m.ehe e))
  if m.fbd f0 || m.fbd f1 then some (m, none) else
  let onB := m.onBoundaryE e
  let h0 := m.ehe e
  let h1 := m.nxt h0
  let h2 := m.nxt h1
  let h3 := m.twn h0
  let h4 := m.nxt h3
  let h5 := m.nxt h4
  let h6 := m.twn h1
  let h8 := m.twn h4
  let v0 := m.hv h0
  let v1 := m.hv h3
  let v2 := m.hv h8
  let vert3 := m.hv h6
  let e1 := m.hedge h5
  let e2 := m.hedge h4
  let e3 := m.hedge h2
  let e4 := m.hedge h1
  let a1 := m.newHalfedge
  let h10 := a1.1
  let a2 := a1.2.newHalfedge
  let h11 := a2.1
  let a3 := a2.2.newHalfedge
  let h12 := a3.1
  let a4 := a3.2.newHalfedge
  let h13 := a4.1
  let a5 := a4.2.newHalfedge
  let h14 := a5.1
  let a6 := a5.2.newHalfedge
  let h15 := a6.1
  let a7 := a6.2.newFace
  let f2 := a7.1
  let a8 := a7.2.newFace
  let f3 := a8.1
  let a9 := a8.2.newVertex
  let v4 := a9.1
  let a10 := a9.2.newEdge
  let e5 := a10.1
  let a11 := a10.2.newEdge
  let e6 := a11.1
  let a12 := a11.2.newEdge
  let e7 := a12.1
  let mAl := a12.2
  match (if onB then splitPrevAux mAl h3 fuel h3 else some h3) with
  | none => none
  | some h3p =>
    let ma := mAl.setNb h0 h13 h3 v0 e f0
    let ma := ma.setNb h1 h12 h6 v1 e4 f3
    let ma := ma.setNb h2 h0 (m.twn h2) vert3 e3 f0
    let ma := ma.setNb h11 h1 h10 v4 e5 f3
    let ma := ma.setNb h12 h11 h13 vert3 e6 f3
    let ma := ma.setNb h13 h2 h12 v4 e6 f0
    let ma := ma.setVhe v1 h1
    let ma := ma.setVhe v4 h3
    let ma := ma.setEhe e5 h10
    let ma := ma.setEhe e6 h12
    let ma := ma.setFhe f0 h0
    let ma := ma.setFhe f1 h3
    let ma := ma.setFhe f3 h1
    let mb :=
      if onB then
        let mb := ma.setNb h3 (ma.nxt h3) h0 v4 e f1
        let mb := mb.setNxt h3p h10
        mb.setNb h10 h3 h11 v1 e5 f1
      else
        let mb := ma.setNb h3 h4 h0 v4 e f1
        let mb := mb.setNb h4 h14 h8 v0 e2 f1
        let mb := mb.setNb h5 h10 (m.twn h5) v2 e1 f2
        let mb := mb.setNb h10 h15 h11 v1 e5 f2
        let mb := mb.setNb h14 h3 h15 v2 e7 f1
        let mb := mb.setNb h15 h5 h14 v4 e7 f2
        let mb := mb.setEhe e7 h14
        mb.setFhe f2 h5
    let mc := mb.setVpos v4 ((mb.vpos v0 + mb.vpos v1).divQ 2)
    some (mc, some v4)

/-! ## erase_vertex (lines 41-100) -/

/-- Loop of `collect_half_edges_between` (lines 44-49): starting from
`start->next()`, record half-edges and re-point each origin vertex's
canonical half-edge (a side effect the source performs inside the walk),
until reaching `end->twin()`. -/
def collectBetweenAux (m0 : Mesh) (endTwin : Nat) :
    Nat → Mesh → Nat → List Nat → Option (Mesh × List Nat)
  | 0, _, _, _ => none
  | fuel + 1, m, h, acc =>
    let m2 := m.setVhe (m.hv h) h
    let acc2 := acc ++ [h]
    let h2 := m2.nxt h
    if h2 = endTwin then some (m2, acc2) else collectBetweenAux m0 endTwin fuel m2 h2 acc2

/-- The helper `collect_half_edges_between(start, end)`.  The stop condition
`end->twin()` is stable during the walk (only vertex fields change), so it is
read once up front. -/
def collect_half_edges_between (m : Mesh) (fuel start endH : Nat) :
    Option (Mesh × List Nat) :=
  collectBetweenAux m (m.twn endH) fuel m (m.nxt start) []

/-- Outer do/while of `erase_vertex` (lines 66-74), accumulating the ring
half-edges, the half-edges to erase and the faces to erase.  The loop bound
`v->halfedge()` is re-read each iteration because the inner collection
mutates it. -/
def eraseVertexLoop (v : Nat) :
    Nat → Mesh → Nat → List Nat × List Nat × List Nat →
    Option (Mesh × (List Nat × List Nat × List Nat))
  | 0, _, _, _ => none
  | fuel + 1, m, h, acc =>
    match collect_half_edges_between m (fuel + 1) (m.nxt (m.twn h)) h with
    | none => none
    | some (m2, partL) =>
      let bnd := acc.1 ++ partL
      let heL := acc.2.1 ++ [h, m2.twn h]
      let fL := acc.2.2 ++ [m2.hface h]
      let h2 := m2.nxt (m2.twn h)
      if h2 = m2.vhe v then some (m2, (bnd, heL, fL))
      else eraseVertexLoop v fuel m2 h2 (bnd, heL, fL)

/-- Linking loop of `erase_vertex` (lines 78-84): assign the new face to every
ring half-edge and chain their `next` fields into one cycle. -/
def linkRingAux (face first : Nat) : Mesh → List Nat → Mesh
  | m, [] => m
  | m, [h] => (m.setHFace h face).setNxt h first
  | m, h :: h2 :: rest => linkRingAux face first ((m.setHFace h face).setNxt h h2) (h2 :: rest)

/-- The operator `erase_vertex(v)` (lines 57-100): replace `v` and its ring
with one new face.  The source has NO refusal path: it always returns the new
face.  Each erased half-edge's `edge` field is read before the half-edge
entry is removed (deferred erasure in the C++ store). -/
def erase_vertex (m : Mesh) (fuel v : Nat) : Option (Mesh × Option Nat) :=
  let al := m.newFace
  let face := al.1
  let m1 := al.2
  match eraseVertexLoop v fuel m1 (m1.vhe v) ([], [], []) with
  | none => none
  | some (m2, (bnd0, heL, fL)) =>
    let bnd := bnd0.reverse
    let m3 := linkRingAux face (bnd.headD 0) m2 bnd
    let m4 := m3.setFhe face (bnd.headD 0)
    let m5 := fL.foldl (fun mm f => mm.eraseF f) m4
    let m6 := heL.foldl (fun mm h => let ed := mm.hedge h; (mm.eraseHE h).eraseE ed) m5
    some (m6.eraseV v, some face)

/-! ## triangulate (lines 784-841) -/

/-- Loop of `collect_all_half_edges` (lines 788-792): list the `next` orbit of
a face, do/while with fuel. -/
def collectFaceAux (m : Mesh) (stop : Nat) : Nat → Nat → List Nat → Option (List Nat)
  | 0, _, _ => none
  | fuel + 1, h, acc =>
    let acc2 := acc ++ [h]
    let h2 := m.nxt h
    if h2 = stop then some acc2 else collectFaceAux m stop fuel h2 acc2

/-- The helper `collect_all_half_edges(f)`. -/
def collect_all_half_edges (m : Mesh) (fuel f : Nat) : Option (List Nat) :=
  collectFaceAux m (m.fhe f) fuel (m.fhe f) []

/-- First allocation loop of `triangulate` (lines 811-814): alternately
allocate a face and a half-edge, `k` times. -/
def triAllocLoop : Nat → Mesh → List Nat → List Nat → Mesh × List Nat × List Nat
  | 0, m, facs, hfvs => (m, facs, hfvs)
  | k + 1, m, facs, hfvs =>
    let af := m.newFace
    let ah := af.2.newHalfedge
    triAllocLoop k ah.2 (facs ++ [af.1]) (hfvs ++ [ah.1])

/-- Stitching loop of `triangulate` (lines 817-834): for index `i`, allocate
one edge and the `to_v` half-edge, wire the diagonal pair, relink the fan
half-edge `og[i]` and set the canonical half-edges. -/
def triStitchLoop (og nf hfv : List Nat) : Nat → Nat → Mesh → Mesh
  | 0, _, m => m
  | k + 1, i, m =>
    let ae := m.newEdge
    let ed := ae.1
    let ah := ae.2.newHalfedge
    let toV := ah.1
    let m1 := ah.2
    let fromV := hfv.getD i 0
    let m2 := m1.setNb toV (hfv.getD (i - 1) 0) fromV (m1.hv (og.getD (i + 1) 0)) ed
                (nf.getD (i - 1) 0)
    let m3 := m2.setNb fromV (og.getD (i + 1) 0) toV (m2.hv (og.getD 0 0)) ed (nf.getD i 0)
    let m4 := m3.setNxt (og.getD i 0) toV
    let m5 := m4.setHFace (og.getD i 0) (nf.getD (i - 1) 0)
    let m6 := m5.setFhe (nf.getD (i - 1) 0) toV
    let m7 := m6.setEhe ed fromV
    triStitchLoop og nf hfv k (i + 1) m7

/-- Per-face body of `triangulate` (lines 803-840).  Faces whose orbit has
exactly three half-edges are skipped.  A face whose orbit does not close
within the fuel makes the C++ spin forever; the model skips it, which no
claim exercises.  The loop bound `og.size() - 2` uses truncated `Nat`
subtraction where the C++ `size_t` would wrap for degenerate 0/1-gons. -/
def triangulateFace (m : Mesh) (fuel f : Nat) : Mesh :=
  match collect_all_half_edges m fuel f with
  | none => m
  | some og =>
    if og.length = 3 then m
    else
      let k := og.length - 3
      let ta := triAllocLoop k m [] []
      let m1 := ta.1
      let hfv := og.getD 0 0 :: ta.2.2
      let nf := ta.2.1 ++ [f]
      let m2 := triStitchLoop og nf hfv k 1 m1
      let m3 := m2.setHFace (hfv.getD 0 0) (nf.getD 0 0)
      let m4 := m3.setFhe (nf.getD (nf.length - 1) 0) (og.getD (og.length - 1) 0)
      m4.setNxt (og.getD (og.length - 1) 0) (hfv.getD (hfv.length - 1) 0)

/-- The operator `triangulate()` (lines 800-841): fan-triangulate every face
of arity greater than three.  The source iterates the live face list while
appending new (triangular, hence immediately skipped) faces; the model folds
over the snapshot of faces present at entry, which agrees on every face the
loop body actually changes. -/
def triangulate (m : Mesh) (fuel : Nat) : Mesh :=
  (m.fs.map Prod.fst).foldl (fun mm f => triangulateFace mm fuel f) m

/-! ## The external Mat4/Vec4 geometry, modelled from the spec

The geometry library (`Mat4` with `det`, `inverse`, `outer`, matrix-vector
product) is an external collaborator, out of scope of the source under
`src/`.  Modelled from the spec: 4-vectors, 4x4 matrices with the standard
determinant, the adjugate-based inverse, the outer product, and the
homogeneous application of a matrix to a 3-point.  Fields `aRC` hold the
entry at row `R`, column `C`; the C++ accessor `mat[i][j]` reads column `i`,
row `j`, i.e. field `aji`. -/

structure Vec4 where
  x : ℚ
  y : ℚ
  z : ℚ
  w : ℚ
deriving DecidableEq, Repr, Inhabited

/-- Dot product of 4-vectors. -/
def Vec4.dot (a b : Vec4) : ℚ := a.x * b.x + a.y * b.y + a.z * b.z + a.w * b.w

structure Mat4 where
  a00 : ℚ
  a01 : ℚ
  a02 : ℚ
  a03 : ℚ
  a10 : ℚ
  a11 : ℚ
  a12 : ℚ
  a13 : ℚ
  a20 : ℚ
  a21 : ℚ
  a22 : ℚ
  a23 : ℚ
  a30 : ℚ
  a31 : ℚ
  a32 : ℚ
  a33 : ℚ
deriving DecidableEq, Repr, Inhabited

/-- Modelled from the spec: `Mat4::Zero`. -/
def Mat4.zero : Mat4 := ⟨0, 0, 0, 0, 0, 0, 0, 0, 0, 0, 0, 0, 0, 0, 0, 0⟩

instance : Add Mat4 :=
  ⟨fun A B =>
    ⟨A.a00 + B.a00, A.a01 + B.a01, A.a02 + B.a02, A.a03 + B.a03,
     A.a10 + B.a10, A.a11 + B.a11, A.a12 + B.a12, A.a13 + B.a13,
     A.a20 + B.a20, A.a21 + B.a21, A.a22 + B.a22, A.a23 + B.a23,
     A.a30 + B.a30, A.a31 + B.a31, A.a32 + B.a32, A.a33 + B.a33⟩⟩

/-- Modelled from the spec: the `Mat4` constructor from four column vectors,
as used by `Mat4(Vec4, Vec4, Vec4, Vec4)` in `Edge_Record`. -/
def Mat4.ofCols (c0 c1 c2 c3 : Vec4) : Mat4 :=
  ⟨c0.x, c1.x, c2.x, c3.x,
   c0.y, c1.y, c2.y, c3.y,
   c0.z, c1.z, c2.z, c3.z,
   c0.w, c1.w, c2.w, c3.w⟩

/-- Modelled from the spec: `outer(u, v)`, the 4x4 outer product with entry
`u_R * v_C` at row `R`, column `C`. -/
def Mat4.outer (u v : Vec4) : Mat4 :=
  ⟨u.x * v.x, u.x * v.y, u.x * v.z, u.x * v.w,
   u.y * v.x, u.y * v.y, u.y * v.z, u.y * v.w,
   u.z * v.x, u.z * v.y, u.z * v.z, u.z * v.w,
   u.w * v.x, u.w * v.y, u.w * v.z, u.w * v.w⟩

/-- Modelled from the spec: matrix-vector product, row-major. -/
def Mat4.mulVec4 (A : Mat4) (v : Vec4) : Vec4 :=
  ⟨A.a00 * v.x + A.a01 * v.y + A.a02 * v.z + A.a03 * v.w,
   A.a10 * v.x + A.a11 * v.y + A.a12 * v.z + A.a13 * v.w,
   A.a20 * v.x + A.a21 * v.y + A.a22 * v.z + A.a23 * v.w,
   A.a30 * v.x + A.a31 * v.y + A.a32 * v.z + A.a33 * v.w⟩

/-- Determinant of a 3x3 grid given row-major. -/
def det3 (a b c d e f g h i : ℚ) : ℚ :=
  a * (e * i - f * h) - b * (d * i - f * g) + c * (d * h - e * g)

/-- Modelled from the spec: `Mat4::det()`, Laplace expansion on the first
row. -/
def Mat4.det (A : Mat4) : ℚ :=
  A.a00 * det3 A.a11 A.a12 A.a13 A.a21 A.a22 A.a23 A.a31 A.a32 A.a33
  - A.a01 * det3 A.a10 A.a12 A.a13 A.a20 A.a22 A.a23 A.a30 A.a32 A.a33
  + A.a02 * det3 A.a10 A.a11 A.a13 A.a20 A.a21 A.a23 A.a30 A.a31 A.a33
  - A.a03 * det3 A.a10 A.a11 A.a12 A.a20 A.a21 A.a22 A.a30 A.a31 A.a32

/-- Minor of a 4x4 matrix: determinant of the grid with row `r` and column
`c` deleted (arguments beyond 3 fall through to the last arm). -/
def Mat4.minor (A : Mat4) (r c : Nat) : ℚ :=
  match r, c with
  | 0, 0 => det3 A.a11 A.a12 A.a13 A.a21 A.a22 A.a23 A.a31 A.a32 A.a33
  | 0, 1 => det3 A.a10 A.a12 A.a13 A.a20 A.a22 A.a23 A.a30 A.a32 A.a33
  | 0, 2 => det3 A.a10 A.a11 A.a13 A.a20 A.a21 A.a23 A.a30 A.a31 A.a33
  | 0, _ => det3 A.a10 A.a11 A.a12 A.a20 A.a21 A.a22 A.a30 A.a31 A.a32
  | 1, 0 => det3 A.a01 A.a02 A.a03 A.a21 A.a22 A.a23 A.a31 A.a32 A.a33
  | 1, 1 => det3 A.a00 A.a02 A.a03 A.a20 A.a22 A.a23 A.a30 A.a32 A.a33
  | 1, 2 => det3 A.a00 A.a01 A.a03 A.a20 A.a21 A.a23 A.a30 A.a31 A.a33
  | 1, _ => det3 A.a00 A.a01 A.a02 A.a20 A.a21 A.a22 A.a30 A.a31 A.a32
  | 2, 0 => det3 A.a01 A.a02 A.a03 A.a11 A.a12 A.a13 A.a31 A.a32 A.a33
  | 2, 1 => det3 A.a00 A.a02 A.a03 A.a10 A.a12 A.a13 A.a30 A.a32 A.a33
  | 2, 2 => det3 A.a00 A.a01 A.a03 A.a10 A.a11 A.a13 A.a30 A.a31 A.a33
  | 2, _ => det3 A.a00 A.a01 A.a02 A.a10 A.a11 A.a12 A.a30 A.a31 A.a32
  | _, 0 => det3 A.a01 A.a02 A.a03 A.a11 A.a12 A.a13 A.a21 A.a22 A.a23
  | _, 1 => det3 A.a00 A.a02 A.a03 A.a10 A.a12 A.a13 A.a20 A.a22 A.a23
  | _, 2 => det3 A.a00 A.a01 A.a03 A.a10 A.a11 A.a13 A.a20 A.a21 A.a23
  | _, _ => det3 A.a00 A.a01 A.a02 A.a10 A.a11 A.a12 A.a20 A.a21 A.a22

/-- Modelled from the spec: `Mat4::inverse()` via the adjugate, with entry
`(-1)^(r+c) * minor(c, r) / det` at row `r`, column `c` (total: a singular
matrix yields junk, as the C++ would). -/
def Mat4.inverse (A : Mat4) : Mat4 :=
  let d := A.det
  ⟨A.minor 0 0 / d, -(A.minor 1 0) / d, A.minor 2 0 / d, -(A.minor 3 0) / d,
   -(A.minor 0 1) / d, A.minor 1 1 / d, -(A.minor 2 1) / d, A.minor 3 1 / d,
   A.minor 0 2 / d, -(A.minor 1 2) / d, A.minor 2 2 / d, -(A.minor 3 2) / d,
   -(A.minor 0 3) / d, A.minor 1 3 / d, -(A.minor 2 3) / d, A.minor 3 3 / d⟩

/-- Modelled from the spec: application of a `Mat4` to a `Vec3` as a
homogeneous point (multiply by `(v, 1)` and divide by the resulting `w`),
the external `Mat4 * Vec3` used by `A.inverse() * b`. -/
def Mat4.mulPoint (A : Mat4) (v : Vec3) : Vec3 :=
  let r := A.mulVec4 ⟨v.x, v.y, v.z, 1⟩
  ⟨r.x / r.w, r.y / r.w, r.z / r.w⟩

/-! ## Edge_Record (lines 1088-1125) -/

/-- The `Edge_Record` struct: the candidate edge, the optimal collapse
position, and its quadric cost. -/
structure EdgeRecordT where
  edge : Nat
  optimal : Vec3
  cost : ℚ
deriving DecidableEq, Repr, Inhabited

/-- Lookup of a vertex quadric; `std::unordered_map::operator[]` would
default-construct on a miss (never exercised by the claims). -/
def qfind (vq : List (Nat × Mat4)) (v : Nat) : Mat4 := (findA vq v).getD Mat4.zero

/-- The combined endpoint quadric `endpoints_sum` of the `Edge_Record`
constructor (line 1102). -/
def recK (vq : List (Nat × Mat4)) (m : Mesh) (e : Nat) : Mat4 :=
  qfind vq (m.hv (m.ehe e)) + qfind vq (m.hv (m.twn (m.ehe e)))

/-- The system matrix `A` built from `endpoints_sum` (lines 1104-1107): upper
3x3 block of `K` bordered to 4x4 by the column/row `(0,0,0,1)`; C++ `K[i][j]`
is column `i`, row `j`. -/
def recA (K : Mat4) : Mat4 :=
  Mat4.ofCols ⟨K.a00, K.a10, K.a20, 0⟩ ⟨K.a01, K.a11, K.a21, 0⟩
    ⟨K.a02, K.a12, K.a22, 0⟩ ⟨0, 0, 0, 1⟩

/-- The right-hand side `b = -(K[3][0], K[3][1], K[3][2])` (line 1109). -/
def recB (K : Mat4) : Vec3 := ⟨-K.a03, -K.a13, -K.a23⟩

/-- The `Edge_Record(vertex_quadrics, e)` constructor (lines 1091-1121):
optimal point `A.inverse() * b` when `|det A| > 1/10000` and the edge
midpoint otherwise, and cost `xT K x` with `x = (optimal, 1)`.  The float
literal `1e-4` is modelled by the exact rational it denotes in the spec. -/
def mkEdgeRecord (vq : List (Nat × Mat4)) (m : Mesh) (e : Nat) : EdgeRecordT :=
  let K := recK vq m e
  let A := recA K
  let b := recB K
  let mid := (m.vpos (m.hv (m.ehe e)) + m.vpos (m.hv (m.twn (m.ehe e)))).divQ 2
  let xo := if |A.det| > 1 / 10000 then A.inverse.mulPoint b else mid
  let xv : Vec4 := ⟨xo.x, xo.y, xo.z, 1⟩
  { edge := e, optimal := xo, cost := Vec4.dot (K.mulVec4 xv) xv }

/-! ## PQueue (lines 1128-1211) and simplify (lines 1219-1355) -/

/-- The comparison `operator<(Edge_Record, Edge_Record)` (lines 1128-1135):
cost first, then the stable edge handle (the C++ ties on element address; the
spec's contract is the stable handle identity). -/
def recLT (r1 r2 : EdgeRecordT) : Bool :=
  if r1.cost = r2.cost then decide (r1.edge < r2.edge) else decide (r1.cost < r2.cost)

/-- Two records are equivalent for the `std::set` iff neither is less. -/
def recEquiv (r1 r2 : EdgeRecordT) : Bool := !recLT r1 r2 && !recLT r2 r1

/-- `PQueue::insert`: ordered insertion; inserting an element equivalent to a
present one is a no-op (`std::set` semantics). -/
def qInsert (q : List EdgeRecordT) (r : EdgeRecordT) : List EdgeRecordT :=
  match q with
  | [] => [r]
  | r2 :: rest =>
    if recLT r r2 then r :: r2 :: rest
    else if recLT r2 r then r2 :: qInsert rest r
    else r2 :: rest

/-- `PQueue::remove`: erase the (at most one) equivalent element. -/
def qRemove (q : List EdgeRecordT) (r : EdgeRecordT) : List EdgeRecordT :=
  match q with
  | [] => []
  | r2 :: rest => if recEquiv r r2 then rest else r2 :: qRemove rest r

/-- Store into the `edge_records` map: `operator[]` assignment overwrites or
inserts. -/
def rStore (recs : List (Nat × EdgeRecordT)) (k : Nat) (r : EdgeRecordT) :
    List (Nat × EdgeRecordT) :=
  if hasA recs k then updA recs k (fun _ => r) else (k, r) :: recs

/-- Read from the `edge_records` map; a miss default-constructs in C++
(uninitialized fields; never exercised on the claims' inputs). -/
def rFind (recs : List (Nat × EdgeRecordT)) (k : Nat) : EdgeRecordT :=
  (findA recs k).getD default

/-- Result of `simplify`: a returned boolean plus final mesh, the
empty-queue `top()` dereference (undefined behaviour in the source), or
fuel exhaustion (the source spinning in an orbit walk). -/
inductive SimpOut where
  | out (m : Mesh) (b : Bool)
  | ub
  | spin
deriving DecidableEq, Repr

/-- Per-face loop of `simplify` (lines 1251-1256): build the face quadrics
`outer((n, d), (n, d))` with `d = -dot(n, p)`. -/
def buildFaceQuadrics (m : Mesh) : List (Nat × Mat4) :=
  m.fs.map fun p =>
    let n := face_normal m p.1
    let d := -(Vec3.dot n (m.vpos (m.hv (m.fhe p.1))))
    (p.1, Mat4.outer ⟨n.x, n.y, n.z, d⟩ ⟨n.x, n.y, n.z, d⟩)

/-- Orbit of the per-vertex quadric sum (lines 1261-1265), do/while. -/
def vqOrbitAux (m : Mesh) (fq : List (Nat × Mat4)) (stop : Nat) :
    Nat → Nat → Mat4 → Option Mat4
  | 0, _, _ => none
  | fuel + 1, h, acc =>
    let acc2 := acc + qfind fq (m.hface h)
    let h2 := m.nxt (m.twn h)
    if h2 = stop then some acc2 else vqOrbitAux m fq stop fuel h2 acc2

/-- Per-vertex loop of `simplify` (lines 1259-1267). -/
def buildVertexQuadrics (m : Mesh) (fuel : Nat) (fq : List (Nat × Mat4)) :
    Option (List (Nat × Mat4)) :=
  (m.vs.map Prod.fst).foldr
    (fun v acc =>
      match acc, vqOrbitAux m fq (m.vhe v) fuel (m.vhe v) Mat4.zero with
      | some l, some q => some ((v, q) :: l)
      | _, _ => none)
    (some [])

/-- Per-edge loop of `simplify` (lines 1270-1275): records map and initial
queue, in edge-list order. -/
def buildEdgeRecords (m : Mesh) (vq : List (Nat × Mat4)) :
    List (Nat × EdgeRecordT) × List EdgeRecordT :=
  (m.es.map Prod.fst).foldl
    (fun acc e =>
      let r := mkEdgeRecord vq m e
      (rStore acc.1 e r, qInsert acc.2 r))
    ([], [])

/-- Store into the `vertex_quadrics` map (`operator[]` assignment). -/
def rStoreQ (vq : List (Nat × Mat4)) (k : Nat) (q : Mat4) : List (Nat × Mat4) :=
  if hasA vq k then updA vq k (fun _ => q) else (k, q) :: vq

/-- Result of the inner scan (lines 1288-1294). -/
inductive ScanRes where
  | found (q : List EdgeRecordT) (popped : List Nat) (cheapest : Nat)
  | ubhit
  | nofuel

/-- Inner while of `simplify` (lines 1290-1294): pop records whose edge fails
`can_collapse_edge`, remembering them; reading `top()` of the emptied queue
is the undefined behaviour recorded as `ubhit`. -/
def scanLoop (m : Mesh) (cfuel : Nat) :
    Nat → List EdgeRecordT → List Nat → Nat → ScanRes
  | 0, _, _, _ => .nofuel
  | fuel + 1, q, popped, cheapest =>
    match can_collapse_edge m cfuel cheapest with
    | none => .nofuel
    | some true => .found q popped cheapest
    | some false =>
      let q2 := q.drop 1
      let popped2 := popped ++ [cheapest]
      match q2.head? with
      | none => .ubhit
      | some r => scanLoop m cfuel fuel q2 popped2 r.edge

/-- Removal orbit (lines 1314-1319 and 1321-1326): for each half-edge around
an endpoint, remove a freshly built record for its edge from the queue and
drop the edge from the records map. -/
def removeIncidentAux (m : Mesh) (vq : List (Nat × Mat4)) (stop : Nat) :
    Nat → Nat → List EdgeRecordT → List (Nat × EdgeRecordT) →
    Option (List EdgeRecordT × List (Nat × EdgeRecordT))
  | 0, _, _, _ => none
  | fuel + 1, h, q, recs =>
    let q2 := qRemove q (mkEdgeRecord vq m (m.hedge h))
    let recs2 := delA recs (m.hedge h)
    let h2 := m.nxt (m.twn h)
    if h2 = stop then some (q2, recs2) else removeIncidentAux m vq stop fuel h2 q2 recs2

/-- Insertion orbit (lines 1339-1345): build a fresh record for every edge
around the new vertex, inserting into queue and records map. -/
def insertIncidentAux (m : Mesh) (vq : List (Nat × Mat4)) (stop : Nat) :
    Nat → Nat → List EdgeRecordT → List (Nat × EdgeRecordT) →
    Option (List EdgeRecordT × List (Nat × EdgeRecordT))
  | 0, _, _, _ => none
  | fuel + 1, h, q, recs =>
    let r := mkEdgeRecord vq m (m.hedge h)
    let q2 := qInsert q r
    let recs2 := rStore recs (m.hedge h) r
    let h2 := m.nxt (m.twn h)
    if h2 = stop then some (q2, recs2) else insertIncidentAux m vq stop fuel h2 q2 recs2

/-- Main while of `simplify` (lines 1286-1349).  One fuel unit per iteration;
`faceCount` is the face count captured before the loop and `ofuel` the fuel
handed to inner walks.  Note the faithful quirk: the uncollapsible records
are reinserted BEFORE `edge_queue.pop()`, so the pop removes the currently
cheapest element, not necessarily the chosen edge's record. -/
def simpLoop (faceCount ofuel : Nat) :
    Nat → Mesh → List (Nat × Mat4) → List (Nat × EdgeRecordT) →
    List EdgeRecordT → Nat → SimpOut
  | 0, _, _, _, _, _ => .spin
  | fuel + 1, m, vq, recs, q, count =>
    if count > max (faceCount / 4) 4 ∧ 0 < q.length then
      match q.head? with
      | none => .ub
      | some top0 =>
        match scanLoop m ofuel (q.length + 1) q [] top0.edge with
        | .nofuel => .spin
        | .ubhit => .ub
        | .found q2 popped cheapest =>
          let q3 := popped.foldl (fun qq pe => qInsert qq (rFind recs pe)) q2
          let bestEdge := cheapest
          let optPoint := (rFind recs bestEdge).optimal
          let q4 := q3.drop 1
          let newQuadric := qfind vq (m.hv (m.ehe bestEdge)) +
              qfind vq (m.hv (m.twn (m.ehe bestEdge)))
          match removeIncidentAux m vq (m.ehe bestEdge) ofuel (m.ehe bestEdge) q4 recs with
          | none => .spin
          | some (q5, recs2) =>
            match removeIncidentAux m vq (m.twn (m.ehe bestEdge)) ofuel
                (m.twn (m.ehe bestEdge)) q5 recs2 with
            | none => .spin
            | some (q6, recs3) =>
              match collapse_edge m ofuel bestEdge with
              | none => .spin
              | some (m2, none) => simpLoop faceCount ofuel fuel m2 vq recs3 q6 count
              | some (m2, some vnew) =>
                let m3 := m2.setVpos vnew optPoint
                let vq2 := rStoreQ vq vnew newQuadric
                match insertIncidentAux m3 vq2 (m3.vhe vnew) ofuel (m3.vhe vnew) q6 recs3 with
                | none => .spin
                | some (q7, recs4) =>
                  simpLoop faceCount ofuel fuel m3 vq2 recs4 q7 (count - 2)
    else .out m true

/-- The operator `simplify()` (lines 1219-1355): quadrics, records, queue,
then the greedy collapse loop.  The physical-erasure variant
`collapse_edge_erase` coincides with `collapse_edge` in this model because
erasure is immediate here (spec section 3, Lifecycle). -/
def simplify (m : Mesh) (fuel : Nat) : SimpOut :=
  let fq := buildFaceQuadrics m
  let faceCount := m.fs.length
  match buildVertexQuadrics m fuel fq with
  | none => .spin
  | some vq =>
    let br := buildEdgeRecords m vq
    simpLoop faceCount fuel fuel m vq br.1 br.2 faceCount

/-! ## Concrete meshes used as witnesses and counterexamples -/

/-- A regular tetrahedron: 4 vertices, 6 edges, 12 half-edges, 4 faces, no
boundary.  Faces (0 1 2), (0 2 3), (0 3 1), (1 3 2) in outward orientation. -/
def TetM : Mesh :=
  { hs := [(10, ⟨11, 18, 0, 30, 40⟩), (11, ⟨12, 21, 1, 31, 40⟩), (12, ⟨10, 13, 2, 32, 40⟩),
           (13, ⟨14, 12, 0, 32, 41⟩), (14, ⟨15, 20, 2, 33, 41⟩), (15, ⟨13, 16, 3, 34, 41⟩),
           (16, ⟨17, 15, 0, 34, 42⟩), (17, ⟨18, 19, 3, 35, 42⟩), (18, ⟨16, 10, 1, 30, 42⟩),
           (19, ⟨20, 17, 1, 35, 43⟩), (20, ⟨21, 14, 3, 33, 43⟩), (21, ⟨19, 11, 2, 31, 43⟩)],
    vs := [(0, ⟨⟨0, 0, 0⟩, 10⟩), (1, ⟨⟨1, 0, 0⟩, 11⟩),
           (2, ⟨⟨0, 1, 0⟩, 12⟩), (3, ⟨⟨0, 0, 1⟩, 15⟩)],
    es := [(30, ⟨10⟩), (31, ⟨11⟩), (32, ⟨12⟩), (33, ⟨14⟩), (34, ⟨15⟩), (35, ⟨17⟩)],
    fs := [(40, ⟨10, false⟩), (41, ⟨13, false⟩), (42, ⟨16, false⟩), (43, ⟨19, false⟩)],
    fresh := 50 }

/-- Two triangles (0 1 2) and (1 0 2) glued along edges {0,1} and {0,2}
(half-edges 14/12 are twins on the shared edge 21), completed by a 3-gon face
32 and a 1-gon face 33 that close the structure with a self-loop edge 24 at
vertex 1.  Twin involution, face cycles, `next.vertex = twin.vertex` and all
vertex umbrella orbits hold, yet edge 20 makes `can_collapse_edge` refuse
through `e3 == e4` while both endpoints keep exactly two shared neighbour
vertices and no single face repeats an edge. -/
def MeshShared : Mesh :=
  { hs := [(10, ⟨11, 13, 0, 20, 30⟩), (11, ⟨12, 16, 1, 22, 30⟩), (12, ⟨10, 14, 2, 21, 30⟩),
           (13, ⟨14, 10, 1, 20, 31⟩), (14, ⟨15, 12, 0, 21, 31⟩), (15, ⟨13, 17, 2, 23, 31⟩),
           (16, ⟨18, 11, 2, 22, 32⟩), (17, ⟨16, 15, 1, 23, 32⟩), (18, ⟨17, 19, 1, 24, 32⟩),
           (19, ⟨19, 18, 1, 24, 33⟩)],
    vs := [(0, ⟨⟨0, 0, 0⟩, 10⟩), (1, ⟨⟨1, 0, 0⟩, 13⟩), (2, ⟨⟨0, 1, 0⟩, 12⟩)],
    es := [(20, ⟨10⟩), (21, ⟨12⟩), (22, ⟨11⟩), (23, ⟨15⟩), (24, ⟨18⟩)],
    fs := [(30, ⟨10, false⟩), (31, ⟨13, false⟩), (32, ⟨17, false⟩), (33, ⟨19, false⟩)],
    fresh := 40 }

/-- A single triangle (0 1 2) whose other side is one boundary face: the
smallest mesh in which every edge touches the boundary. -/
def TriBoundary : Mesh :=
  { hs := [(10, ⟨11, 13, 0, 30, 20⟩), (11, ⟨12, 15, 1, 31, 20⟩), (12, ⟨10, 14, 2, 32, 20⟩),
           (13, ⟨14, 10, 1, 30, 21⟩), (14, ⟨15, 12, 0, 32, 21⟩), (15, ⟨13, 11, 2, 31, 21⟩)],
    vs := [(0, ⟨⟨0, 0, 0⟩, 10⟩), (1, ⟨⟨1, 0, 0⟩, 11⟩), (2, ⟨⟨0, 1, 0⟩, 12⟩)],
    es := [(30, ⟨10⟩), (31, ⟨11⟩), (32, ⟨12⟩)],
    fs := [(20, ⟨10, false⟩), (21, ⟨13, true⟩)],
    fresh := 40 }

/-- A connected component consisting of one single vertex carrying a
self-loop edge whose two half-edges close two 1-gon faces: the last
remaining vertex of its component. -/
def LoneVertex : Mesh :=
  { hs := [(10, ⟨10, 11, 0, 20, 30⟩), (11, ⟨11, 10, 0, 20, 31⟩)],
    vs := [(0, ⟨⟨0, 0, 0⟩, 10⟩)],
    es := [(20, ⟨10⟩)],
    fs := [(30, ⟨10, false⟩), (31, ⟨11, false⟩)],
    fresh := 40 }

/-- Three disjoint "pillows" (two triangles glued along all three edges):
a closed mesh with 6 faces on which every edge fails the link condition. -/
def Pillows3 : Mesh :=
  { hs := [(10, ⟨11, 13, 0, 30, 40⟩), (11, ⟨12, 15, 1, 31, 40⟩), (12, ⟨10, 14, 2, 32, 40⟩),
           (13, ⟨14, 10, 1, 30, 41⟩), (14, ⟨15, 12, 0, 32, 41⟩), (15, ⟨13, 11, 2, 31, 41⟩),
           (16, ⟨17, 19, 3, 33, 42⟩), (17, ⟨18, 21, 4, 34, 42⟩), (18, ⟨16, 20, 5, 35, 42⟩),
           (19, ⟨20, 16, 4, 33, 43⟩), (20, ⟨21, 18, 3, 35, 43⟩), (21, ⟨19, 17, 5, 34, 43⟩),
           (22, ⟨23, 25, 6, 36, 44⟩), (23, ⟨24, 27, 7, 37, 44⟩), (24, ⟨22, 26, 8, 38, 44⟩),
           (25, ⟨26, 22, 7, 36, 45⟩), (26, ⟨27, 24, 6, 38, 45⟩), (27, ⟨25, 23, 8, 37, 45⟩)],
    vs := [(0, ⟨⟨0, 0, 0⟩, 10⟩), (1, ⟨⟨0, 0, 0⟩, 11⟩), (2, ⟨⟨0, 0, 0⟩, 12⟩),
           (3, ⟨⟨0, 0, 0⟩, 16⟩), (4, ⟨⟨0, 0, 0⟩, 17⟩), (5, ⟨⟨0, 0, 0⟩, 18⟩),
           (6, ⟨⟨0, 0, 0⟩, 22⟩), (7, ⟨⟨0, 0, 0⟩, 23⟩), (8, ⟨⟨0, 0, 0⟩, 24⟩)],
    es := [(30, ⟨10⟩), (31, ⟨11⟩), (32, ⟨12⟩), (33, ⟨16⟩), (34, ⟨17⟩), (35, ⟨18⟩),
           (36, ⟨22⟩), (37, ⟨23⟩), (38, ⟨24⟩)],
    fs := [(40, ⟨10, false⟩), (41, ⟨13, false⟩), (42, ⟨16, false⟩), (43, ⟨19, false⟩),
           (44, ⟨22, false⟩), (45, ⟨25, false⟩)],
    fresh := 50 }

/-! ## Claim C1: the collapse link condition -/

/-- Edge list of a face along its `next` orbit. -/
def faceEdgeList (m : Mesh) (fuel f : Nat) : Option (List Nat) :=
  (collect_all_half_edges m fuel f).map (List.map m.hedge)

/-- Spec-side definition, written from the words of claim C1 (and spec
section 4.4): the link condition FAILS when (i) `e` is on the boundary, or
(ii) the two endpoints coincide, or (iii) either incident triangular face
has two of its edges equal, or (iv) the neighbour-vertex sets of the two
endpoints share a number of vertices different from two.  Deliberately a
second definition, to be compared against `can_collapse_edge`, which is
transcribed from the code. -/
def specLinkFails (m : Mesh) (fuel e : Nat) : Option Bool :=
  let h0 := m.ehe e
  let h1 := m.twn h0
  match faceEdgeList m fuel (m.hface h0), faceEdgeList m fuel (m.hface h1),
        vertexNeighbors m fuel h0, vertexNeighbors m fuel h1 with
  | some eds0, some eds1, some n0, some n1 =>
    some (m.onBoundaryE e || decide (m.hv h0 = m.hv h1) ||
          decide (¬ eds0.Nodup) || decide (¬ eds1.Nodup) ||
          decide ((n0 ∩ n1).card ≠ 2))
  | _, _, _, _ => none

/-- The upper-left 3x3 block of a quadric applied to a 3-vector: the left-hand
side of the claim's linear system `A x = b`. -/
def quadUpperMulVec (K : Mat4) (v : Vec3) : Vec3 :=
  ⟨K.a00 * v.x + K.a01 * v.y + K.a02 * v.z,
   K.a10 * v.x + K.a11 * v.y + K.a12 * v.z,
   K.a20 * v.x + K.a21 * v.y + K.a22 * v.z⟩

/-- The vertex quadrics used by the `edge_record_spec` witness: a diagonal
block quadric on each endpoint of `TetM`'s edge 30. -/
def Vq0 : List (Nat × Mat4) :=
  [(0, ⟨1, 0, 0, 1, 0, 1, 0, 2, 0, 0, 1, 3, 0, 0, 0, 0⟩),
   (1, ⟨1, 0, 0, 1, 0, 1, 0, 2, 0, 0, 1, 3, 0, 0, 0, 0⟩)]

theorem findA_updA {α : Type} (l : List (Nat × α)) (k j : Nat) (f : α → α) :
    findA (updA l k f) j =
      if j = k then (findA l j).map f else findA l j := by
  induction l with
  | nil => simp [updA, findA]
  | cons p rest ih =>
    have step : updA (p :: rest) k f =
        (if p.1 = k then (p.1, f p.2) else p) :: updA rest k f := by
      simp [updA]
    rw [step]
    by_cases hpk : p.1 = k
    · by_cases hjk : j = k
      · subst hjk
        simp [findA, hpk, ih]
      · have hpj : ¬ p.1 = j := fun h => hjk (hpk ▸ h).symm
        have hkj : ¬ k = j := fun h => hjk h.symm
        simp [findA, hpk, hpj, hjk, hkj, ih]
    · by_cases hpj : p.1 = j
      · have hjk : ¬ j = k := fun h => hpk (hpj.trans h)
        simp [findA, hpk, hpj, hjk]
      · simp [findA, hpk, hpj, ih]

theorem findA_delA {α : Type} (l : List (Nat × α)) (k j : Nat) :
    findA (delA l k) j = if j = k then none else findA l j := by
  induction l with
  | nil => simp [delA, findA]
  | cons p rest ih =>
    by_cases hpk : p.1 = k
    · have step : delA (p :: rest) k = delA rest k := by
        simp [delA, List.filter_cons, bne_iff_ne, hpk]
      rw [step, ih]
      by_cases hjk : j = k
      · simp [hjk]
      · have hpj : ¬ p.1 = j := fun h => hjk ((h.symm.trans hpk))
        simp [findA, hjk, hpj]
    · have step : delA (p :: rest) k = p :: delA rest k := by
        simp [delA, List.filter_cons, bne_iff_ne, hpk]
      rw [step]
      by_cases hpj : p.1 = j
      · have hjk : ¬ j = k := fun h => hpk (hpj.trans h)
        simp [findA, hpj, hjk]
      · simp [findA, hpj, ih]

theorem length_updA {α : Type} (l : List (Nat × α)) (k : Nat) (f : α → α) :
    (updA l k f).length = l.length := by
  simp [updA]

/-! ## Claims C9, C5, C4, C6, C8 -/

/-- Claim C9: `erase_edge`, `collapse_face`, `bevel_vertex` and `bevel_edge`
return the null sentinel on every input and leave the mesh completely
unchanged: no element allocated, erased or modified. -/
theorem stub_operators_refuse (m : Mesh) (x : Nat) :
    erase_edge m x = (m, none) ∧ collapse_face m x = (m, none) ∧
    bevel_vertex m x = (m, none) ∧ bevel_edge m x = (m, none) :=
  ⟨rfl, rfl, rfl, rfl⟩

/-- Claim C5: on an edge with at least one incident boundary face,
`flip_edge` returns the null sentinel together with the input mesh
bit-identical: no element is allocated or erased and no field is modified. -/
theorem flip_edge_boundary_refuses (m : Mesh) (fuel e : Nat)
    (hb : m.fbd (m.hface (m.ehe e)) = true ∨ m.fbd (m.hface (m.twn (m.ehe e))) = true) :
    flip_edge m fuel e = some (m, none) := by
  unfold flip_edge
  rcases hb with h | h <;> simp [h]

/-- Witness for C5 on the bounded triangle: edge 30 has a boundary face, and
flipping refuses with the mesh unchanged. -/
theorem flip_edge_boundary_refuses_witness :
    flip_edge TriBoundary 30 30 = some (TriBoundary, none) :=
  flip_edge_boundary_refuses TriBoundary 30 30 (Or.inr (by decide))

/-- Counterexample to claim C4: edge 30 of the bounded triangle touches the
boundary, yet `split_edge` refuses outright — the mesh comes back
bit-identical with the null sentinel, so no vertex, edge, or half-edge is
created and no triangle is split.  The boundary-variant branch of the source
(lines 426-432, 453-456) is unreachable: the refusal at lines 393-398 already
fires whenever `e->on_boundary()` would be true. -/
theorem split_edge_boundary_counterexample :
    TriBoundary.onBoundaryE 30 = true ∧
    split_edge TriBoundary 30 30 = some (TriBoundary, none) := by decide

/-- Claim C4 (amended): for every edge that touches the boundary,
`split_edge` returns the null sentinel and leaves the mesh unchanged. -/
theorem split_edge_boundary_refuses (m : Mesh) (fuel e : Nat)
    (hb : m.onBoundaryE e = true) :
    split_edge m fuel e = some (m, none) := by
  unfold Mesh.onBoundaryE at hb
  rw [Bool.or_eq_true] at hb
  unfold split_edge
  rcases hb with h | h <;> simp [h]

/-- Witness for the amended C4. -/
theorem split_edge_boundary_refuses_witness :
    split_edge TriBoundary 30 30 = some (TriBoundary, none) :=
  split_edge_boundary_refuses TriBoundary 30 30 (by decide)

/-- Claim C6 is contradicted by the code (`code_bug`): `erase_vertex` has no
refusal path at all.  On `LoneVertex`, vertex 0 is the last remaining vertex
of its connected component, yet the operator erases it and returns the newly
created face 40 instead of the null sentinel. -/
theorem erase_vertex_never_refuses :
    (erase_vertex LoneVertex 20 0).map (fun p => (p.2, p.1.hasV 0)) =
      some (some 40, false) := by decide

/-- Helper for C8: a fold of `triangulateFace` over faces whose orbits all
have exactly three half-edges is the identity. -/
theorem foldFaces_id (fuel : Nat) (L : List Nat) (m : Mesh)
    (h3 : ∀ f ∈ L, (collect_all_half_edges m fuel f).map List.length = some 3) :
    L.foldl (fun mm f => triangulateFace mm fuel f) m = m := by
  induction L with
  | nil => rfl
  | cons f rest ih =>
    have hf := h3 f (by simp)
    have step : triangulateFace m fuel f = m := by
      unfold triangulateFace
      cases hcol : collect_all_half_edges m fuel f with
      | none => rfl
      | some og =>
        rw [hcol] at hf
        have hlen : og.length = 3 := by simpa using hf
        simp [hlen]
    calc (f :: rest).foldl (fun mm f2 => triangulateFace mm fuel f2) m
        = rest.foldl (fun mm f2 => triangulateFace mm fuel f2) (triangulateFace m fuel f) := rfl
      _ = rest.foldl (fun mm f2 => triangulateFace mm fuel f2) m := by rw [step]
      _ = m := ih (fun g hg => h3 g (by simp [hg]))

/-- Claim C8: on a mesh in which every face has arity exactly three,
`triangulate` skips every face and leaves the mesh unchanged, and is
therefore idempotent: running it twice equals running it once. -/
theorem triangulate_all_triangles_id (m : Mesh) (fuel : Nat)
    (h3 : ∀ f ∈ m.fs.map Prod.fst,
      (collect_all_half_edges m fuel f).map List.length = some 3) :
    triangulate m fuel = m ∧
    triangulate (triangulate m fuel) fuel = triangulate m fuel := by
  have key : triangulate m fuel = m := foldFaces_id fuel (m.fs.map Prod.fst) m h3
  refine ⟨key, ?_⟩
  rw [key, key]

/-- Witness for C8 on the tetrahedron. -/
theorem triangulate_all_triangles_id_witness :
    triangulate TetM 20 = TetM ∧
    triangulate (triangulate TetM 20) 20 = triangulate TetM 20 :=
  triangulate_all_triangles_id TetM 20 (by decide)

/-- Counterexample to claim C1 on `MeshShared` at edge 20: `collapse_edge`
returns the null sentinel (with the mesh untouched) although the link
condition of the claim does NOT fail — the edge is interior, the endpoints
are distinct, both incident triangles have three pairwise distinct edges,
and the endpoints share exactly two neighbour vertices.  The code refuses
through its `e3 == e4` test, which compares edges ACROSS the two faces (the
two triangles share a second edge), not within one face. -/
theorem collapse_link_condition_counterexample :
    collapse_edge MeshShared 30 20 = some (MeshShared, none) ∧
    specLinkFails MeshShared 30 20 = some false := by decide
/-- Characterization of `can_collapse_edge`: on inputs where it terminates,
it answers `false` exactly on the code's four-way refusal condition. -/
theorem can_collapse_edge_spec (m : Mesh) (fuel e : Nat) (n0 n1 : Finset Nat) (b : Bool)
    (hn0 : vertexNeighbors m fuel (m.ehe e) = some n0)
    (hn1 : vertexNeighbors m fuel (m.twn (m.ehe e)) = some n1)
    (hcc : can_collapse_edge m fuel e = some b) :
    (b = false ↔
      (m.onBoundaryE e = true ∨ m.hv (m.ehe e) = m.hv (m.twn (m.ehe e)) ∨
       m.hedge (m.nxt (m.twn (m.ehe e))) = m.hedge (m.nxt (m.nxt (m.ehe e))) ∨
       m.hedge (m.nxt (m.nxt (m.twn (m.ehe e)))) = m.hedge (m.nxt (m.ehe e)) ∨
       (n0 ∩ n1).card ≠ 2)) := by
  simp only [can_collapse_edge] at hcc
  by_cases hb : m.onBoundaryE e = true
  · rw [if_pos hb] at hcc
    have hbf : b = false := by
      have := Option.some_injective _ hcc
      exact this.symm
    simp [hbf, hb]
  · rw [if_neg hb] at hcc
    by_cases hd : m.hv (m.ehe e) = m.hv (m.twn (m.ehe e)) ∨
        m.hedge (m.nxt (m.twn (m.ehe e))) = m.hedge (m.nxt (m.nxt (m.ehe e))) ∨
        m.hedge (m.nxt (m.nxt (m.twn (m.ehe e)))) = m.hedge (m.nxt (m.ehe e))
    · rw [if_pos hd] at hcc
      have hbf : b = false := (Option.some_injective _ hcc).symm
      simp only [hbf]
      constructor
      · intro _
        rcases hd with h | h | h
        · exact Or.inr (Or.inl h)
        · exact Or.inr (Or.inr (Or.inl h))
        · exact Or.inr (Or.inr (Or.inr (Or.inl h)))
      · intro _
        trivial
    · rw [if_neg hd] at hcc
      rw [hn0, hn1] at hcc
      have hbv : b = decide ((n0 ∩ n1).card = 2) := (Option.some_injective _ hcc).symm
      push_neg at hd
      constructor
      · intro hbf
        rw [hbf] at hbv
        have : ¬ (n0 ∩ n1).card = 2 := by
          intro hc
          rw [hc] at hbv
          simp at hbv
        exact Or.inr (Or.inr (Or.inr (Or.inr this)))
      · intro hrhs
        rcases hrhs with h | h | h | h | h
        · exact absurd h hb
        · exact absurd h hd.1
        · exact absurd h hd.2.1
        · exact absurd h hd.2.2
        · rw [hbv]
          simp [h]

/-- Claim C1 (amended): whenever `collapse_edge` terminates, it returns the
null sentinel exactly when the code's link test fails: the edge is on the
boundary, or the two endpoints coincide, or the two incident triangles lie
on top of each other — the cross-face edge equalities
`twin.next.edge = next.next.edge` or `twin.next.next.edge = next.edge` —
or the neighbour-vertex sets collected around the endpoints share a number
of vertices different from two; in every other case it returns a vertex. -/
theorem collapse_edge_refuses_iff (m : Mesh) (fuel e : Nat) (n0 n1 : Finset Nat)
    (r : Option Nat)
    (hn0 : vertexNeighbors m fuel (m.ehe e) = some n0)
    (hn1 : vertexNeighbors m fuel (m.twn (m.ehe e)) = some n1)
    (hres : (collapse_edge m fuel e).map Prod.snd = some r) :
    (r = none ↔
      (m.onBoundaryE e = true ∨ m.hv (m.ehe e) = m.hv (m.twn (m.ehe e)) ∨
       m.hedge (m.nxt (m.twn (m.ehe e))) = m.hedge (m.nxt (m.nxt (m.ehe e))) ∨
       m.hedge (m.nxt (m.nxt (m.twn (m.ehe e)))) = m.hedge (m.nxt (m.ehe e)) ∨
       (n0 ∩ n1).card ≠ 2)) := by
  cases hcc : can_collapse_edge m fuel e with
  | none =>
    exfalso
    unfold collapse_edge at hres
    rw [hcc] at hres
    simp at hres
  | some b =>
    have hspec := can_collapse_edge_spec m fuel e n0 n1 b hn0 hn1 hcc
    cases b with
    | false =>
      have hrn : r = none := by
        unfold collapse_edge at hres
        rw [hcc] at hres
        simpa using hres.symm
      rw [hrn]
      simpa using hspec
    | true =>
      have hrs : ∃ v, r = some v := by
        unfold collapse_edge at hres
        rw [hcc] at hres
        simp only [] at hres
        split at hres
        iterate 6 (all_goals try split at hres)
        all_goals
          first
            | (exfalso; simp at hres; done)
            | (simp at hres; exact ⟨_, hres.symm⟩)
      obtain ⟨v, hv⟩ := hrs
      rw [hv]
      constructor
      · intro hfalse
        exact absurd hfalse (by simp)
      · intro hrhs
        exfalso
        have := hspec.mpr hrhs
        simp at this

/-- Small helper: an option known to be `some` equals `some` of its `getD`. -/
theorem opt_eq_some_getD {α : Type} (o : Option α) (d : α) (h : o.isSome = true) :
    o = some (o.getD d) := by
  cases o with
  | none => simp at h
  | some v => rfl

/-- Witness for the amended C1 at the collapsible tetrahedron edge 30:
both neighbour orbits converge, the collapse succeeds with vertex 50, and
the refusal condition is accordingly false. -/
theorem collapse_edge_refuses_iff_witness :
    ((some 50 : Option Nat) = none ↔
      (TetM.onBoundaryE 30 = true ∨
       TetM.hv (TetM.ehe 30) = TetM.hv (TetM.twn (TetM.ehe 30)) ∨
       TetM.hedge (TetM.nxt (TetM.twn (TetM.ehe 30))) =
         TetM.hedge (TetM.nxt (TetM.nxt (TetM.ehe 30))) ∨
       TetM.hedge (TetM.nxt (TetM.nxt (TetM.twn (TetM.ehe 30)))) =
         TetM.hedge (TetM.nxt (TetM.ehe 30)) ∨
       ((vertexNeighbors TetM 30 (TetM.ehe 30)).getD ∅ ∩
        (vertexNeighbors TetM 30 (TetM.twn (TetM.ehe 30))).getD ∅).card ≠ 2)) :=
  collapse_edge_refuses_iff TetM 30 30
    ((vertexNeighbors TetM 30 (TetM.ehe 30)).getD ∅)
    ((vertexNeighbors TetM 30 (TetM.twn (TetM.ehe 30))).getD ∅)
    (some 50)
    (opt_eq_some_getD _ _ (by decide))
    (opt_eq_some_getD _ _ (by decide))
    (by decide)

/-! ## Lookup lemmas for the mesh setters -/

@[simp]
theorem hasA_updA {α : Type} (l : List (Nat × α)) (k j : Nat) (f : α → α) :
    hasA (updA l k f) j = hasA l j := by
  simp only [hasA, findA_updA]
  split
  · cases findA l j <;> simp
  · rfl

@[simp]
theorem hasA_cons {α : Type} (p : Nat × α) (l : List (Nat × α)) (j : Nat) :
    hasA (p :: l) j = if p.1 = j then true else hasA l j := by
  simp only [hasA, findA]
  split <;> simp

@[simp]
theorem hasA_delA {α : Type} (l : List (Nat × α)) (k j : Nat) :
    hasA (delA l k) j = if j = k then false else hasA l j := by
  simp only [hasA, findA_delA]
  split <;> simp

@[simp]
theorem heR_setNb_ne (m : Mesh) (k a b c d f j : Nat) (hj : j ≠ k) :
    (m.setNb k a b c d f).heR j = m.heR j := by
  simp [Mesh.setNb, Mesh.heR, findA_updA, hj]

@[simp]
theorem heR_setNb_self (m : Mesh) (k a b c d f : Nat) (hin : m.hasHE k = true) :
    (m.setNb k a b c d f).heR k = ⟨a, b, c, d, f⟩ := by
  simp only [Mesh.setNb, Mesh.heR, findA_updA, if_pos rfl]
  simp only [Mesh.hasHE, Mesh.hasV, Mesh.hasE, Mesh.hasF, hasA] at hin
  cases hfa : findA m.hs k with
  | none => rw [hfa] at hin; simp at hin
  | some r => simp

@[simp]
theorem heR_setNxt_ne (m : Mesh) (k nx j : Nat) (hj : j ≠ k) :
    (m.setNxt k nx).heR j = m.heR j := by
  simp [Mesh.setNxt, Mesh.heR, findA_updA, hj]

@[simp]
theorem heR_setNxt_self (m : Mesh) (k nx : Nat) (hin : m.hasHE k = true) :
    (m.setNxt k nx).heR k = { m.heR k with next := nx } := by
  simp only [Mesh.setNxt, Mesh.heR, findA_updA, if_pos rfl]
  simp only [Mesh.hasHE, Mesh.hasV, Mesh.hasE, Mesh.hasF, hasA] at hin
  cases hfa : findA m.hs k with
  | none => rw [hfa] at hin; simp at hin
  | some r => simp

@[simp]
theorem heR_setTwn_ne (m : Mesh) (k tw j : Nat) (hj : j ≠ k) :
    (m.setTwn k tw).heR j = m.heR j := by
  simp [Mesh.setTwn, Mesh.heR, findA_updA, hj]

@[simp]
theorem heR_setTwn_self (m : Mesh) (k tw : Nat) (hin : m.hasHE k = true) :
    (m.setTwn k tw).heR k = { m.heR k with twin := tw } := by
  simp only [Mesh.setTwn, Mesh.heR, findA_updA, if_pos rfl]
  simp only [Mesh.hasHE, Mesh.hasV, Mesh.hasE, Mesh.hasF, hasA] at hin
  cases hfa : findA m.hs k with
  | none => rw [hfa] at hin; simp at hin
  | some r => simp

@[simp]
theorem heR_setHv_ne (m : Mesh) (k vx j : Nat) (hj : j ≠ k) :
    (m.setHv k vx).heR j = m.heR j := by
  simp [Mesh.setHv, Mesh.heR, findA_updA, hj]

@[simp]
theorem heR_setHv_self (m : Mesh) (k vx : Nat) (hin : m.hasHE k = true) :
    (m.setHv k vx).heR k = { m.heR k with vertex := vx } := by
  simp only [Mesh.setHv, Mesh.heR, findA_updA, if_pos rfl]
  simp only [Mesh.hasHE, Mesh.hasV, Mesh.hasE, Mesh.hasF, hasA] at hin
  cases hfa : findA m.hs k with
  | none => rw [hfa] at hin; simp at hin
  | some r => simp

@[simp]
theorem heR_setHEdge_ne (m : Mesh) (k ed j : Nat) (hj : j ≠ k) :
    (m.setHEdge k ed).heR j = m.heR j := by
  simp [Mesh.setHEdge, Mesh.heR, findA_updA, hj]

@[simp]
theorem heR_setHEdge_self (m : Mesh) (k ed : Nat) (hin : m.hasHE k = true) :
    (m.setHEdge k ed).heR k = { m.heR k with edge := ed } := by
  simp only [Mesh.setHEdge, Mesh.heR, findA_updA, if_pos rfl]
  simp only [Mesh.hasHE, Mesh.hasV, Mesh.hasE, Mesh.hasF, hasA] at hin
  cases hfa : findA m.hs k with
  | none => rw [hfa] at hin; simp at hin
  | some r => simp

@[simp]
theorem heR_setHFace_ne (m : Mesh) (k fc j : Nat) (hj : j ≠ k) :
    (m.setHFace k fc).heR j = m.heR j := by
  simp [Mesh.setHFace, Mesh.heR, findA_updA, hj]

@[simp]
theorem heR_setHFace_self (m : Mesh) (k fc : Nat) (hin : m.hasHE k = true) :
    (m.setHFace k fc).heR k = { m.heR k with face := fc } := by
  simp only [Mesh.setHFace, Mesh.heR, findA_updA, if_pos rfl]
  simp only [Mesh.hasHE, Mesh.hasV, Mesh.hasE, Mesh.hasF, hasA] at hin
  cases hfa : findA m.hs k with
  | none => rw [hfa] at hin; simp at hin
  | some r => simp

@[simp]
theorem vR_setVhe_ne (m : Mesh) (v h w : Nat) (hw : w ≠ v) :
    (m.setVhe v h).vR w = m.vR w := by
  simp [Mesh.setVhe, Mesh.vR, findA_updA, hw]

@[simp]
theorem vR_setVhe_self (m : Mesh) (v h : Nat) (hin : m.hasV v = true) :
    (m.setVhe v h).vR v = { m.vR v with he := h } := by
  simp only [Mesh.setVhe, Mesh.vR, findA_updA, if_pos rfl]
  simp only [Mesh.hasHE, Mesh.hasV, Mesh.hasE, Mesh.hasF, hasA] at hin
  cases hfa : findA m.vs v with
  | none => rw [hfa] at hin; simp at hin
  | some r => simp

@[simp]
theorem vpos_setVhe (m : Mesh) (v h w : Nat) : (m.setVhe v h).vpos w = m.vpos w := by
  simp only [Mesh.setVhe, Mesh.vpos, Mesh.vR, findA_updA]
  split
  · cases findA m.vs w <;> simp
  · rfl

@[simp]
theorem vhe_setVpos (m : Mesh) (v : Nat) (p : Vec3) (w : Nat) :
    (m.setVpos v p).vhe w = m.vhe w := by
  simp only [Mesh.setVpos, Mesh.vhe, Mesh.vR, findA_updA]
  split
  · cases findA m.vs w <;> simp
  · rfl

@[simp]
theorem vR_setVpos_ne (m : Mesh) (v : Nat) (p : Vec3) (w : Nat) (hw : w ≠ v) :
    (m.setVpos v p).vR w = m.vR w := by
  simp [Mesh.setVpos, Mesh.vR, findA_updA, hw]

@[simp]
theorem vpos_setVpos_self (m : Mesh) (v : Nat) (p : Vec3) (hin : m.hasV v = true) :
    (m.setVpos v p).vpos v = p := by
  simp only [Mesh.setVpos, Mesh.vpos, Mesh.vR, findA_updA, if_pos rfl]
  simp only [Mesh.hasHE, Mesh.hasV, Mesh.hasE, Mesh.hasF, hasA] at hin
  cases hfa : findA m.vs v with
  | none => rw [hfa] at hin; simp at hin
  | some r => simp

@[simp]
theorem eR_setEhe_ne (m : Mesh) (k h j : Nat) (hj : j ≠ k) :
    (m.setEhe k h).ehe j = m.ehe j := by
  simp [Mesh.setEhe, Mesh.ehe, findA_updA, hj]

@[simp]
theorem ehe_setEhe_self (m : Mesh) (k h : Nat) (hin : m.hasE k = true) :
    (m.setEhe k h).ehe k = h := by
  simp only [Mesh.setEhe, Mesh.ehe, findA_updA, if_pos rfl]
  simp only [Mesh.hasHE, Mesh.hasV, Mesh.hasE, Mesh.hasF, hasA] at hin
  cases hfa : findA m.es k with
  | none => rw [hfa] at hin; simp at hin
  | some r => simp

@[simp]
theorem fR_setFhe_ne (m : Mesh) (k h j : Nat) (hj : j ≠ k) :
    (m.setFhe k h).fhe j = m.fhe j ∧ (m.setFhe k h).fbd j = m.fbd j := by
  constructor <;> simp [Mesh.setFhe, Mesh.fhe, Mesh.fbd, findA_updA, hj]

@[simp]
theorem fbd_setFhe (m : Mesh) (k h w : Nat) : (m.setFhe k h).fbd w = m.fbd w := by
  simp only [Mesh.setFhe, Mesh.fbd, findA_updA]
  split
  · cases findA m.fs w <;> simp
  · rfl

@[simp]
theorem fhe_setFhe_self (m : Mesh) (k h : Nat) (hin : m.hasF k = true) :
    (m.setFhe k h).fhe k = h := by
  simp only [Mesh.setFhe, Mesh.fhe, findA_updA, if_pos rfl]
  simp only [Mesh.hasHE, Mesh.hasV, Mesh.hasE, Mesh.hasF, hasA] at hin
  cases hfa : findA m.fs k with
  | none => rw [hfa] at hin; simp at hin
  | some r => simp

/-! ## Cross-pool preservation lemmas (all definitional) -/

@[simp]
theorem vpos_setNb (m : Mesh) (k a b c d f : Nat) (w : Nat) :
    (m.setNb k a b c d f).vpos w = m.vpos w := rfl

@[simp]
theorem vhe_setNb (m : Mesh) (k a b c d f : Nat) (w : Nat) :
    (m.setNb k a b c d f).vhe w = m.vhe w := rfl

@[simp]
theorem hasV_setNb (m : Mesh) (k a b c d f : Nat) (w : Nat) :
    (m.setNb k a b c d f).hasV w = m.hasV w := rfl

@[simp]
theorem ehe_setNb (m : Mesh) (k a b c d f : Nat) (j : Nat) :
    (m.setNb k a b c d f).ehe j = m.ehe j := rfl

@[simp]
theorem hasE_setNb (m : Mesh) (k a b c d f : Nat) (j : Nat) :
    (m.setNb k a b c d f).hasE j = m.hasE j := rfl

@[simp]
theorem fhe_setNb (m : Mesh) (k a b c d f : Nat) (j : Nat) :
    (m.setNb k a b c d f).fhe j = m.fhe j := rfl

@[simp]
theorem fbd_setNb (m : Mesh) (k a b c d f : Nat) (j : Nat) :
    (m.setNb k a b c d f).fbd j = m.fbd j := rfl

@[simp]
theorem hasF_setNb (m : Mesh) (k a b c d f : Nat) (j : Nat) :
    (m.setNb k a b c d f).hasF j = m.hasF j := rfl

@[simp]
theorem vpos_setNxt (m : Mesh) (k n : Nat) (w : Nat) :
    (m.setNxt k n).vpos w = m.vpos w := rfl

@[simp]
theorem vhe_setNxt (m : Mesh) (k n : Nat) (w : Nat) :
    (m.setNxt k n).vhe w = m.vhe w := rfl

@[simp]
theorem hasV_setNxt (m : Mesh) (k n : Nat) (w : Nat) :
    (m.setNxt k n).hasV w = m.hasV w := rfl

@[simp]
theorem ehe_setNxt (m : Mesh) (k n : Nat) (j : Nat) :
    (m.setNxt k n).ehe j = m.ehe j := rfl

@[simp]
theorem hasE_setNxt (m : Mesh) (k n : Nat) (j : Nat) :
    (m.setNxt k n).hasE j = m.hasE j := rfl

@[simp]
theorem fhe_setNxt (m : Mesh) (k n : Nat) (j : Nat) :
    (m.setNxt k n).fhe j = m.fhe j := rfl

@[simp]
theorem fbd_setNxt (m : Mesh) (k n : Nat) (j : Nat) :
    (m.setNxt k n).fbd j = m.fbd j := rfl

@[simp]
theorem hasF_setNxt (m : Mesh) (k n : Nat) (j : Nat) :
    (m.setNxt k n).hasF j = m.hasF j := rfl

@[simp]
theorem vpos_setTwn (m : Mesh) (k t : Nat) (w : Nat) :
    (m.setTwn k t).vpos w = m.vpos w := rfl

@[simp]
theorem vhe_setTwn (m : Mesh) (k t : Nat) (w : Nat) :
    (m.setTwn k t).vhe w = m.vhe w := rfl

@[simp]
theorem hasV_setTwn (m : Mesh) (k t : Nat) (w : Nat) :
    (m.setTwn k t).hasV w = m.hasV w := rfl

@[simp]
theorem ehe_setTwn (m : Mesh) (k t : Nat) (j : Nat) :
    (m.setTwn k t).ehe j = m.ehe j := rfl

@[simp]
theorem hasE_setTwn (m : Mesh) (k t : Nat) (j : Nat) :
    (m.setTwn k t).hasE j = m.hasE j := rfl

@[simp]
theorem fhe_setTwn (m : Mesh) (k t : Nat) (j : Nat) :
    (m.setTwn k t).fhe j = m.fhe j := rfl

@[simp]
theorem fbd_setTwn (m : Mesh) (k t : Nat) (j : Nat) :
    (m.setTwn k t).fbd j = m.fbd j := rfl

@[simp]
theorem hasF_setTwn (m : Mesh) (k t : Nat) (j : Nat) :
    (m.setTwn k t).hasF j = m.hasF j := rfl

@[simp]
theorem vpos_setHv (m : Mesh) (k v2 : Nat) (w : Nat) :
    (m.setHv k v2).vpos w = m.vpos w := rfl

@[simp]
theorem vhe_setHv (m : Mesh) (k v2 : Nat) (w : Nat) :
    (m.setHv k v2).vhe w = m.vhe w := rfl

@[simp]
theorem hasV_setHv (m : Mesh) (k v2 : Nat) (w : Nat) :
    (m.setHv k v2).hasV w = m.hasV w := rfl

@[simp]
theorem ehe_setHv (m : Mesh) (k v2 : Nat) (j : Nat) :
    (m.setHv k v2).ehe j = m.ehe j := rfl

@[simp]
theorem hasE_setHv (m : Mesh) (k v2 : Nat) (j : Nat) :
    (m.setHv k v2).hasE j = m.hasE j := rfl

@[simp]
theorem fhe_setHv (m : Mesh) (k v2 : Nat) (j : Nat) :
    (m.setHv k v2).fhe j = m.fhe j := rfl

@[simp]
theorem fbd_setHv (m : Mesh) (k v2 : Nat) (j : Nat) :
    (m.setHv k v2).fbd j = m.fbd j := rfl

@[simp]
theorem hasF_setHv (m : Mesh) (k v2 : Nat) (j : Nat) :
    (m.setHv k v2).hasF j = m.hasF j := rfl

@[simp]
theorem vpos_setHEdge (m : Mesh) (k d : Nat) (w : Nat) :
    (m.setHEdge k d).vpos w = m.vpos w := rfl

@[simp]
theorem vhe_setHEdge (m : Mesh) (k d : Nat) (w : Nat) :
    (m.setHEdge k d).vhe w = m.vhe w := rfl

@[simp]
theorem hasV_setHEdge (m : Mesh) (k d : Nat) (w : Nat) :
    (m.setHEdge k d).hasV w = m.hasV w := rfl

@[simp]
theorem ehe_setHEdge (m : Mesh) (k d : Nat) (j : Nat) :
    (m.setHEdge k d).ehe j = m.ehe j := rfl

@[simp]
theorem hasE_setHEdge (m : Mesh) (k d : Nat) (j : Nat) :
    (m.setHEdge k d).hasE j = m.hasE j := rfl

@[simp]
theorem fhe_setHEdge (m : Mesh) (k d : Nat) (j : Nat) :
    (m.setHEdge k d).fhe j = m.fhe j := rfl

@[simp]
theorem fbd_setHEdge (m : Mesh) (k d : Nat) (j : Nat) :
    (m.setHEdge k d).fbd j = m.fbd j := rfl

@[simp]
theorem hasF_setHEdge (m : Mesh) (k d : Nat) (j : Nat) :
    (m.setHEdge k d).hasF j = m.hasF j := rfl

@[simp]
theorem vpos_setHFace (m : Mesh) (k f : Nat) (w : Nat) :
    (m.setHFace k f).vpos w = m.vpos w := rfl

@[simp]
theorem vhe_setHFace (m : Mesh) (k f : Nat) (w : Nat) :
    (m.setHFace k f).vhe w = m.vhe w := rfl

@[simp]
theorem hasV_setHFace (m : Mesh) (k f : Nat) (w : Nat) :
    (m.setHFace k f).hasV w = m.hasV w := rfl

@[simp]
theorem ehe_setHFace (m : Mesh) (k f : Nat) (j : Nat) :
    (m.setHFace k f).ehe j = m.ehe j := rfl

@[simp]
theorem hasE_setHFace (m : Mesh) (k f : Nat) (j : Nat) :
    (m.setHFace k f).hasE j = m.hasE j := rfl

@[simp]
theorem fhe_setHFace (m : Mesh) (k f : Nat) (j : Nat) :
    (m.setHFace k f).fhe j = m.fhe j := rfl

@[simp]
theorem fbd_setHFace (m : Mesh) (k f : Nat) (j : Nat) :
    (m.setHFace k f).fbd j = m.fbd j := rfl

@[simp]
theorem hasF_setHFace (m : Mesh) (k f : Nat) (j : Nat) :
    (m.setHFace k f).hasF j = m.hasF j := rfl

@[simp]
theorem vpos_eraseHE (m : Mesh) (k : Nat) (w : Nat) :
    (m.eraseHE k).vpos w = m.vpos w := rfl

@[simp]
theorem vhe_eraseHE (m : Mesh) (k : Nat) (w : Nat) :
    (m.eraseHE k).vhe w = m.vhe w := rfl

@[simp]
theorem hasV_eraseHE (m : Mesh) (k : Nat) (w : Nat) :
    (m.eraseHE k).hasV w = m.hasV w := rfl

@[simp]
theorem ehe_eraseHE (m : Mesh) (k : Nat) (j : Nat) :
    (m.eraseHE k).ehe j = m.ehe j := rfl

@[simp]
theorem hasE_eraseHE (m : Mesh) (k : Nat) (j : Nat) :
    (m.eraseHE k).hasE j = m.hasE j := rfl

@[simp]
theorem fhe_eraseHE (m : Mesh) (k : Nat) (j : Nat) :
    (m.eraseHE k).fhe j = m.fhe j := rfl

@[simp]
theorem fbd_eraseHE (m : Mesh) (k : Nat) (j : Nat) :
    (m.eraseHE k).fbd j = m.fbd j := rfl

@[simp]
theorem hasF_eraseHE (m : Mesh) (k : Nat) (j : Nat) :
    (m.eraseHE k).hasF j = m.hasF j := rfl

@[simp]
theorem heR_setVhe (m : Mesh) (v2 h : Nat) (j : Nat) :
    (m.setVhe v2 h).heR j = m.heR j := rfl

@[simp]
theorem hasHE_setVhe (m : Mesh) (v2 h : Nat) (j : Nat) :
    (m.setVhe v2 h).hasHE j = m.hasHE j := rfl

@[simp]
theorem ehe_setVhe (m : Mesh) (v2 h : Nat) (j : Nat) :
    (m.setVhe v2 h).ehe j = m.ehe j := rfl

@[simp]
theorem hasE_setVhe (m : Mesh) (v2 h : Nat) (j : Nat) :
    (m.setVhe v2 h).hasE j = m.hasE j := rfl

@[simp]
theorem fhe_setVhe (m : Mesh) (v2 h : Nat) (j : Nat) :
    (m.setVhe v2 h).fhe j = m.fhe j := rfl

@[simp]
theorem fbd_setVhe (m : Mesh) (v2 h : Nat) (j : Nat) :
    (m.setVhe v2 h).fbd j = m.fbd j := rfl

@[simp]
theorem hasF_setVhe (m : Mesh) (v2 h : Nat) (j : Nat) :
    (m.setVhe v2 h).hasF j = m.hasF j := rfl

@[simp]
theorem heR_setVpos (m : Mesh) (v2 : Nat) (p : Vec3) (j : Nat) :
    (m.setVpos v2 p).heR j = m.heR j := rfl

@[simp]
theorem hasHE_setVpos (m : Mesh) (v2 : Nat) (p : Vec3) (j : Nat) :
    (m.setVpos v2 p).hasHE j = m.hasHE j := rfl

@[simp]
theorem ehe_setVpos (m : Mesh) (v2 : Nat) (p : Vec3) (j : Nat) :
    (m.setVpos v2 p).ehe j = m.ehe j := rfl

@[simp]
theorem hasE_setVpos (m : Mesh) (v2 : Nat) (p : Vec3) (j : Nat) :
    (m.setVpos v2 p).hasE j = m.hasE j := rfl

@[simp]
theorem fhe_setVpos (m : Mesh) (v2 : Nat) (p : Vec3) (j : Nat) :
    (m.setVpos v2 p).fhe j = m.fhe j := rfl

@[simp]
theorem fbd_setVpos (m : Mesh) (v2 : Nat) (p : Vec3) (j : Nat) :
    (m.setVpos v2 p).fbd j = m.fbd j := rfl

@[simp]
theorem hasF_setVpos (m : Mesh) (v2 : Nat) (p : Vec3) (j : Nat) :
    (m.setVpos v2 p).hasF j = m.hasF j := rfl

@[simp]
theorem heR_eraseV (m : Mesh) (v2 : Nat) (j : Nat) :
    (m.eraseV v2).heR j = m.heR j := rfl

@[simp]
theorem hasHE_eraseV (m : Mesh) (v2 : Nat) (j : Nat) :
    (m.eraseV v2).hasHE j = m.hasHE j := rfl

@[simp]
theorem ehe_eraseV (m : Mesh) (v2 : Nat) (j : Nat) :
    (m.eraseV v2).ehe j = m.ehe j := rfl

@[simp]
theorem hasE_eraseV (m : Mesh) (v2 : Nat) (j : Nat) :
    (m.eraseV v2).hasE j = m.hasE j := rfl

@[simp]
theorem fhe_eraseV (m : Mesh) (v2 : Nat) (j : Nat) :
    (m.eraseV v2).fhe j = m.fhe j := rfl

@[simp]
theorem fbd_eraseV (m : Mesh) (v2 : Nat) (j : Nat) :
    (m.eraseV v2).fbd j = m.fbd j := rfl

@[simp]
theorem hasF_eraseV (m : Mesh) (v2 : Nat) (j : Nat) :
    (m.eraseV v2).hasF j = m.hasF j := rfl

@[simp]
theorem heR_setEhe (m : Mesh) (k h : Nat) (j : Nat) :
    (m.setEhe k h).heR j = m.heR j := rfl

@[simp]
theorem hasHE_setEhe (m : Mesh) (k h : Nat) (j : Nat) :
    (m.setEhe k h).hasHE j = m.hasHE j := rfl

@[simp]
theorem vpos_setEhe (m : Mesh) (k h : Nat) (w : Nat) :
    (m.setEhe k h).vpos w = m.vpos w := rfl

@[simp]
theorem vhe_setEhe (m : Mesh) (k h : Nat) (w : Nat) :
    (m.setEhe k h).vhe w = m.vhe w := rfl

@[simp]
theorem hasV_setEhe (m : Mesh) (k h : Nat) (w : Nat) :
    (m.setEhe k h).hasV w = m.hasV w := rfl

@[simp]
theorem fhe_setEhe (m : Mesh) (k h : Nat) (j : Nat) :
    (m.setEhe k h).fhe j = m.fhe j := rfl

@[simp]
theorem fbd_setEhe (m : Mesh) (k h : Nat) (j : Nat) :
    (m.setEhe k h).fbd j = m.fbd j := rfl

@[simp]
theorem hasF_setEhe (m : Mesh) (k h : Nat) (j : Nat) :
    (m.setEhe k h).hasF j = m.hasF j := rfl

@[simp]
theorem heR_eraseE (m : Mesh) (k : Nat) (j : Nat) :
    (m.eraseE k).heR j = m.heR j := rfl

@[simp]
theorem hasHE_eraseE (m : Mesh) (k : Nat) (j : Nat) :
    (m.eraseE k).hasHE j = m.hasHE j := rfl

@[simp]
theorem vpos_eraseE (m : Mesh) (k : Nat) (w : Nat) :
    (m.eraseE k).vpos w = m.vpos w := rfl

@[simp]
theorem vhe_eraseE (m : Mesh) (k : Nat) (w : Nat) :
    (m.eraseE k).vhe w = m.vhe w := rfl

@[simp]
theorem hasV_eraseE (m : Mesh) (k : Nat) (w : Nat) :
    (m.eraseE k).hasV w = m.hasV w := rfl

@[simp]
theorem fhe_eraseE (m : Mesh) (k : Nat) (j : Nat) :
    (m.eraseE k).fhe j = m.fhe j := rfl

@[simp]
theorem fbd_eraseE (m : Mesh) (k : Nat) (j : Nat) :
    (m.eraseE k).fbd j = m.fbd j := rfl

@[simp]
theorem hasF_eraseE (m : Mesh) (k : Nat) (j : Nat) :
    (m.eraseE k).hasF j = m.hasF j := rfl

@[simp]
theorem heR_setFhe (m : Mesh) (k h : Nat) (j : Nat) :
    (m.setFhe k h).heR j = m.heR j := rfl

@[simp]
theorem hasHE_setFhe (m : Mesh) (k h : Nat) (j : Nat) :
    (m.setFhe k h).hasHE j = m.hasHE j := rfl

@[simp]
theorem vpos_setFhe (m : Mesh) (k h : Nat) (w : Nat) :
    (m.setFhe k h).vpos w = m.vpos w := rfl

@[simp]
theorem vhe_setFhe (m : Mesh) (k h : Nat) (w : Nat) :
    (m.setFhe k h).vhe w = m.vhe w := rfl

@[simp]
theorem hasV_setFhe (m : Mesh) (k h : Nat) (w : Nat) :
    (m.setFhe k h).hasV w = m.hasV w := rfl

@[simp]
theorem ehe_setFhe (m : Mesh) (k h : Nat) (j : Nat) :
    (m.setFhe k h).ehe j = m.ehe j := rfl

@[simp]
theorem hasE_setFhe (m : Mesh) (k h : Nat) (j : Nat) :
    (m.setFhe k h).hasE j = m.hasE j := rfl

@[simp]
theorem heR_eraseF (m : Mesh) (k : Nat) (j : Nat) :
    (m.eraseF k).heR j = m.heR j := rfl

@[simp]
theorem hasHE_eraseF (m : Mesh) (k : Nat) (j : Nat) :
    (m.eraseF k).hasHE j = m.hasHE j := rfl

@[simp]
theorem vpos_eraseF (m : Mesh) (k : Nat) (w : Nat) :
    (m.eraseF k).vpos w = m.vpos w := rfl

@[simp]
theorem vhe_eraseF (m : Mesh) (k : Nat) (w : Nat) :
    (m.eraseF k).vhe w = m.vhe w := rfl

@[simp]
theorem hasV_eraseF (m : Mesh) (k : Nat) (w : Nat) :
    (m.eraseF k).hasV w = m.hasV w := rfl

@[simp]
theorem ehe_eraseF (m : Mesh) (k : Nat) (j : Nat) :
    (m.eraseF k).ehe j = m.ehe j := rfl

@[simp]
theorem hasE_eraseF (m : Mesh) (k : Nat) (j : Nat) :
    (m.eraseF k).hasE j = m.hasE j := rfl

/-! ## Same-pool key preservation, erase lemmas, allocator lemmas -/

@[simp]
theorem hasHE_setNb (m : Mesh) (k a b c d f j : Nat) :
    (m.setNb k a b c d f).hasHE j = m.hasHE j := by
  simp [Mesh.hasHE, Mesh.setNb, hasA_updA]

@[simp]
theorem hasHE_setNxt (m : Mesh) (k n j : Nat) : (m.setNxt k n).hasHE j = m.hasHE j := by
  simp [Mesh.hasHE, Mesh.setNxt, hasA_updA]

@[simp]
theorem hasHE_setTwn (m : Mesh) (k t j : Nat) : (m.setTwn k t).hasHE j = m.hasHE j := by
  simp [Mesh.hasHE, Mesh.setTwn, hasA_updA]

@[simp]
theorem hasHE_setHv (m : Mesh) (k v2 j : Nat) : (m.setHv k v2).hasHE j = m.hasHE j := by
  simp [Mesh.hasHE, Mesh.setHv, hasA_updA]

@[simp]
theorem hasHE_setHEdge (m : Mesh) (k d j : Nat) : (m.setHEdge k d).hasHE j = m.hasHE j := by
  simp [Mesh.hasHE, Mesh.setHEdge, hasA_updA]

@[simp]
theorem hasHE_setHFace (m : Mesh) (k f j : Nat) : (m.setHFace k f).hasHE j = m.hasHE j := by
  simp [Mesh.hasHE, Mesh.setHFace, hasA_updA]

@[simp]
theorem hasV_setVhe (m : Mesh) (v2 h w : Nat) : (m.setVhe v2 h).hasV w = m.hasV w := by
  simp [Mesh.hasV, Mesh.setVhe, hasA_updA]

@[simp]
theorem hasV_setVpos (m : Mesh) (v2 : Nat) (p : Vec3) (w : Nat) :
    (m.setVpos v2 p).hasV w = m.hasV w := by
  simp [Mesh.hasV, Mesh.setVpos, hasA_updA]

@[simp]
theorem hasE_setEhe (m : Mesh) (k h j : Nat) : (m.setEhe k h).hasE j = m.hasE j := by
  simp [Mesh.hasE, Mesh.setEhe, hasA_updA]

@[simp]
theorem hasF_setFhe (m : Mesh) (k h j : Nat) : (m.setFhe k h).hasF j = m.hasF j := by
  simp [Mesh.hasF, Mesh.setFhe, hasA_updA]

@[simp]
theorem hasHE_eraseHE (m : Mesh) (k j : Nat) :
    (m.eraseHE k).hasHE j = if j = k then false else m.hasHE j := by
  simp [Mesh.hasHE, Mesh.eraseHE, hasA_delA]

@[simp]
theorem hasV_eraseV (m : Mesh) (k j : Nat) :
    (m.eraseV k).hasV j = if j = k then false else m.hasV j := by
  simp [Mesh.hasV, Mesh.eraseV, hasA_delA]

@[simp]
theorem hasE_eraseE (m : Mesh) (k j : Nat) :
    (m.eraseE k).hasE j = if j = k then false else m.hasE j := by
  simp [Mesh.hasE, Mesh.eraseE, hasA_delA]

@[simp]
theorem hasF_eraseF (m : Mesh) (k j : Nat) :
    (m.eraseF k).hasF j = if j = k then false else m.hasF j := by
  simp [Mesh.hasF, Mesh.eraseF, hasA_delA]

@[simp]
theorem heR_eraseHE_ne (m : Mesh) (k j : Nat) (hj : j ≠ k) :
    (m.eraseHE k).heR j = m.heR j := by
  simp [Mesh.eraseHE, Mesh.heR, findA_delA, hj]

@[simp]
theorem vR_eraseV_ne (m : Mesh) (k j : Nat) (hj : j ≠ k) :
    (m.eraseV k).vR j = m.vR j := by
  simp [Mesh.eraseV, Mesh.vR, findA_delA, hj]

@[simp]
theorem newHalfedge_fst (m : Mesh) : m.newHalfedge.1 = m.fresh := rfl

@[simp]
theorem newHalfedge_fresh (m : Mesh) : m.newHalfedge.2.fresh = m.fresh + 1 := rfl

@[simp]
theorem heR_newHalfedge_ne (m : Mesh) (j : Nat) (hj : j ≠ m.fresh) :
    m.newHalfedge.2.heR j = m.heR j := by
  have hj2 : ¬ (m.fresh = j) := fun h => hj h.symm
  simp [Mesh.newHalfedge, Mesh.heR, findA, hj2]

@[simp]
theorem hasHE_newHalfedge (m : Mesh) (j : Nat) :
    m.newHalfedge.2.hasHE j = if m.fresh = j then true else m.hasHE j := by
  simp [Mesh.newHalfedge, Mesh.hasHE, hasA_cons]

@[simp]
theorem vpos_newHalfedge (m : Mesh) (w : Nat) : m.newHalfedge.2.vpos w = m.vpos w := rfl

@[simp]
theorem vhe_newHalfedge (m : Mesh) (w : Nat) : m.newHalfedge.2.vhe w = m.vhe w := rfl

@[simp]
theorem hasV_newHalfedge (m : Mesh) (w : Nat) : m.newHalfedge.2.hasV w = m.hasV w := rfl

@[simp]
theorem ehe_newHalfedge (m : Mesh) (j : Nat) : m.newHalfedge.2.ehe j = m.ehe j := rfl

@[simp]
theorem hasE_newHalfedge (m : Mesh) (j : Nat) : m.newHalfedge.2.hasE j = m.hasE j := rfl

@[simp]
theorem fhe_newHalfedge (m : Mesh) (j : Nat) : m.newHalfedge.2.fhe j = m.fhe j := rfl

@[simp]
theorem fbd_newHalfedge (m : Mesh) (j : Nat) : m.newHalfedge.2.fbd j = m.fbd j := rfl

@[simp]
theorem hasF_newHalfedge (m : Mesh) (j : Nat) : m.newHalfedge.2.hasF j = m.hasF j := rfl

@[simp]
theorem newVertex_fst (m : Mesh) : m.newVertex.1 = m.fresh := rfl

@[simp]
theorem newVertex_fresh (m : Mesh) : m.newVertex.2.fresh = m.fresh + 1 := rfl

@[simp]
theorem vR_newVertex_ne (m : Mesh) (w : Nat) (hw : w ≠ m.fresh) :
    m.newVertex.2.vR w = m.vR w := by
  have hw2 : ¬ (m.fresh = w) := fun h => hw h.symm
  simp [Mesh.newVertex, Mesh.vR, findA, hw2]

@[simp]
theorem vR_newVertex_self (m : Mesh) : m.newVertex.2.vR m.fresh = default := by
  simp [Mesh.newVertex, Mesh.vR, findA]

@[simp]
theorem hasV_newVertex (m : Mesh) (w : Nat) :
    m.newVertex.2.hasV w = if m.fresh = w then true else m.hasV w := by
  simp [Mesh.newVertex, Mesh.hasV, hasA_cons]

@[simp]
theorem heR_newVertex (m : Mesh) (j : Nat) : m.newVertex.2.heR j = m.heR j := rfl

@[simp]
theorem hasHE_newVertex (m : Mesh) (j : Nat) : m.newVertex.2.hasHE j = m.hasHE j := rfl

@[simp]
theorem ehe_newVertex (m : Mesh) (j : Nat) : m.newVertex.2.ehe j = m.ehe j := rfl

@[simp]
theorem hasE_newVertex (m : Mesh) (j : Nat) : m.newVertex.2.hasE j = m.hasE j := rfl

@[simp]
theorem fhe_newVertex (m : Mesh) (j : Nat) : m.newVertex.2.fhe j = m.fhe j := rfl

@[simp]
theorem fbd_newVertex (m : Mesh) (j : Nat) : m.newVertex.2.fbd j = m.fbd j := rfl

@[simp]
theorem hasF_newVertex (m : Mesh) (j : Nat) : m.newVertex.2.hasF j = m.hasF j := rfl

@[simp]
theorem newEdge_fst (m : Mesh) : m.newEdge.1 = m.fresh := rfl

@[simp]
theorem newEdge_fresh (m : Mesh) : m.newEdge.2.fresh = m.fresh + 1 := rfl

@[simp]
theorem ehe_newEdge_ne (m : Mesh) (j : Nat) (hj : j ≠ m.fresh) :
    m.newEdge.2.ehe j = m.ehe j := by
  have hj2 : ¬ (m.fresh = j) := fun h => hj h.symm
  simp [Mesh.newEdge, Mesh.ehe, findA, hj2]

@[simp]
theorem hasE_newEdge (m : Mesh) (j : Nat) :
    m.newEdge.2.hasE j = if m.fresh = j then true else m.hasE j := by
  simp [Mesh.newEdge, Mesh.hasE, hasA_cons]

@[simp]
theorem heR_newEdge (m : Mesh) (j : Nat) : m.newEdge.2.heR j = m.heR j := rfl

@[simp]
theorem hasHE_newEdge (m : Mesh) (j : Nat) : m.newEdge.2.hasHE j = m.hasHE j := rfl

@[simp]
theorem vpos_newEdge (m : Mesh) (w : Nat) : m.newEdge.2.vpos w = m.vpos w := rfl

@[simp]
theorem vhe_newEdge (m : Mesh) (w : Nat) : m.newEdge.2.vhe w = m.vhe w := rfl

@[simp]
theorem hasV_newEdge (m : Mesh) (w : Nat) : m.newEdge.2.hasV w = m.hasV w := rfl

@[simp]
theorem fhe_newEdge (m : Mesh) (j : Nat) : m.newEdge.2.fhe j = m.fhe j := rfl

@[simp]
theorem fbd_newEdge (m : Mesh) (j : Nat) : m.newEdge.2.fbd j = m.fbd j := rfl

@[simp]
theorem hasF_newEdge (m : Mesh) (j : Nat) : m.newEdge.2.hasF j = m.hasF j := rfl

@[simp]
theorem newFace_fst (m : Mesh) : m.newFace.1 = m.fresh := rfl

@[simp]
theorem newFace_fresh (m : Mesh) : m.newFace.2.fresh = m.fresh + 1 := rfl

@[simp]
theorem fhe_newFace_ne (m : Mesh) (j : Nat) (hj : j ≠ m.fresh) :
    m.newFace.2.fhe j = m.fhe j := by
  have hj2 : ¬ (m.fresh = j) := fun h => hj h.symm
  simp [Mesh.newFace, Mesh.fhe, findA, hj2]

@[simp]
theorem fbd_newFace_ne (m : Mesh) (j : Nat) (hj : j ≠ m.fresh) :
    m.newFace.2.fbd j = m.fbd j := by
  have hj2 : ¬ (m.fresh = j) := fun h => hj h.symm
  simp [Mesh.newFace, Mesh.fbd, findA, hj2]

@[simp]
theorem hasF_newFace (m : Mesh) (j : Nat) :
    m.newFace.2.hasF j = if m.fresh = j then true else m.hasF j := by
  simp [Mesh.newFace, Mesh.hasF, hasA_cons]

@[simp]
theorem heR_newFace (m : Mesh) (j : Nat) : m.newFace.2.heR j = m.heR j := rfl

@[simp]
theorem hasHE_newFace (m : Mesh) (j : Nat) : m.newFace.2.hasHE j = m.hasHE j := rfl

@[simp]
theorem vpos_newFace (m : Mesh) (w : Nat) : m.newFace.2.vpos w = m.vpos w := rfl

@[simp]
theorem vhe_newFace (m : Mesh) (w : Nat) : m.newFace.2.vhe w = m.vhe w := rfl

@[simp]
theorem hasV_newFace (m : Mesh) (w : Nat) : m.newFace.2.hasV w = m.hasV w := rfl

@[simp]
theorem ehe_newFace (m : Mesh) (j : Nat) : m.newFace.2.ehe j = m.ehe j := rfl

@[simp]
theorem hasE_newFace (m : Mesh) (j : Nat) : m.newFace.2.hasE j = m.hasE j := rfl

@[simp]
theorem vhe_setVhe_self (m : Mesh) (v2 h : Nat) (hin : m.hasV v2 = true) :
    (m.setVhe v2 h).vhe v2 = h := by
  simp only [Mesh.setVhe, Mesh.vhe, Mesh.vR, findA_updA, if_pos rfl]
  simp only [Mesh.hasHE, Mesh.hasV, Mesh.hasE, Mesh.hasF, hasA] at hin
  cases hfa : findA m.vs v2 with
  | none => rw [hfa] at hin; simp at hin
  | some r => simp

@[simp]
theorem vhe_setVhe_ne (m : Mesh) (v2 h w : Nat) (hw : w ≠ v2) :
    (m.setVhe v2 h).vhe w = m.vhe w := by
  simp [Mesh.setVhe, Mesh.vhe, Mesh.vR, findA_updA, hw]

/-! ## Accessor-level lemmas for half-edge setters -/

@[simp]
theorem nxt_setNb_self (m : Mesh) (k a b c d f : Nat) (hin : m.hasHE k = true) :
    (m.setNb k a b c d f).nxt k = a := by
  simp only [Mesh.nxt, heR_setNb_self m k a b c d f hin]

@[simp]
theorem nxt_setNb_ne (m : Mesh) (k a b c d f j : Nat) (hj : j ≠ k) :
    (m.setNb k a b c d f).nxt j = m.nxt j := by
  simp only [Mesh.nxt, heR_setNb_ne m k a b c d f j hj]

@[simp]
theorem twn_setNb_self (m : Mesh) (k a b c d f : Nat) (hin : m.hasHE k = true) :
    (m.setNb k a b c d f).twn k = b := by
  simp only [Mesh.twn, heR_setNb_self m k a b c d f hin]

@[simp]
theorem twn_setNb_ne (m : Mesh) (k a b c d f j : Nat) (hj : j ≠ k) :
    (m.setNb k a b c d f).twn j = m.twn j := by
  simp only [Mesh.twn, heR_setNb_ne m k a b c d f j hj]

@[simp]
theorem hv_setNb_self (m : Mesh) (k a b c d f : Nat) (hin : m.hasHE k = true) :
    (m.setNb k a b c d f).hv k = c := by
  simp only [Mesh.hv, heR_setNb_self m k a b c d f hin]

@[simp]
theorem hv_setNb_ne (m : Mesh) (k a b c d f j : Nat) (hj : j ≠ k) :
    (m.setNb k a b c d f).hv j = m.hv j := by
  simp only [Mesh.hv, heR_setNb_ne m k a b c d f j hj]

@[simp]
theorem hedge_setNb_self (m : Mesh) (k a b c d f : Nat) (hin : m.hasHE k = true) :
    (m.setNb k a b c d f).hedge k = d := by
  simp only [Mesh.hedge, heR_setNb_self m k a b c d f hin]

@[simp]
theorem hedge_setNb_ne (m : Mesh) (k a b c d f j : Nat) (hj : j ≠ k) :
    (m.setNb k a b c d f).hedge j = m.hedge j := by
  simp only [Mesh.hedge, heR_setNb_ne m k a b c d f j hj]

@[simp]
theorem hface_setNb_self (m : Mesh) (k a b c d f : Nat) (hin : m.hasHE k = true) :
    (m.setNb k a b c d f).hface k = f := by
  simp only [Mesh.hface, heR_setNb_self m k a b c d f hin]

@[simp]
theorem hface_setNb_ne (m : Mesh) (k a b c d f j : Nat) (hj : j ≠ k) :
    (m.setNb k a b c d f).hface j = m.hface j := by
  simp only [Mesh.hface, heR_setNb_ne m k a b c d f j hj]

@[simp]
theorem nxt_setNxt_self (m : Mesh) (k n : Nat) (hin : m.hasHE k = true) :
    (m.setNxt k n).nxt k = n := by
  simp only [Mesh.nxt, heR_setNxt_self m k n hin]

@[simp]
theorem nxt_setNxt_ne (m : Mesh) (k n j : Nat) (hj : j ≠ k) :
    (m.setNxt k n).nxt j = m.nxt j := by
  simp only [Mesh.nxt, heR_setNxt_ne m k n j hj]

@[simp]
theorem twn_setNxt (m : Mesh) (k n j : Nat) : (m.setNxt k n).twn j = m.twn j := by
  simp only [Mesh.setNxt, Mesh.twn, Mesh.heR, findA_updA]
  split
  · cases findA m.hs j <;> simp
  · rfl

@[simp]
theorem hv_setNxt (m : Mesh) (k n j : Nat) : (m.setNxt k n).hv j = m.hv j := by
  simp only [Mesh.setNxt, Mesh.hv, Mesh.heR, findA_updA]
  split
  · cases findA m.hs j <;> simp
  · rfl

@[simp]
theorem hedge_setNxt (m : Mesh) (k n j : Nat) : (m.setNxt k n).hedge j = m.hedge j := by
  simp only [Mesh.setNxt, Mesh.hedge, Mesh.heR, findA_updA]
  split
  · cases findA m.hs j <;> simp
  · rfl

@[simp]
theorem hface_setNxt (m : Mesh) (k n j : Nat) : (m.setNxt k n).hface j = m.hface j := by
  simp only [Mesh.setNxt, Mesh.hface, Mesh.heR, findA_updA]
  split
  · cases findA m.hs j <;> simp
  · rfl

@[simp]
theorem nxt_setTwn (m : Mesh) (k t j : Nat) : (m.setTwn k t).nxt j = m.nxt j := by
  simp only [Mesh.setTwn, Mesh.nxt, Mesh.heR, findA_updA]
  split
  · cases findA m.hs j <;> simp
  · rfl

@[simp]
theorem twn_setTwn_self (m : Mesh) (k t : Nat) (hin : m.hasHE k = true) :
    (m.setTwn k t).twn k = t := by
  simp only [Mesh.twn, heR_setTwn_self m k t hin]

@[simp]
theorem twn_setTwn_ne (m : Mesh) (k t j : Nat) (hj : j ≠ k) :
    (m.setTwn k t).twn j = m.twn j := by
  simp only [Mesh.twn, heR_setTwn_ne m k t j hj]

@[simp]
theorem hv_setTwn (m : Mesh) (k t j : Nat) : (m.setTwn k t).hv j = m.hv j := by
  simp only [Mesh.setTwn, Mesh.hv, Mesh.heR, findA_updA]
  split
  · cases findA m.hs j <;> simp
  · rfl

@[simp]
theorem hedge_setTwn (m : Mesh) (k t j : Nat) : (m.setTwn k t).hedge j = m.hedge j := by
  simp only [Mesh.setTwn, Mesh.hedge, Mesh.heR, findA_updA]
  split
  · cases findA m.hs j <;> simp
  · rfl

@[simp]
theorem hface_setTwn (m : Mesh) (k t j : Nat) : (m.setTwn k t).hface j = m.hface j := by
  simp only [Mesh.setTwn, Mesh.hface, Mesh.heR, findA_updA]
  split
  · cases findA m.hs j <;> simp
  · rfl

@[simp]
theorem nxt_setHv (m : Mesh) (k v2 j : Nat) : (m.setHv k v2).nxt j = m.nxt j := by
  simp only [Mesh.setHv, Mesh.nxt, Mesh.heR, findA_updA]
  split
  · cases findA m.hs j <;> simp
  · rfl

@[simp]
theorem twn_setHv (m : Mesh) (k v2 j : Nat) : (m.setHv k v2).twn j = m.twn j := by
  simp only [Mesh.setHv, Mesh.twn, Mesh.heR, findA_updA]
  split
  · cases findA m.hs j <;> simp
  · rfl

@[simp]
theorem hv_setHv_self (m : Mesh) (k v2 : Nat) (hin : m.hasHE k = true) :
    (m.setHv k v2).hv k = v2 := by
  simp only [Mesh.hv, heR_setHv_self m k v2 hin]

@[simp]
theorem hv_setHv_ne (m : Mesh) (k v2 j : Nat) (hj : j ≠ k) :
    (m.setHv k v2).hv j = m.hv j := by
  simp only [Mesh.hv, heR_setHv_ne m k v2 j hj]

@[simp]
theorem hedge_setHv (m : Mesh) (k v2 j : Nat) : (m.setHv k v2).hedge j = m.hedge j := by
  simp only [Mesh.setHv, Mesh.hedge, Mesh.heR, findA_updA]
  split
  · cases findA m.hs j <;> simp
  · rfl

@[simp]
theorem hface_setHv (m : Mesh) (k v2 j : Nat) : (m.setHv k v2).hface j = m.hface j := by
  simp only [Mesh.setHv, Mesh.hface, Mesh.heR, findA_updA]
  split
  · cases findA m.hs j <;> simp
  · rfl

@[simp]
theorem nxt_setHEdge (m : Mesh) (k d j : Nat) : (m.setHEdge k d).nxt j = m.nxt j := by
  simp only [Mesh.setHEdge, Mesh.nxt, Mesh.heR, findA_updA]
  split
  · cases findA m.hs j <;> simp
  · rfl

@[simp]
theorem twn_setHEdge (m : Mesh) (k d j : Nat) : (m.setHEdge k d).twn j = m.twn j := by
  simp only [Mesh.setHEdge, Mesh.twn, Mesh.heR, findA_updA]
  split
  · cases findA m.hs j <;> simp
  · rfl

@[simp]
theorem hv_setHEdge (m : Mesh) (k d j : Nat) : (m.setHEdge k d).hv j = m.hv j := by
  simp only [Mesh.setHEdge, Mesh.hv, Mesh.heR, findA_updA]
  split
  · cases findA m.hs j <;> simp
  · rfl

@[simp]
theorem hedge_setHEdge_self (m : Mesh) (k d : Nat) (hin : m.hasHE k = true) :
    (m.setHEdge k d).hedge k = d := by
  simp only [Mesh.hedge, heR_setHEdge_self m k d hin]

@[simp]
theorem hedge_setHEdge_ne (m : Mesh) (k d j : Nat) (hj : j ≠ k) :
    (m.setHEdge k d).hedge j = m.hedge j := by
  simp only [Mesh.hedge, heR_setHEdge_ne m k d j hj]

@[simp]
theorem hface_setHEdge (m : Mesh) (k d j : Nat) : (m.setHEdge k d).hface j = m.hface j := by
  simp only [Mesh.setHEdge, Mesh.hface, Mesh.heR, findA_updA]
  split
  · cases findA m.hs j <;> simp
  · rfl

@[simp]
theorem nxt_setHFace (m : Mesh) (k f j : Nat) : (m.setHFace k f).nxt j = m.nxt j := by
  simp only [Mesh.setHFace, Mesh.nxt, Mesh.heR, findA_updA]
  split
  · cases findA m.hs j <;> simp
  · rfl

@[simp]
theorem twn_setHFace (m : Mesh) (k f j : Nat) : (m.setHFace k f).twn j = m.twn j := by
  simp only [Mesh.setHFace, Mesh.twn, Mesh.heR, findA_updA]
  split
  · cases findA m.hs j <;> simp
  · rfl

@[simp]
theorem hv_setHFace (m : Mesh) (k f j : Nat) : (m.setHFace k f).hv j = m.hv j := by
  simp only [Mesh.setHFace, Mesh.hv, Mesh.heR, findA_updA]
  split
  · cases findA m.hs j <;> simp
  · rfl

@[simp]
theorem hedge_setHFace (m : Mesh) (k f j : Nat) : (m.setHFace k f).hedge j = m.hedge j := by
  simp only [Mesh.setHFace, Mesh.hedge, Mesh.heR, findA_updA]
  split
  · cases findA m.hs j <;> simp
  · rfl

@[simp]
theorem hface_setHFace_self (m : Mesh) (k f : Nat) (hin : m.hasHE k = true) :
    (m.setHFace k f).hface k = f := by
  simp only [Mesh.hface, heR_setHFace_self m k f hin]

@[simp]
theorem hface_setHFace_ne (m : Mesh) (k f j : Nat) (hj : j ≠ k) :
    (m.setHFace k f).hface j = m.hface j := by
  simp only [Mesh.hface, heR_setHFace_ne m k f j hj]

@[simp]
theorem nxt_newHalfedge_ne (m : Mesh) (j : Nat) (hj : j ≠ m.fresh) :
    m.newHalfedge.2.nxt j = m.nxt j := by
  simp only [Mesh.nxt, heR_newHalfedge_ne m j hj]

@[simp]
theorem nxt_eraseHE_ne (m : Mesh) (k j : Nat) (hj : j ≠ k) :
    (m.eraseHE k).nxt j = m.nxt j := by
  simp only [Mesh.nxt, heR_eraseHE_ne m k j hj]

@[simp]
theorem nxt_newVertex (m : Mesh) (j : Nat) : m.newVertex.2.nxt j = m.nxt j := rfl

@[simp]
theorem nxt_newEdge (m : Mesh) (j : Nat) : m.newEdge.2.nxt j = m.nxt j := rfl

@[simp]
theorem nxt_newFace (m : Mesh) (j : Nat) : m.newFace.2.nxt j = m.nxt j := rfl

@[simp]
theorem twn_newHalfedge_ne (m : Mesh) (j : Nat) (hj : j ≠ m.fresh) :
    m.newHalfedge.2.twn j = m.twn j := by
  simp only [Mesh.twn, heR_newHalfedge_ne m j hj]

@[simp]
theorem twn_eraseHE_ne (m : Mesh) (k j : Nat) (hj : j ≠ k) :
    (m.eraseHE k).twn j = m.twn j := by
  simp only [Mesh.twn, heR_eraseHE_ne m k j hj]

@[simp]
theorem twn_newVertex (m : Mesh) (j : Nat) : m.newVertex.2.twn j = m.twn j := rfl

@[simp]
theorem twn_newEdge (m : Mesh) (j : Nat) : m.newEdge.2.twn j = m.twn j := rfl

@[simp]
theorem twn_newFace (m : Mesh) (j : Nat) : m.newFace.2.twn j = m.twn j := rfl

@[simp]
theorem hv_newHalfedge_ne (m : Mesh) (j : Nat) (hj : j ≠ m.fresh) :
    m.newHalfedge.2.hv j = m.hv j := by
  simp only [Mesh.hv, heR_newHalfedge_ne m j hj]

@[simp]
theorem hv_eraseHE_ne (m : Mesh) (k j : Nat) (hj : j ≠ k) :
    (m.eraseHE k).hv j = m.hv j := by
  simp only [Mesh.hv, heR_eraseHE_ne m k j hj]

@[simp]
theorem hv_newVertex (m : Mesh) (j : Nat) : m.newVertex.2.hv j = m.hv j := rfl

@[simp]
theorem hv_newEdge (m : Mesh) (j : Nat) : m.newEdge.2.hv j = m.hv j := rfl

@[simp]
theorem hv_newFace (m : Mesh) (j : Nat) : m.newFace.2.hv j = m.hv j := rfl

@[simp]
theorem hedge_newHalfedge_ne (m : Mesh) (j : Nat) (hj : j ≠ m.fresh) :
    m.newHalfedge.2.hedge j = m.hedge j := by
  simp only [Mesh.hedge, heR_newHalfedge_ne m j hj]

@[simp]
theorem hedge_eraseHE_ne (m : Mesh) (k j : Nat) (hj : j ≠ k) :
    (m.eraseHE k).hedge j = m.hedge j := by
  simp only [Mesh.hedge, heR_eraseHE_ne m k j hj]

@[simp]
theorem hedge_newVertex (m : Mesh) (j : Nat) : m.newVertex.2.hedge j = m.hedge j := rfl

@[simp]
theorem hedge_newEdge (m : Mesh) (j : Nat) : m.newEdge.2.hedge j = m.hedge j := rfl

@[simp]
theorem hedge_newFace (m : Mesh) (j : Nat) : m.newFace.2.hedge j = m.hedge j := rfl

@[simp]
theorem hface_newHalfedge_ne (m : Mesh) (j : Nat) (hj : j ≠ m.fresh) :
    m.newHalfedge.2.hface j = m.hface j := by
  simp only [Mesh.hface, heR_newHalfedge_ne m j hj]

@[simp]
theorem hface_eraseHE_ne (m : Mesh) (k j : Nat) (hj : j ≠ k) :
    (m.eraseHE k).hface j = m.hface j := by
  simp only [Mesh.hface, heR_eraseHE_ne m k j hj]

@[simp]
theorem hface_newVertex (m : Mesh) (j : Nat) : m.newVertex.2.hface j = m.hface j := rfl

@[simp]
theorem hface_newEdge (m : Mesh) (j : Nat) : m.newEdge.2.hface j = m.hface j := rfl

@[simp]
theorem hface_newFace (m : Mesh) (j : Nat) : m.newFace.2.hface j = m.hface j := rfl

@[simp]
theorem vpos_newVertex_ne (m : Mesh) (w : Nat) (hw : w ≠ m.fresh) :
    m.newVertex.2.vpos w = m.vpos w := by
  simp only [Mesh.vpos, vR_newVertex_ne m w hw]

@[simp]
theorem vhe_newVertex_ne (m : Mesh) (w : Nat) (hw : w ≠ m.fresh) :
    m.newVertex.2.vhe w = m.vhe w := by
  simp only [Mesh.vhe, vR_newVertex_ne m w hw]

@[simp]
theorem vpos_eraseV_ne (m : Mesh) (k w : Nat) (hw : w ≠ k) :
    (m.eraseV k).vpos w = m.vpos w := by
  simp only [Mesh.vpos, vR_eraseV_ne m k w hw]

@[simp]
theorem vhe_eraseV_ne (m : Mesh) (k w : Nat) (hw : w ≠ k) :
    (m.eraseV k).vhe w = m.vhe w := by
  simp only [Mesh.vhe, vR_eraseV_ne m k w hw]

@[simp]
theorem ehe_eraseE_ne (m : Mesh) (k j : Nat) (hj : j ≠ k) :
    (m.eraseE k).ehe j = m.ehe j := by
  simp [Mesh.eraseE, Mesh.ehe, findA_delA, hj]

@[simp]
theorem fhe_eraseF_ne (m : Mesh) (k j : Nat) (hj : j ≠ k) :
    (m.eraseF k).fhe j = m.fhe j := by
  simp [Mesh.eraseF, Mesh.fhe, findA_delA, hj]

@[simp]
theorem fbd_eraseF_ne (m : Mesh) (k j : Nat) (hj : j ≠ k) :
    (m.eraseF k).fbd j = m.fbd j := by
  simp [Mesh.eraseF, Mesh.fbd, findA_delA, hj]

/-! ## Half-edge accessors through foreign-pool setters (definitional) -/

@[simp]
theorem nxt_setVhe (m : Mesh) (v2 h : Nat) (j : Nat) : (m.setVhe v2 h).nxt j = m.nxt j := rfl

@[simp]
theorem nxt_setVpos (m : Mesh) (v2 : Nat) (p : Vec3) (j : Nat) : (m.setVpos v2 p).nxt j = m.nxt j := rfl

@[simp]
theorem nxt_eraseV (m : Mesh) (v2 : Nat) (j : Nat) : (m.eraseV v2).nxt j = m.nxt j := rfl

@[simp]
theorem nxt_setEhe (m : Mesh) (k2 h : Nat) (j : Nat) : (m.setEhe k2 h).nxt j = m.nxt j := rfl

@[simp]
theorem nxt_eraseE (m : Mesh) (k2 : Nat) (j : Nat) : (m.eraseE k2).nxt j = m.nxt j := rfl

@[simp]
theorem nxt_setFhe (m : Mesh) (k2 h : Nat) (j : Nat) : (m.setFhe k2 h).nxt j = m.nxt j := rfl

@[simp]
theorem nxt_eraseF (m : Mesh) (k2 : Nat) (j : Nat) : (m.eraseF k2).nxt j = m.nxt j := rfl

@[simp]
theorem twn_setVhe (m : Mesh) (v2 h : Nat) (j : Nat) : (m.setVhe v2 h).twn j = m.twn j := rfl

@[simp]
theorem twn_setVpos (m : Mesh) (v2 : Nat) (p : Vec3) (j : Nat) : (m.setVpos v2 p).twn j = m.twn j := rfl

@[simp]
theorem twn_eraseV (m : Mesh) (v2 : Nat) (j : Nat) : (m.eraseV v2).twn j = m.twn j := rfl

@[simp]
theorem twn_setEhe (m : Mesh) (k2 h : Nat) (j : Nat) : (m.setEhe k2 h).twn j = m.twn j := rfl

@[simp]
theorem twn_eraseE (m : Mesh) (k2 : Nat) (j : Nat) : (m.eraseE k2).twn j = m.twn j := rfl

@[simp]
theorem twn_setFhe (m : Mesh) (k2 h : Nat) (j : Nat) : (m.setFhe k2 h).twn j = m.twn j := rfl

@[simp]
theorem twn_eraseF (m : Mesh) (k2 : Nat) (j : Nat) : (m.eraseF k2).twn j = m.twn j := rfl

@[simp]
theorem hv_setVhe (m : Mesh) (v2 h : Nat) (j : Nat) : (m.setVhe v2 h).hv j = m.hv j := rfl

@[simp]
theorem hv_setVpos (m : Mesh) (v2 : Nat) (p : Vec3) (j : Nat) : (m.setVpos v2 p).hv j = m.hv j := rfl

@[simp]
theorem hv_eraseV (m : Mesh) (v2 : Nat) (j : Nat) : (m.eraseV v2).hv j = m.hv j := rfl

@[simp]
theorem hv_setEhe (m : Mesh) (k2 h : Nat) (j : Nat) : (m.setEhe k2 h).hv j = m.hv j := rfl

@[simp]
theorem hv_eraseE (m : Mesh) (k2 : Nat) (j : Nat) : (m.eraseE k2).hv j = m.hv j := rfl

@[simp]
theorem hv_setFhe (m : Mesh) (k2 h : Nat) (j : Nat) : (m.setFhe k2 h).hv j = m.hv j := rfl

@[simp]
theorem hv_eraseF (m : Mesh) (k2 : Nat) (j : Nat) : (m.eraseF k2).hv j = m.hv j := rfl

@[simp]
theorem hedge_setVhe (m : Mesh) (v2 h : Nat) (j : Nat) : (m.setVhe v2 h).hedge j = m.hedge j := rfl

@[simp]
theorem hedge_setVpos (m : Mesh) (v2 : Nat) (p : Vec3) (j : Nat) : (m.setVpos v2 p).hedge j = m.hedge j := rfl

@[simp]
theorem hedge_eraseV (m : Mesh) (v2 : Nat) (j : Nat) : (m.eraseV v2).hedge j = m.hedge j := rfl

@[simp]
theorem hedge_setEhe (m : Mesh) (k2 h : Nat) (j : Nat) : (m.setEhe k2 h).hedge j = m.hedge j := rfl

@[simp]
theorem hedge_eraseE (m : Mesh) (k2 : Nat) (j : Nat) : (m.eraseE k2).hedge j = m.hedge j := rfl

@[simp]
theorem hedge_setFhe (m : Mesh) (k2 h : Nat) (j : Nat) : (m.setFhe k2 h).hedge j = m.hedge j := rfl

@[simp]
theorem hedge_eraseF (m : Mesh) (k2 : Nat) (j : Nat) : (m.eraseF k2).hedge j = m.hedge j := rfl

@[simp]
theorem hface_setVhe (m : Mesh) (v2 h : Nat) (j : Nat) : (m.setVhe v2 h).hface j = m.hface j := rfl

@[simp]
theorem hface_setVpos (m : Mesh) (v2 : Nat) (p : Vec3) (j : Nat) : (m.setVpos v2 p).hface j = m.hface j := rfl

@[simp]
theorem hface_eraseV (m : Mesh) (v2 : Nat) (j : Nat) : (m.eraseV v2).hface j = m.hface j := rfl

@[simp]
theorem hface_setEhe (m : Mesh) (k2 h : Nat) (j : Nat) : (m.setEhe k2 h).hface j = m.hface j := rfl

@[simp]
theorem hface_eraseE (m : Mesh) (k2 : Nat) (j : Nat) : (m.eraseE k2).hface j = m.hface j := rfl

@[simp]
theorem hface_setFhe (m : Mesh) (k2 h : Nat) (j : Nat) : (m.setFhe k2 h).hface j = m.hface j := rfl

@[simp]
theorem hface_eraseF (m : Mesh) (k2 : Nat) (j : Nat) : (m.eraseF k2).hface j = m.hface j := rfl

@[simp]
theorem vpos_setEhe2 (m : Mesh) (k2 h : Nat) (w : Nat) : (m.setEhe k2 h).vpos w = m.vpos w := rfl

@[simp]
theorem vpos_eraseE2 (m : Mesh) (k2 : Nat) (w : Nat) : (m.eraseE k2).vpos w = m.vpos w := rfl

@[simp]
theorem vpos_setFhe2 (m : Mesh) (k2 h : Nat) (w : Nat) : (m.setFhe k2 h).vpos w = m.vpos w := rfl

@[simp]
theorem vpos_eraseF2 (m : Mesh) (k2 : Nat) (w : Nat) : (m.eraseF k2).vpos w = m.vpos w := rfl

@[simp]
theorem vpos_eraseHE2 (m : Mesh) (k2 : Nat) (w : Nat) : (m.eraseHE k2).vpos w = m.vpos w := rfl

@[simp]
theorem vpos_setNxt2 (m : Mesh) (k2 n : Nat) (w : Nat) : (m.setNxt k2 n).vpos w = m.vpos w := rfl

@[simp]
theorem vpos_setTwn2 (m : Mesh) (k2 t : Nat) (w : Nat) : (m.setTwn k2 t).vpos w = m.vpos w := rfl

@[simp]
theorem vpos_setHv2 (m : Mesh) (k2 w2 : Nat) (w : Nat) : (m.setHv k2 w2).vpos w = m.vpos w := rfl

@[simp]
theorem vpos_setHEdge2 (m : Mesh) (k2 d : Nat) (w : Nat) : (m.setHEdge k2 d).vpos w = m.vpos w := rfl

@[simp]
theorem vpos_setHFace2 (m : Mesh) (k2 f2 : Nat) (w : Nat) : (m.setHFace k2 f2).vpos w = m.vpos w := rfl

@[simp]
theorem vpos_setNb2 (m : Mesh) (k2 a2 b2 c2 d2 f2 : Nat) (w : Nat) : (m.setNb k2 a2 b2 c2 d2 f2).vpos w = m.vpos w := rfl

@[simp]
theorem vhe_setEhe2 (m : Mesh) (k2 h : Nat) (w : Nat) : (m.setEhe k2 h).vhe w = m.vhe w := rfl

@[simp]
theorem vhe_eraseE2 (m : Mesh) (k2 : Nat) (w : Nat) : (m.eraseE k2).vhe w = m.vhe w := rfl

@[simp]
theorem vhe_setFhe2 (m : Mesh) (k2 h : Nat) (w : Nat) : (m.setFhe k2 h).vhe w = m.vhe w := rfl

@[simp]
theorem vhe_eraseF2 (m : Mesh) (k2 : Nat) (w : Nat) : (m.eraseF k2).vhe w = m.vhe w := rfl

@[simp]
theorem vhe_eraseHE2 (m : Mesh) (k2 : Nat) (w : Nat) : (m.eraseHE k2).vhe w = m.vhe w := rfl

@[simp]
theorem vhe_setNxt2 (m : Mesh) (k2 n : Nat) (w : Nat) : (m.setNxt k2 n).vhe w = m.vhe w := rfl

@[simp]
theorem vhe_setTwn2 (m : Mesh) (k2 t : Nat) (w : Nat) : (m.setTwn k2 t).vhe w = m.vhe w := rfl

@[simp]
theorem vhe_setHv2 (m : Mesh) (k2 w2 : Nat) (w : Nat) : (m.setHv k2 w2).vhe w = m.vhe w := rfl

@[simp]
theorem vhe_setHEdge2 (m : Mesh) (k2 d : Nat) (w : Nat) : (m.setHEdge k2 d).vhe w = m.vhe w := rfl

@[simp]
theorem vhe_setHFace2 (m : Mesh) (k2 f2 : Nat) (w : Nat) : (m.setHFace k2 f2).vhe w = m.vhe w := rfl

@[simp]
theorem vhe_setNb2 (m : Mesh) (k2 a2 b2 c2 d2 f2 : Nat) (w : Nat) : (m.setNb k2 a2 b2 c2 d2 f2).vhe w = m.vhe w := rfl

@[simp]
theorem ehe_setVhe2 (m : Mesh) (v2 h : Nat) (j : Nat) : (m.setVhe v2 h).ehe j = m.ehe j := rfl

@[simp]
theorem ehe_setVpos2 (m : Mesh) (v2 : Nat) (p : Vec3) (j : Nat) : (m.setVpos v2 p).ehe j = m.ehe j := rfl

@[simp]
theorem ehe_eraseV2 (m : Mesh) (v2 : Nat) (j : Nat) : (m.eraseV v2).ehe j = m.ehe j := rfl

@[simp]
theorem ehe_setFhe2 (m : Mesh) (k2 h : Nat) (j : Nat) : (m.setFhe k2 h).ehe j = m.ehe j := rfl

@[simp]
theorem ehe_eraseF2 (m : Mesh) (k2 : Nat) (j : Nat) : (m.eraseF k2).ehe j = m.ehe j := rfl

@[simp]
theorem ehe_eraseHE2 (m : Mesh) (k2 : Nat) (j : Nat) : (m.eraseHE k2).ehe j = m.ehe j := rfl

@[simp]
theorem ehe_setNxt2 (m : Mesh) (k2 n : Nat) (j : Nat) : (m.setNxt k2 n).ehe j = m.ehe j := rfl

@[simp]
theorem ehe_setTwn2 (m : Mesh) (k2 t : Nat) (j : Nat) : (m.setTwn k2 t).ehe j = m.ehe j := rfl

@[simp]
theorem ehe_setHv2 (m : Mesh) (k2 w2 : Nat) (j : Nat) : (m.setHv k2 w2).ehe j = m.ehe j := rfl

@[simp]
theorem ehe_setHEdge2 (m : Mesh) (k2 d : Nat) (j : Nat) : (m.setHEdge k2 d).ehe j = m.ehe j := rfl

@[simp]
theorem ehe_setHFace2 (m : Mesh) (k2 f2 : Nat) (j : Nat) : (m.setHFace k2 f2).ehe j = m.ehe j := rfl

@[simp]
theorem ehe_setNb2 (m : Mesh) (k2 a2 b2 c2 d2 f2 : Nat) (j : Nat) : (m.setNb k2 a2 b2 c2 d2 f2).ehe j = m.ehe j := rfl

@[simp]
theorem fhe_setVhe2 (m : Mesh) (v2 h : Nat) (j : Nat) : (m.setVhe v2 h).fhe j = m.fhe j := rfl

@[simp]
theorem fhe_setVpos2 (m : Mesh) (v2 : Nat) (p : Vec3) (j : Nat) : (m.setVpos v2 p).fhe j = m.fhe j := rfl

@[simp]
theorem fhe_eraseV2 (m : Mesh) (v2 : Nat) (j : Nat) : (m.eraseV v2).fhe j = m.fhe j := rfl

@[simp]
theorem fhe_setEhe2 (m : Mesh) (k2 h : Nat) (j : Nat) : (m.setEhe k2 h).fhe j = m.fhe j := rfl

@[simp]
theorem fhe_eraseE2 (m : Mesh) (k2 : Nat) (j : Nat) : (m.eraseE k2).fhe j = m.fhe j := rfl

@[simp]
theorem fhe_eraseHE2 (m : Mesh) (k2 : Nat) (j : Nat) : (m.eraseHE k2).fhe j = m.fhe j := rfl

@[simp]
theorem fhe_setNxt2 (m : Mesh) (k2 n : Nat) (j : Nat) : (m.setNxt k2 n).fhe j = m.fhe j := rfl

@[simp]
theorem fhe_setTwn2 (m : Mesh) (k2 t : Nat) (j : Nat) : (m.setTwn k2 t).fhe j = m.fhe j := rfl

@[simp]
theorem fhe_setHv2 (m : Mesh) (k2 w2 : Nat) (j : Nat) : (m.setHv k2 w2).fhe j = m.fhe j := rfl

@[simp]
theorem fhe_setHEdge2 (m : Mesh) (k2 d : Nat) (j : Nat) : (m.setHEdge k2 d).fhe j = m.fhe j := rfl

@[simp]
theorem fhe_setHFace2 (m : Mesh) (k2 f2 : Nat) (j : Nat) : (m.setHFace k2 f2).fhe j = m.fhe j := rfl

@[simp]
theorem fhe_setNb2 (m : Mesh) (k2 a2 b2 c2 d2 f2 : Nat) (j : Nat) : (m.setNb k2 a2 b2 c2 d2 f2).fhe j = m.fhe j := rfl

@[simp]
theorem fbd_setVhe2 (m : Mesh) (v2 h : Nat) (j : Nat) : (m.setVhe v2 h).fbd j = m.fbd j := rfl

@[simp]
theorem fbd_setVpos2 (m : Mesh) (v2 : Nat) (p : Vec3) (j : Nat) : (m.setVpos v2 p).fbd j = m.fbd j := rfl

@[simp]
theorem fbd_eraseV2 (m : Mesh) (v2 : Nat) (j : Nat) : (m.eraseV v2).fbd j = m.fbd j := rfl

@[simp]
theorem fbd_setEhe2 (m : Mesh) (k2 h : Nat) (j : Nat) : (m.setEhe k2 h).fbd j = m.fbd j := rfl

@[simp]
theorem fbd_eraseE2 (m : Mesh) (k2 : Nat) (j : Nat) : (m.eraseE k2).fbd j = m.fbd j := rfl

@[simp]
theorem fbd_eraseHE2 (m : Mesh) (k2 : Nat) (j : Nat) : (m.eraseHE k2).fbd j = m.fbd j := rfl

@[simp]
theorem fbd_setNxt2 (m : Mesh) (k2 n : Nat) (j : Nat) : (m.setNxt k2 n).fbd j = m.fbd j := rfl

@[simp]
theorem fbd_setTwn2 (m : Mesh) (k2 t : Nat) (j : Nat) : (m.setTwn k2 t).fbd j = m.fbd j := rfl

@[simp]
theorem fbd_setHv2 (m : Mesh) (k2 w2 : Nat) (j : Nat) : (m.setHv k2 w2).fbd j = m.fbd j := rfl

@[simp]
theorem fbd_setHEdge2 (m : Mesh) (k2 d : Nat) (j : Nat) : (m.setHEdge k2 d).fbd j = m.fbd j := rfl

@[simp]
theorem fbd_setHFace2 (m : Mesh) (k2 f2 : Nat) (j : Nat) : (m.setHFace k2 f2).fbd j = m.fbd j := rfl

@[simp]
theorem fbd_setNb2 (m : Mesh) (k2 a2 b2 c2 d2 f2 : Nat) (j : Nat) : (m.setNb k2 a2 b2 c2 d2 f2).fbd j = m.fbd j := rfl

set_option maxHeartbeats 3200000 in
/-- Claim C3: splitting an interior edge of two triangles succeeds, returns a
newly created vertex `v4` placed at the midpoint of the two endpoints,
creates exactly one vertex, three edges, six half-edges and two faces, and
leaves the returned vertex's canonical outgoing half-edge on the original
edge `e` (it is `e`'s own twin half-edge), not on one of the new edges. -/
theorem split_edge_interior_spec (m : Mesh) (fuel e : Nat)
    (hb : m.fbd (m.hface (m.ehe e)) = false)
    (hb2 : m.fbd (m.hface (m.twn (m.ehe e))) = false)
    (ht0 : num_of_edges m fuel (m.hface (m.ehe e)) = some 3)
    (ht1 : num_of_edges m fuel (m.hface (m.twn (m.ehe e))) = some 3)
    (hkeys : ∀ k, m.hasHE k = true → k < m.fresh)
    (hkeyv : ∀ k, m.hasV k = true → k < m.fresh)
    (hh3 : m.hasHE (m.twn (m.ehe e)) = true)
    (hv0 : m.hasV (m.hv (m.ehe e)) = true)
    (hv1 : m.hasV (m.hv (m.twn (m.ehe e))) = true)
    (hd1 : m.twn (m.ehe e) ≠ m.nxt (m.twn (m.ehe e)))
    (hd2 : m.twn (m.ehe e) ≠ m.nxt (m.nxt (m.twn (m.ehe e)))) :
    ∃ m2 v4, split_edge m fuel e = some (m2, some v4) ∧
      m.hasV v4 = false ∧
      m2.vs.length = m.vs.length + 1 ∧
      m2.es.length = m.es.length + 3 ∧
      m2.hs.length = m.hs.length + 6 ∧
      m2.fs.length = m.fs.length + 2 ∧
      m2.vpos v4 = (m.vpos (m.hv (m.ehe e)) + m.vpos (m.hv (m.twn (m.ehe e)))).divQ 2 ∧
      m2.vhe v4 = m.twn (m.ehe e) ∧
      m2.hedge (m2.vhe v4) = e ∧
      m2.hv (m2.vhe v4) = v4 := by
  have honb : m.onBoundaryE e = false := by
    simp [Mesh.onBoundaryE, hb, hb2]
  have hlt3 : m.twn (m.ehe e) < m.fresh := hkeys _ hh3
  have hltv0 : m.hv (m.ehe e) < m.fresh := hkeyv _ hv0
  have hltv1 : m.hv (m.twn (m.ehe e)) < m.fresh := hkeyv _ hv1
  have ne1 : ∀ k : Nat, m.twn (m.ehe e) ≠ m.fresh + k := by intro k; omega
  have ne2 : ∀ k : Nat, m.fresh + k ≠ m.twn (m.ehe e) := by intro k; omega
  have ne3 : m.twn (m.ehe e) ≠ m.fresh := by omega
  have ne4 : m.fresh ≠ m.twn (m.ehe e) := by omega
  have ne5 : ∀ k : Nat, m.hv (m.ehe e) ≠ m.fresh + k := by intro k; omega
  have ne6 : ∀ k : Nat, m.fresh + k ≠ m.hv (m.ehe e) := by intro k; omega
  have ne7 : m.hv (m.ehe e) ≠ m.fresh := by omega
  have ne8 : m.fresh ≠ m.hv (m.ehe e) := by omega
  have ne9 : ∀ k : Nat, m.hv (m.twn (m.ehe e)) ≠ m.fresh + k := by intro k; omega
  have ne10 : ∀ k : Nat, m.fresh + k ≠ m.hv (m.twn (m.ehe e)) := by intro k; omega
  have ne11 : m.hv (m.twn (m.ehe e)) ≠ m.fresh := by omega
  have ne12 : m.fresh ≠ m.hv (m.twn (m.ehe e)) := by omega
  simp only [split_edge, hb, hb2, honb, Bool.or_self, Bool.false_eq_true, if_false]
  refine ⟨_, _, rfl, ?_, ?_, ?_, ?_, ?_, ?_, ?_, ?_, ?_⟩
  · cases hc : m.hasV (m.newHalfedge.2.newHalfedge.2.newHalfedge.2.newHalfedge.2.newHalfedge.2.newHalfedge.2.newFace.2.newFace.2.newVertex.1) with
    | false => rfl
    | true =>
      exfalso
      have := hkeyv _ hc
      simp only [newVertex_fst, newFace_fresh, newHalfedge_fresh] at this
      omega
  · simp [Mesh.setNb, Mesh.setNxt, Mesh.setTwn, Mesh.setHv, Mesh.setHEdge, Mesh.setHFace,
      Mesh.setVhe, Mesh.setVpos, Mesh.setEhe, Mesh.setFhe, Mesh.newHalfedge, Mesh.newVertex,
      Mesh.newEdge, Mesh.newFace, length_updA]
  · simp [Mesh.setNb, Mesh.setNxt, Mesh.setTwn, Mesh.setHv, Mesh.setHEdge, Mesh.setHFace,
      Mesh.setVhe, Mesh.setVpos, Mesh.setEhe, Mesh.setFhe, Mesh.newHalfedge, Mesh.newVertex,
      Mesh.newEdge, Mesh.newFace, length_updA]
  · simp [Mesh.setNb, Mesh.setNxt, Mesh.setTwn, Mesh.setHv, Mesh.setHEdge, Mesh.setHFace,
      Mesh.setVhe, Mesh.setVpos, Mesh.setEhe, Mesh.setFhe, Mesh.newHalfedge, Mesh.newVertex,
      Mesh.newEdge, Mesh.newFace, length_updA]
  · simp [Mesh.setNb, Mesh.setNxt, Mesh.setTwn, Mesh.setHv, Mesh.setHEdge, Mesh.setHFace,
      Mesh.setVhe, Mesh.setVpos, Mesh.setEhe, Mesh.setFhe, Mesh.newHalfedge, Mesh.newVertex,
      Mesh.newEdge, Mesh.newFace, length_updA]
  · rw [vpos_setVpos_self]
    · simp [add_assoc, hd1, hd2, ne1, ne2, ne3, ne4, ne5, ne6, ne7, ne8, ne9, ne10, ne11, ne12, hh3, hv0, hv1]
    · simp [add_assoc, hd1, hd2, ne1, ne2, ne3, ne4, ne5, ne6, ne7, ne8, ne9, ne10, ne11, ne12, hh3, hv0, hv1]
  · rw [vhe_setVpos]
    simp only [vhe_setFhe, vhe_setEhe, vhe_setNb]
    rw [vhe_setVhe_self]
    simp [add_assoc, hd1, hd2, ne1, ne2, ne3, ne4, ne5, ne6, ne7, ne8, ne9, ne10, ne11, ne12, hh3, hv0, hv1]
  · rw [vhe_setVpos]
    simp only [vhe_setFhe, vhe_setEhe, vhe_setNb]
    rw [vhe_setVhe_self]
    · simp [add_assoc, hd1, hd2, ne1, ne2, ne3, ne4, ne5, ne6, ne7, ne8, ne9, ne10, ne11, ne12, hh3, hv0, hv1]
    · simp [add_assoc, hd1, hd2, ne1, ne2, ne3, ne4, ne5, ne6, ne7, ne8, ne9, ne10, ne11, ne12, hh3, hv0, hv1]
  · rw [vhe_setVpos]
    simp only [vhe_setFhe, vhe_setEhe, vhe_setNb]
    rw [vhe_setVhe_self]
    · simp [add_assoc, hd1, hd2, ne1, ne2, ne3, ne4, ne5, ne6, ne7, ne8, ne9, ne10, ne11, ne12, hh3, hv0, hv1]
    · simp [add_assoc, hd1, hd2, ne1, ne2, ne3, ne4, ne5, ne6, ne7, ne8, ne9, ne10, ne11, ne12, hh3, hv0, hv1]

/-- Helper: a concrete bound on every key of an association list. -/
theorem keysBounded {α : Type} (l : List (Nat × α)) (b : Nat)
    (hall : l.all (fun p => decide (p.1 < b)) = true) :
    ∀ k, hasA l k = true → k < b := by
  intro k hk
  induction l with
  | nil => simp [hasA, findA] at hk
  | cons p rest ih =>
    simp only [List.all_cons, Bool.and_eq_true, decide_eq_true_eq] at hall
    by_cases hpk : p.1 = k
    · exact hpk ▸ hall.1
    · apply ih hall.2
      simpa [hasA, findA, hpk] using hk

/-- Witness for C3 on the interior tetrahedron edge 30: all hypotheses hold
concretely and the split produces the claimed counts and midpoint vertex. -/
theorem split_edge_interior_spec_witness :
    ∃ m2 v4, split_edge TetM 30 30 = some (m2, some v4) ∧
      TetM.hasV v4 = false ∧
      m2.vs.length = TetM.vs.length + 1 ∧
      m2.es.length = TetM.es.length + 3 ∧
      m2.hs.length = TetM.hs.length + 6 ∧
      m2.fs.length = TetM.fs.length + 2 ∧
      m2.vpos v4 =
        (TetM.vpos (TetM.hv (TetM.ehe 30)) + TetM.vpos (TetM.hv (TetM.twn (TetM.ehe 30)))).divQ 2 ∧
      m2.vhe v4 = TetM.twn (TetM.ehe 30) ∧
      m2.hedge (m2.vhe v4) = 30 ∧
      m2.hv (m2.vhe v4) = v4 :=
  split_edge_interior_spec TetM 30 30 (by decide) (by decide) (by decide) (by decide)
    (keysBounded TetM.hs 50 (by decide)) (keysBounded TetM.vs 50 (by decide))
    (by decide) (by decide) (by decide) (by decide) (by decide)

theorem bordered_det (K : Mat4) :
    (Mat4.ofCols ⟨K.a00, K.a10, K.a20, 0⟩ ⟨K.a01, K.a11, K.a21, 0⟩
      ⟨K.a02, K.a12, K.a22, 0⟩ ⟨0, 0, 0, 1⟩).det =
    det3 K.a00 K.a01 K.a02 K.a10 K.a11 K.a12 K.a20 K.a21 K.a22 := by
  simp [Mat4.ofCols, Mat4.det, det3]

theorem bordered_inverse_solves (K : Mat4) (b : Vec3)
    (hd : det3 K.a00 K.a01 K.a02 K.a10 K.a11 K.a12 K.a20 K.a21 K.a22 ≠ 0) :
    quadUpperMulVec K ((Mat4.ofCols ⟨K.a00, K.a10, K.a20, 0⟩ ⟨K.a01, K.a11, K.a21, 0⟩
      ⟨K.a02, K.a12, K.a22, 0⟩ ⟨0, 0, 0, 1⟩).inverse.mulPoint b) = b := by
  have hd2 : K.a00 * K.a11 * K.a22 - K.a00 * K.a12 * K.a21 +
      (-(K.a11 * K.a20 * K.a02) - K.a22 * K.a01 * K.a10) +
      K.a12 * K.a01 * K.a20 + K.a21 * K.a10 * K.a02 ≠ 0 := by
    intro h
    apply hd
    simp only [det3]
    linear_combination h
  have hD : K.a00 * (K.a11 * K.a22 - K.a12 * K.a21) - K.a01 * (K.a10 * K.a22 - K.a12 * K.a20) +
      K.a02 * (K.a10 * K.a21 - K.a11 * K.a20) ≠ 0 := fun h => hd2 (by linear_combination h)
  have hw : (((Mat4.ofCols ⟨K.a00, K.a10, K.a20, 0⟩ ⟨K.a01, K.a11, K.a21, 0⟩
      ⟨K.a02, K.a12, K.a22, 0⟩ ⟨0, 0, 0, 1⟩).inverse).mulVec4 ⟨b.x, b.y, b.z, 1⟩).w = 1 := by
    simp only [Mat4.inverse, Mat4.mulVec4, Mat4.minor, Mat4.ofCols, Mat4.det, det3]
    field_simp
  simp only [Mat4.mulPoint]
  rw [hw]
  cases b with
  | mk bx by' bz =>
    simp only [quadUpperMulVec, Vec3.mk.injEq,
      Mat4.inverse, Mat4.mulVec4, Mat4.minor, Mat4.ofCols, Mat4.det, det3]
    refine ⟨?_, ?_, ?_⟩ <;>
      · field_simp
        ring

/-- Claim C7: the `Edge_Record` built for edge `e` from the combined endpoint
quadric `K = K_va + K_vb` has an `optimal` point that solves the claim's 3x3
linear system exactly — `A_3x3 * optimal = b` with `A` the upper-left 3x3
block of `K` extended to 4x4 by `[[A,0],[0,1]]` and `b = -(K_30, K_31, K_32)`
— whenever `|det A| > 1/10000`, has `optimal` equal to the midpoint of the
two endpoint positions otherwise, and in either case has
`cost = xT K x` with `x = (optimal, 1)`. -/
theorem edge_record_spec (vq : List (Nat × Mat4)) (m : Mesh) (e : Nat) :
    (|(recA (recK vq m e)).det| > 1 / 10000 →
       quadUpperMulVec (recK vq m e) (mkEdgeRecord vq m e).optimal = recB (recK vq m e)) ∧
    (¬ |(recA (recK vq m e)).det| > 1 / 10000 →
       (mkEdgeRecord vq m e).optimal =
         (m.vpos (m.hv (m.ehe e)) + m.vpos (m.hv (m.twn (m.ehe e)))).divQ 2) ∧
    (mkEdgeRecord vq m e).cost =
      Vec4.dot ((recK vq m e).mulVec4
          ⟨(mkEdgeRecord vq m e).optimal.x, (mkEdgeRecord vq m e).optimal.y,
            (mkEdgeRecord vq m e).optimal.z, 1⟩)
        ⟨(mkEdgeRecord vq m e).optimal.x, (mkEdgeRecord vq m e).optimal.y,
          (mkEdgeRecord vq m e).optimal.z, 1⟩ := by
  refine ⟨?_, ?_, ?_⟩
  · intro hdet
    have hd : det3 (recK vq m e).a00 (recK vq m e).a01 (recK vq m e).a02
        (recK vq m e).a10 (recK vq m e).a11 (recK vq m e).a12
        (recK vq m e).a20 (recK vq m e).a21 (recK vq m e).a22 ≠ 0 := by
      intro h0
      rw [show (recA (recK vq m e)).det = det3 (recK vq m e).a00 (recK vq m e).a01
          (recK vq m e).a02 (recK vq m e).a10 (recK vq m e).a11 (recK vq m e).a12
          (recK vq m e).a20 (recK vq m e).a21 (recK vq m e).a22 from bordered_det _,
        h0] at hdet
      norm_num at hdet
    simp only [mkEdgeRecord]
    rw [if_pos hdet]
    simpa only [recA, recB] using
      bordered_inverse_solves (recK vq m e)
        ⟨-(recK vq m e).a03, -(recK vq m e).a13, -(recK vq m e).a23⟩ hd
  · intro hdet
    simp only [mkEdgeRecord]
    rw [if_neg hdet]
  · rfl

theorem edge_record_spec_witness :
    |(recA (recK Vq0 TetM 30)).det| > 1 / 10000 ∧
    quadUpperMulVec (recK Vq0 TetM 30) (mkEdgeRecord Vq0 TetM 30).optimal =
      recB (recK Vq0 TetM 30) := by
  have hc : |(recA (recK Vq0 TetM 30)).det| > 1 / 10000 := by
    rw [show (recA (recK Vq0 TetM 30)).det = 8 from by with_unfolding_all rfl]
    norm_num
  exact ⟨hc, (edge_record_spec Vq0 TetM 30).1 hc⟩

theorem simpLoop_out_true (faceCount ofuel : Nat) :
    ∀ fuel m vq recs q count m2 b,
      simpLoop faceCount ofuel fuel m vq recs q count = SimpOut.out m2 b → b = true := by
  intro fuel
  induction fuel with
  | zero =>
    intro m vq recs q count m2 b h
    simp only [simpLoop] at h
    exact SimpOut.noConfusion h
  | succ n ih =>
    intro m vq recs q count m2 b h
    simp only [simpLoop] at h
    split at h
    · iterate 7 (all_goals try split at h)
      all_goals
        first
          | (exact ih _ _ _ _ _ _ _ h)
          | (exact SimpOut.noConfusion h)
    · injection h with h1 h2
      exact h2.symm

/-- Claim C10: whenever `simplify` returns at all, the returned flag is
`true` — it never returns `false`, whether or not any edge was collapsed or
the face-count target was reached.  (It does not always return: see
`simplify_ub_counterexample`.) -/
theorem simplify_out_true (m : Mesh) (fuel : Nat) (m2 : Mesh) (b : Bool)
    (h : simplify m fuel = SimpOut.out m2 b) : b = true := by
  simp only [simplify] at h
  split at h
  · exact SimpOut.noConfusion h
  · exact simpLoop_out_true _ _ _ _ _ _ _ _ _ _ h

theorem simplify_out_true_witness :
    ∃ m2 b, simplify TetM 40 = SimpOut.out m2 b ∧ b = true := by
  have h1 : (match simplify TetM 40 with
      | SimpOut.out _ _ => true
      | _ => false) = true := by with_unfolding_all rfl
  cases h : simplify TetM 40 with
  | out m2 b => exact ⟨m2, b, rfl, simplify_out_true TetM 40 m2 b h⟩
  | ub => rw [h] at h1; simp at h1
  | spin => rw [h] at h1; simp at h1

/-- Claim C10 counterexample to "returns": on `Pillows3` — three disjoint
closed pillow components, every edge uncollapsible (refused by the
neighbor-count test) while the face count stays above the target — the inner
scan of `simplify` pops the queue empty and then reads `top()` of the empty
`std::set`, which is undefined behaviour, not a `true` return. -/
theorem simplify_ub_counterexample : simplify Pillows3 50 = SimpOut.ub := by
  with_unfolding_all rfl

theorem nxt_hs_congr (m1 m2 : Mesh) (h : m1.hs = m2.hs) (j : Nat) : m1.nxt j = m2.nxt j := by
  simp [Mesh.nxt, Mesh.heR, h]

theorem twn_hs_congr (m1 m2 : Mesh) (h : m1.hs = m2.hs) (j : Nat) : m1.twn j = m2.twn j := by
  simp [Mesh.twn, Mesh.heR, h]

theorem getAllHEsAux_hs_congr (m1 m2 : Mesh) (h : m1.hs = m2.hs) (stop : Nat) :
    ∀ fuel cur c acc, getAllHEsAux m1 stop fuel cur c acc = getAllHEsAux m2 stop fuel cur c acc := by
  intro fuel
  induction fuel with
  | zero => intro cur c acc; rfl
  | succ n ih =>
    intro cur c acc
    simp only [getAllHEsAux, nxt_hs_congr m1 m2 h, twn_hs_congr m1 m2 h, ih]

theorem get_all_alloc_invariant (m : Mesh) (a : Nat) (p : Vec3) (fuel v : Nat)
    (hv : v ≠ m.fresh) :
    get_all_half_edges_of_vertex ((m.newVertex.2).setVpos a p) fuel v =
      get_all_half_edges_of_vertex m fuel v := by
  simp only [get_all_half_edges_of_vertex, vhe_setVpos, vhe_newVertex_ne m v hv]
  exact getAllHEsAux_hs_congr (m.newVertex.2.setVpos a p) m rfl (m.vhe v) fuel (m.vhe v) 0 []

theorem hasHE_foldSetHv (v : Nat) :
    ∀ (L : List Nat) (m : Mesh) (j : Nat),
      (L.foldl (fun mm h => mm.setHv h v) m).hasHE j = m.hasHE j := by
  intro L
  induction L with
  | nil => intro m j; rfl
  | cons a L ih => intro m j; rw [List.foldl_cons, ih, hasHE_setHv]

theorem nxt_foldSetHv (v : Nat) :
    ∀ (L : List Nat) (m : Mesh) (j : Nat),
      (L.foldl (fun mm h => mm.setHv h v) m).nxt j = m.nxt j := by
  intro L
  induction L with
  | nil => intro m j; rfl
  | cons a L ih => intro m j; rw [List.foldl_cons, ih, nxt_setHv]

theorem twn_foldSetHv (v : Nat) :
    ∀ (L : List Nat) (m : Mesh) (j : Nat),
      (L.foldl (fun mm h => mm.setHv h v) m).twn j = m.twn j := by
  intro L
  induction L with
  | nil => intro m j; rfl
  | cons a L ih => intro m j; rw [List.foldl_cons, ih, twn_setHv]

theorem hedge_foldSetHv (v : Nat) :
    ∀ (L : List Nat) (m : Mesh) (j : Nat),
      (L.foldl (fun mm h => mm.setHv h v) m).hedge j = m.hedge j := by
  intro L
  induction L with
  | nil => intro m j; rfl
  | cons a L ih => intro m j; rw [List.foldl_cons, ih, hedge_setHv]

theorem hface_foldSetHv (v : Nat) :
    ∀ (L : List Nat) (m : Mesh) (j : Nat),
      (L.foldl (fun mm h => mm.setHv h v) m).hface j = m.hface j := by
  intro L
  induction L with
  | nil => intro m j; rfl
  | cons a L ih => intro m j; rw [List.foldl_cons, ih, hface_setHv]

theorem ehe_foldSetHv (v : Nat) :
    ∀ (L : List Nat) (m : Mesh) (j : Nat),
      (L.foldl (fun mm h => mm.setHv h v) m).ehe j = m.ehe j := by
  intro L
  induction L with
  | nil => intro m j; rfl
  | cons a L ih => intro m j; rw [List.foldl_cons, ih, ehe_setHv]

theorem hasE_foldSetHv (v : Nat) :
    ∀ (L : List Nat) (m : Mesh) (j : Nat),
      (L.foldl (fun mm h => mm.setHv h v) m).hasE j = m.hasE j := by
  intro L
  induction L with
  | nil => intro m j; rfl
  | cons a L ih => intro m j; rw [List.foldl_cons, ih, hasE_setHv]

theorem hasV_foldSetHv (v : Nat) :
    ∀ (L : List Nat) (m : Mesh) (j : Nat),
      (L.foldl (fun mm h => mm.setHv h v) m).hasV j = m.hasV j := by
  intro L
  induction L with
  | nil => intro m j; rfl
  | cons a L ih => intro m j; rw [List.foldl_cons, ih, hasV_setHv]

theorem vpos_foldSetHv (v : Nat) :
    ∀ (L : List Nat) (m : Mesh) (j : Nat),
      (L.foldl (fun mm h => mm.setHv h v) m).vpos j = m.vpos j := by
  intro L
  induction L with
  | nil => intro m j; rfl
  | cons a L ih => intro m j; rw [List.foldl_cons, ih, vpos_setHv]

theorem vhe_foldSetHv (v : Nat) :
    ∀ (L : List Nat) (m : Mesh) (j : Nat),
      (L.foldl (fun mm h => mm.setHv h v) m).vhe j = m.vhe j := by
  intro L
  induction L with
  | nil => intro m j; rfl
  | cons a L ih => intro m j; rw [List.foldl_cons, ih, vhe_setHv]

theorem hv_foldSetHv_not_mem (v : Nat) :
    ∀ (L : List Nat) (m : Mesh) (j : Nat), j ∉ L →
      (L.foldl (fun mm h => mm.setHv h v) m).hv j = m.hv j := by
  intro L
  induction L with
  | nil => intro m j _; rfl
  | cons a L ih =>
    intro m j hj
    rw [List.foldl_cons, ih _ _ (fun hm => hj (List.mem_cons_of_mem a hm)),
      hv_setHv_ne _ _ _ _ (fun he => hj (by rw [he]; exact List.mem_cons_self a L))]

theorem hv_foldSetHv_mem (v : Nat) :
    ∀ (L : List Nat) (m : Mesh) (j : Nat), j ∈ L → m.hasHE j = true →
      (L.foldl (fun mm h => mm.setHv h v) m).hv j = v := by
  intro L
  induction L with
  | nil => intro m j hj _; exact absurd hj (List.not_mem_nil j)
  | cons a L ih =>
    intro m j hj hin
    rw [List.foldl_cons]
    by_cases hjL : j ∈ L
    · exact ih _ _ hjL (by rw [hasHE_setHv]; exact hin)
    · have hja : j = a := by
        rcases List.mem_cons.mp hj with h1 | h2
        · exact h1
        · exact absurd h2 hjL
      subst hja
      rw [hv_foldSetHv_not_mem v L _ j hjL, hv_setHv_self _ _ _ hin]

theorem ehe_reassign (m : Mesh) (h0 nv j : Nat)
    (hj1 : j ≠ m.hedge (m.nxt (m.nxt h0))) (hj2 : j ≠ m.hedge (m.nxt h0)) :
    (reassign_erase_for_collapse_edge m h0 nv).ehe j = m.ehe j := by
  simp only [reassign_erase_for_collapse_edge]
  split <;>
    simp only [ehe_eraseE_ne _ _ _ hj2, ehe_eraseHE, ehe_eraseF, ehe_setVhe,
      eR_setEhe_ne _ _ _ _ hj1, ehe_setHEdge, ehe_setTwn]

theorem hasHE_reassign (m : Mesh) (h0 nv j : Nat) :
    (reassign_erase_for_collapse_edge m h0 nv).hasHE j =
      if j = m.nxt (m.nxt h0) then false else if j = m.nxt h0 then false else m.hasHE j := by
  simp only [reassign_erase_for_collapse_edge]
  split <;>
    simp only [hasHE_eraseE, hasHE_eraseHE, hasHE_eraseF, hasHE_setVhe, hasHE_setEhe,
      hasHE_setHEdge, hasHE_setTwn]

theorem twn_reassign (m : Mesh) (h0 nv j : Nat)
    (ht1 : j ≠ m.twn (m.nxt (m.nxt h0))) (ht2 : j ≠ m.twn (m.nxt h0))
    (hn1 : j ≠ m.nxt h0) (hn2 : j ≠ m.nxt (m.nxt h0)) :
    (reassign_erase_for_collapse_edge m h0 nv).twn j = m.twn j := by
  simp only [reassign_erase_for_collapse_edge]
  split <;>
    simp only [twn_eraseE, twn_eraseHE_ne _ _ _ hn2, twn_eraseHE_ne _ _ _ hn1, twn_eraseF,
      twn_setVhe, twn_setEhe, twn_setHEdge, twn_setTwn_ne _ _ _ _ ht2,
      twn_setTwn_ne _ _ _ _ ht1]

theorem nxt_reassign (m : Mesh) (h0 nv j : Nat)
    (hn1 : j ≠ m.nxt h0) (hn2 : j ≠ m.nxt (m.nxt h0)) :
    (reassign_erase_for_collapse_edge m h0 nv).nxt j = m.nxt j := by
  simp only [reassign_erase_for_collapse_edge]
  split <;>
    simp only [nxt_eraseE, nxt_eraseHE_ne _ _ _ hn2, nxt_eraseHE_ne _ _ _ hn1, nxt_eraseF,
      nxt_setVhe, nxt_setEhe, nxt_setHEdge, nxt_setTwn]

theorem hedge_reassign (m : Mesh) (h0 nv j : Nat)
    (ht2 : j ≠ m.twn (m.nxt h0))
    (hn1 : j ≠ m.nxt h0) (hn2 : j ≠ m.nxt (m.nxt h0)) :
    (reassign_erase_for_collapse_edge m h0 nv).hedge j = m.hedge j := by
  simp only [reassign_erase_for_collapse_edge]
  split <;>
    simp only [hedge_eraseE, hedge_eraseHE_ne _ _ _ hn2, hedge_eraseHE_ne _ _ _ hn1,
      hedge_eraseF, hedge_setVhe, hedge_setEhe, hedge_setHEdge_ne _ _ _ _ ht2, hedge_setTwn]

theorem hv_reassign (m : Mesh) (h0 nv j : Nat)
    (hn1 : j ≠ m.nxt h0) (hn2 : j ≠ m.nxt (m.nxt h0)) :
    (reassign_erase_for_collapse_edge m h0 nv).hv j = m.hv j := by
  simp only [reassign_erase_for_collapse_edge]
  split <;>
    simp only [hv_eraseE, hv_eraseHE_ne _ _ _ hn2, hv_eraseHE_ne _ _ _ hn1, hv_eraseF,
      hv_setVhe, hv_setEhe, hv_setHEdge, hv_setTwn]

theorem vpos_reassign (m : Mesh) (h0 nv j : Nat) :
    (reassign_erase_for_collapse_edge m h0 nv).vpos j = m.vpos j := by
  simp only [reassign_erase_for_collapse_edge]
  split <;>
    simp only [vpos_eraseE, vpos_eraseHE, vpos_eraseF, vpos_setVhe, vpos_setEhe,
      vpos_setHEdge, vpos_setTwn]

theorem hasV_reassign (m : Mesh) (h0 nv j : Nat) :
    (reassign_erase_for_collapse_edge m h0 nv).hasV j = m.hasV j := by
  simp only [reassign_erase_for_collapse_edge]
  split <;>
    simp only [hasV_eraseE, hasV_eraseHE, hasV_eraseF, hasV_setVhe, hasV_setEhe,
      hasV_setHEdge, hasV_setTwn]

theorem findA_mem {α : Type} :
    ∀ (l : List (Nat × α)) (k : Nat) (r : α), findA l k = some r → (k, r) ∈ l := by
  intro l
  induction l with
  | nil => intro k r h; exact absurd h (by simp [findA])
  | cons p rest ih =>
    intro k r h
    rw [findA] at h
    by_cases hk : p.1 = k
    · rw [if_pos hk] at h
      injection h with h2
      have : (k, r) = p := by
        rw [← hk, ← h2]
      rw [this]
      exact List.mem_cons_self p rest
    · rw [if_neg hk] at h
      exact List.mem_cons_of_mem p (ih k r h)

theorem hasHE_to_findA (m : Mesh) (h : Nat) (hin : m.hasHE h = true) :
    ∃ r, findA m.hs h = some r ∧ (h, r) ∈ m.hs ∧ m.hv h = r.vertex := by
  simp only [Mesh.hasHE, hasA, Option.isSome_iff_exists] at hin
  obtain ⟨r, hr⟩ := hin
  exact ⟨r, hr, findA_mem m.hs h r hr, by simp [Mesh.hv, Mesh.heR, hr]⟩

theorem spliceOutEdge_fields (mx : Mesh) (fuel e : Nat) (m5 : Mesh)
    (h : spliceOutEdge mx fuel e = some m5) :
    (∀ j, m5.ehe j = mx.ehe j) ∧ (∀ j, m5.twn j = mx.twn j) ∧
    (∀ j, m5.hv j = mx.hv j) ∧ (∀ j, m5.hasHE j = mx.hasHE j) ∧
    (∀ j, m5.vpos j = mx.vpos j) ∧ (∀ j, m5.hasV j = mx.hasV j) ∧
    (∀ j, m5.hasE j = mx.hasE j) := by
  simp only [spliceOutEdge] at h
  split at h
  · injection h with h1
    subst h1
    refine ⟨?_, ?_, ?_, ?_, ?_, ?_, ?_⟩ <;>
      intro j <;>
      simp only [ehe_setNxt, ehe_setFhe, twn_setNxt, twn_setFhe, hv_setNxt, hv_setFhe,
        hasHE_setNxt, hasHE_setFhe, vpos_setNxt, vpos_setFhe, hasV_setNxt, hasV_setFhe,
        hasE_setNxt, hasE_setFhe]
  · exact absurd h (by simp)

theorem mc_nxt (m : Mesh) (p : Vec3) (a vh hd : Nat) (L : List Nat) (j : Nat) :
    ((L.foldl (fun mm h => mm.setHv h a) ((m.newVertex.2).setVpos a p)).setVhe vh hd).nxt j =
      m.nxt j := by
  rw [nxt_setVhe, nxt_foldSetHv, nxt_setVpos, nxt_newVertex]

theorem mc_twn (m : Mesh) (p : Vec3) (a vh hd : Nat) (L : List Nat) (j : Nat) :
    ((L.foldl (fun mm h => mm.setHv h a) ((m.newVertex.2).setVpos a p)).setVhe vh hd).twn j =
      m.twn j := by
  rw [twn_setVhe, twn_foldSetHv, twn_setVpos, twn_newVertex]

theorem mc_hedge (m : Mesh) (p : Vec3) (a vh hd : Nat) (L : List Nat) (j : Nat) :
    ((L.foldl (fun mm h => mm.setHv h a) ((m.newVertex.2).setVpos a p)).setVhe vh hd).hedge j =
      m.hedge j := by
  rw [hedge_setVhe, hedge_foldSetHv, hedge_setVpos, hedge_newVertex]

theorem mc_ehe (m : Mesh) (p : Vec3) (a vh hd : Nat) (L : List Nat) (j : Nat) :
    ((L.foldl (fun mm h => mm.setHv h a) ((m.newVertex.2).setVpos a p)).setVhe vh hd).ehe j =
      m.ehe j := by
  rw [ehe_setVhe, ehe_foldSetHv, ehe_setVpos, ehe_newVertex]

theorem mc_hasHE (m : Mesh) (p : Vec3) (a vh hd : Nat) (L : List Nat) (j : Nat) :
    ((L.foldl (fun mm h => mm.setHv h a) ((m.newVertex.2).setVpos a p)).setVhe vh hd).hasHE j =
      m.hasHE j := by
  rw [hasHE_setVhe, hasHE_foldSetHv, hasHE_setVpos, hasHE_newVertex]

theorem mc_hasE (m : Mesh) (p : Vec3) (a vh hd : Nat) (L : List Nat) (j : Nat) :
    ((L.foldl (fun mm h => mm.setHv h a) ((m.newVertex.2).setVpos a p)).setVhe vh hd).hasE j =
      m.hasE j := by
  rw [hasE_setVhe, hasE_foldSetHv, hasE_setVpos, hasE_newVertex]

set_option maxHeartbeats 6400000 in
/-- Claim C2: on every success of `collapse_edge` (result `some r`), under the
local sanity conditions that make the C++ reads well-defined, the operation
allocates a fresh vertex `r` positioned at the midpoint of the endpoints
`v0 = h0.vertex` and `v1 = twin(h0).vertex`, re-homes every half-edge whose
origin was `v0` or `v1` onto `r`, and erases `e`, its two half-edges and both
endpoints. -/
theorem collapse_edge_success_spec
    (m : Mesh) (fuel e : Nat) (m2 : Mesh) (r : Nat)
    (hres : collapse_edge m fuel e = some (m2, some r))
    (hkeyv : ∀ k, m.hasV k = true → k < m.fresh)
    (hv1 : m.hasV (m.hv (m.ehe e)) = true)
    (hv2 : m.hasV (m.hv (m.twn (m.ehe e))) = true)
    (l1 l2 : List Nat)
    (hl1 : get_all_half_edges_of_vertex m fuel (m.hv (m.ehe e)) = some l1)
    (hl2 : get_all_half_edges_of_vertex m fuel (m.hv (m.twn (m.ehe e))) = some l2)
    (hcov : ∀ p ∈ m.hs,
      (p.2.vertex = m.hv (m.ehe e) ∨ p.2.vertex = m.hv (m.twn (m.ehe e))) →
      p.1 ∈ l1 ++ l2)
    (hd01 : m.hedge (m.nxt (m.ehe e)) ≠ e)
    (hd02 : m.hedge (m.nxt (m.nxt (m.ehe e))) ≠ e)
    (hd03 : m.hedge (m.nxt (m.twn (m.ehe e))) ≠ e)
    (hd04 : m.hedge (m.nxt (m.nxt (m.twn (m.ehe e)))) ≠ e)
    (hd05 : m.ehe e ≠ m.nxt (m.ehe e))
    (hd06 : m.ehe e ≠ m.nxt (m.nxt (m.ehe e)))
    (hd07 : m.ehe e ≠ m.twn (m.nxt (m.nxt (m.ehe e))))
    (hd08 : m.ehe e ≠ m.twn (m.nxt (m.ehe e)))
    (hd09 : m.twn (m.ehe e) ≠ m.nxt (m.ehe e))
    (hd10 : m.twn (m.ehe e) ≠ m.nxt (m.nxt (m.ehe e)))
    (hd11 : m.nxt (m.twn (m.ehe e)) ≠ m.nxt (m.ehe e))
    (hd12 : m.nxt (m.twn (m.ehe e)) ≠ m.nxt (m.nxt (m.ehe e)))
    (hd13 : m.nxt (m.nxt (m.twn (m.ehe e))) ≠ m.nxt (m.ehe e))
    (hd14 : m.nxt (m.nxt (m.twn (m.ehe e))) ≠ m.nxt (m.nxt (m.ehe e)))
    (hd15 : m.nxt (m.twn (m.ehe e)) ≠ m.twn (m.nxt (m.nxt (m.ehe e))))
    (hd16 : m.nxt (m.twn (m.ehe e)) ≠ m.twn (m.nxt (m.ehe e)))
    (hd17 : m.nxt (m.nxt (m.twn (m.ehe e))) ≠ m.twn (m.nxt (m.nxt (m.ehe e))))
    (hd18 : m.nxt (m.nxt (m.twn (m.ehe e))) ≠ m.twn (m.nxt (m.ehe e)))
    (hd19 : m.ehe e ≠ m.nxt (m.twn (m.ehe e)))
    (hd20 : m.ehe e ≠ m.nxt (m.nxt (m.twn (m.ehe e))))
    (hd21 : m.ehe e ≠ m.twn (m.nxt (m.nxt (m.twn (m.ehe e)))))
    (hd22 : m.ehe e ≠ m.twn (m.nxt (m.twn (m.ehe e)))) :
    m.hasV r = false ∧
    m2.hasV r = true ∧
    m2.vpos r = (m.vpos (m.hv (m.ehe e)) + m.vpos (m.hv (m.twn (m.ehe e)))).divQ 2 ∧
    m2.hasE e = false ∧
    m2.hasHE (m.ehe e) = false ∧
    m2.hasHE (m.twn (m.ehe e)) = false ∧
    m2.hasV (m.hv (m.ehe e)) = false ∧
    m2.hasV (m.hv (m.twn (m.ehe e))) = false ∧
    (∀ h, m2.hasHE h = true →
      (m.hv h = m.hv (m.ehe e) ∨ m.hv h = m.hv (m.twn (m.ehe e))) → m2.hv h = r) := by
  have hlt1 := hkeyv _ hv1
  have hlt2 := hkeyv _ hv2
  have hv1f : m.hv (m.ehe e) ≠ m.fresh := by omega
  have hv2f : m.hv (m.twn (m.ehe e)) ≠ m.fresh := by omega
  have hf1 : ¬ (m.fresh = m.hv (m.ehe e)) := by omega
  have hf2 : ¬ (m.fresh = m.hv (m.twn (m.ehe e))) := by omega
  simp only [collapse_edge] at hres
  rw [get_all_alloc_invariant m _ _ fuel _ hv1f, get_all_alloc_invariant m _ _ fuel _ hv2f,
    hl1, hl2] at hres
  simp only [vpos_newVertex_ne _ _ hv1f, vpos_newVertex_ne _ _ hv2f] at hres
  cases hcc : can_collapse_edge m fuel e with
  | none => rw [hcc] at hres; exact absurd hres (by simp)
  | some b =>
    rw [hcc] at hres
    cases b with
    | false => simp at hres
    | true =>
      dsimp only [] at hres
      cases hn1 : num_of_edges m fuel (m.hface (m.ehe e)) with
      | none => rw [hn1] at hres; simp at hres
      | some n1 =>
        rw [hn1] at hres
        dsimp only [] at hres
        cases hdbl : (if n1 = 3 then
            (num_of_edges m fuel (m.hface (m.twn (m.ehe e)))).map (fun n2 => decide (n2 = 3))
          else some false) with
        | none => rw [hdbl] at hres; simp at hres
        | some dbl =>
          rw [hdbl] at hres
          dsimp only [] at hres
          cases hfn1 : all_face_normals (m.newVertex.2.setVpos m.newVertex.1
              ((m.vpos (m.hv (m.ehe e)) + m.vpos (m.hv (m.twn (m.ehe e)))).divQ 2)) fuel
              (m.hv (m.ehe e)) with
          | none =>
            rw [hfn1] at hres
            simp at hres
          | some fn1 =>
            rw [hfn1] at hres
            cases hfn2 : all_face_normals (m.newVertex.2.setVpos m.newVertex.1
                ((m.vpos (m.hv (m.ehe e)) + m.vpos (m.hv (m.twn (m.ehe e)))).divQ 2)) fuel
                (m.hv (m.twn (m.ehe e))) with
            | none =>
              rw [hfn2] at hres
              simp at hres
            | some fn2 =>
              rw [hfn2] at hres
              dsimp only [] at hres
              simp only [newVertex_fst] at hres
              generalize hP :
                ((m.vpos (m.hv (m.ehe e)) + m.vpos (m.hv (m.twn (m.ehe e)))).divQ 2) = P at hres
              generalize hMC :
                (List.foldl (fun mm h => mm.setHv h m.fresh)
                    (m.newVertex.2.setVpos m.fresh P) (l1 ++ l2)).setVhe m.fresh
                  ((l1 ++ l2).headD 0) = MC at hres
              have hMCnxt : ∀ j, MC.nxt j = m.nxt j := by
                intro j
                rw [← hMC]
                exact mc_nxt m P m.fresh m.fresh ((l1 ++ l2).headD 0) (l1 ++ l2) j
              have hMCtwn : ∀ j, MC.twn j = m.twn j := by
                intro j
                rw [← hMC]
                exact mc_twn m P m.fresh m.fresh ((l1 ++ l2).headD 0) (l1 ++ l2) j
              have hMChedge : ∀ j, MC.hedge j = m.hedge j := by
                intro j
                rw [← hMC]
                exact mc_hedge m P m.fresh m.fresh ((l1 ++ l2).headD 0) (l1 ++ l2) j
              have hMCehe : ∀ j, MC.ehe j = m.ehe j := by
                intro j
                rw [← hMC]
                exact mc_ehe m P m.fresh m.fresh ((l1 ++ l2).headD 0) (l1 ++ l2) j
              have hMChasHE : ∀ j, MC.hasHE j = m.hasHE j := by
                intro j
                rw [← hMC]
                exact mc_hasHE m P m.fresh m.fresh ((l1 ++ l2).headD 0) (l1 ++ l2) j
              have hMChasV : ∀ j, MC.hasV j = if m.fresh = j then true else m.hasV j := by
                intro j
                rw [← hMC, hasV_setVhe, hasV_foldSetHv, hasV_setVpos, hasV_newVertex]
              have hMCvposF : MC.vpos m.fresh = P := by
                rw [← hMC, vpos_setVhe, vpos_foldSetHv]
                exact vpos_setVpos_self _ _ _ (by rw [hasV_newVertex, if_pos rfl])
              have hMChv_mem : ∀ j, j ∈ l1 ++ l2 → m.hasHE j = true → MC.hv j = m.fresh := by
                intro j hj hin
                rw [← hMC, hv_setVhe]
                exact hv_foldSetHv_mem m.fresh (l1 ++ l2) _ j hj
                  (by rw [hasHE_setVpos, hasHE_newVertex]; exact hin)
              simp only [hMCehe] at hres
              cases dbl with
              | true =>
                rw [if_pos rfl] at hres
                dsimp only [] at hres
                generalize hMD :
                  reassign_erase_for_collapse_edge MC (m.ehe e) m.fresh = MD at hres
                have hMDnxt : ∀ j, j ≠ m.nxt (m.ehe e) → j ≠ m.nxt (m.nxt (m.ehe e)) →
                    MD.nxt j = m.nxt j := by
                  intro j a b
                  rw [← hMD, nxt_reassign MC (m.ehe e) m.fresh j
                    (by rw [hMCnxt]; exact a) (by rw [hMCnxt, hMCnxt]; exact b), hMCnxt]
                have hMDtwn : ∀ j, j ≠ m.twn (m.nxt (m.nxt (m.ehe e))) →
                    j ≠ m.twn (m.nxt (m.ehe e)) → j ≠ m.nxt (m.ehe e) →
                    j ≠ m.nxt (m.nxt (m.ehe e)) → MD.twn j = m.twn j := by
                  intro j a b c d
                  rw [← hMD, twn_reassign MC (m.ehe e) m.fresh j
                    (by rw [hMCtwn, hMCnxt, hMCnxt]; exact a)
                    (by rw [hMCtwn, hMCnxt]; exact b)
                    (by rw [hMCnxt]; exact c)
                    (by rw [hMCnxt, hMCnxt]; exact d), hMCtwn]
                have hMDhedge : ∀ j, j ≠ m.twn (m.nxt (m.ehe e)) → j ≠ m.nxt (m.ehe e) →
                    j ≠ m.nxt (m.nxt (m.ehe e)) → MD.hedge j = m.hedge j := by
                  intro j a b c
                  rw [← hMD, hedge_reassign MC (m.ehe e) m.fresh j
                    (by rw [hMCtwn, hMCnxt]; exact a)
                    (by rw [hMCnxt]; exact b)
                    (by rw [hMCnxt, hMCnxt]; exact c), hMChedge]
                have hMDhv : ∀ j, j ≠ m.nxt (m.ehe e) → j ≠ m.nxt (m.nxt (m.ehe e)) →
                    MD.hv j = MC.hv j := by
                  intro j a b
                  rw [← hMD, hv_reassign MC (m.ehe e) m.fresh j
                    (by rw [hMCnxt]; exact a) (by rw [hMCnxt, hMCnxt]; exact b)]
                have hMDhasHE : ∀ j, MD.hasHE j =
                    if j = m.nxt (m.nxt (m.ehe e)) then false
                    else if j = m.nxt (m.ehe e) then false else m.hasHE j := by
                  intro j
                  rw [← hMD, hasHE_reassign]
                  simp only [hMCnxt, hMChasHE]
                have hMDvpos : ∀ j, MD.vpos j = MC.vpos j := by
                  intro j
                  rw [← hMD, vpos_reassign]
                have hMDhasV : ∀ j, MD.hasV j = MC.hasV j := by
                  intro j
                  rw [← hMD, hasV_reassign]
                have hMDeheE : MD.ehe e = m.ehe e := by
                  rw [← hMD, ehe_reassign MC (m.ehe e) m.fresh e
                    (by rw [hMChedge, hMCnxt, hMCnxt]; exact Ne.symm hd02)
                    (by rw [hMChedge, hMCnxt]; exact Ne.symm hd01), hMCehe]
                simp only [hMDeheE] at hres
                have hMDtwnE : MD.twn (m.ehe e) = m.twn (m.ehe e) :=
                  hMDtwn _ hd07 hd08 hd05 hd06
                simp only [hMDtwnE] at hres
                generalize hM5 :
                  reassign_erase_for_collapse_edge MD (m.twn (m.ehe e)) m.fresh = M5 at hres
                have hT_n : MD.nxt (m.twn (m.ehe e)) = m.nxt (m.twn (m.ehe e)) :=
                  hMDnxt _ hd09 hd10
                have hN3_n : MD.nxt (m.nxt (m.twn (m.ehe e))) =
                    m.nxt (m.nxt (m.twn (m.ehe e))) := hMDnxt _ hd11 hd12
                have hN4hedge : MD.hedge (m.nxt (m.nxt (m.twn (m.ehe e)))) =
                    m.hedge (m.nxt (m.nxt (m.twn (m.ehe e)))) := hMDhedge _ hd18 hd13 hd14
                have hN3hedge : MD.hedge (m.nxt (m.twn (m.ehe e))) =
                    m.hedge (m.nxt (m.twn (m.ehe e))) := hMDhedge _ hd16 hd11 hd12
                have hN4twn : MD.twn (m.nxt (m.nxt (m.twn (m.ehe e)))) =
                    m.twn (m.nxt (m.nxt (m.twn (m.ehe e)))) := hMDtwn _ hd17 hd18 hd13 hd14
                have hN3twn : MD.twn (m.nxt (m.twn (m.ehe e))) =
                    m.twn (m.nxt (m.twn (m.ehe e))) := hMDtwn _ hd15 hd16 hd11 hd12
                have hM5eheE : M5.ehe e = m.ehe e := by
                  rw [← hM5, ehe_reassign MD (m.twn (m.ehe e)) m.fresh e
                    (by rw [hT_n, hN3_n, hN4hedge]; exact Ne.symm hd04)
                    (by rw [hT_n, hN3hedge]; exact Ne.symm hd03), hMDeheE]
                simp only [hM5eheE] at hres
                have hM5twnE : M5.twn (m.ehe e) = m.twn (m.ehe e) := by
                  rw [← hM5, twn_reassign MD (m.twn (m.ehe e)) m.fresh (m.ehe e)
                    (by rw [hT_n, hN3_n, hN4twn]; exact hd21)
                    (by rw [hT_n, hN3twn]; exact hd22)
                    (by rw [hT_n]; exact hd19)
                    (by rw [hT_n, hN3_n]; exact hd20), hMDtwnE]
                simp only [hM5twnE] at hres
                have hM5hv : ∀ j, j ≠ m.nxt (m.ehe e) → j ≠ m.nxt (m.nxt (m.ehe e)) →
                    j ≠ m.nxt (m.twn (m.ehe e)) → j ≠ m.nxt (m.nxt (m.twn (m.ehe e))) →
                    M5.hv j = MC.hv j := by
                  intro j a b c d
                  rw [← hM5, hv_reassign MD (m.twn (m.ehe e)) m.fresh j
                    (by rw [hT_n]; exact c) (by rw [hT_n, hN3_n]; exact d), hMDhv j a b]
                have hM5hasHE : ∀ j, M5.hasHE j =
                    if j = m.nxt (m.nxt (m.twn (m.ehe e))) then false
                    else if j = m.nxt (m.twn (m.ehe e)) then false
                    else if j = m.nxt (m.nxt (m.ehe e)) then false
                    else if j = m.nxt (m.ehe e) then false
                    else m.hasHE j := by
                  intro j
                  rw [← hM5, hasHE_reassign]
                  simp only [hT_n, hN3_n, hMDhasHE]
                have hM5vpos : ∀ j, M5.vpos j = MC.vpos j := by
                  intro j
                  rw [← hM5, vpos_reassign, hMDvpos]
                have hM5hasV : ∀ j, M5.hasV j = MC.hasV j := by
                  intro j
                  rw [← hM5, hasV_reassign, hMDhasV]
                rw [Option.some.injEq, Prod.mk.injEq, Option.some.injEq] at hres
                obtain ⟨hm2e, hre⟩ := hres
                subst hre
                subst hm2e
                refine ⟨?_, ?_, ?_, ?_, ?_, ?_, ?_, ?_, ?_⟩
                · cases hx : m.hasV m.fresh with
                  | false => rfl
                  | true => exact absurd (hkeyv _ hx) (by omega)
                · rw [hasV_eraseV, if_neg hf2, hasV_eraseV, if_neg hf1, hasV_eraseHE,
                    hasV_eraseHE, hasV_eraseE, hM5hasV, hMChasV, if_pos rfl]
                · rw [vpos_eraseV_ne _ _ _ (Ne.symm hv2f), vpos_eraseV_ne _ _ _ (Ne.symm hv1f),
                    vpos_eraseHE, vpos_eraseHE, vpos_eraseE, hM5vpos, hMCvposF]
                · rw [hasE_eraseV, hasE_eraseV, hasE_eraseHE, hasE_eraseHE, hasE_eraseE,
                    if_pos rfl]
                · by_cases hET : m.ehe e = m.twn (m.ehe e)
                  · rw [hasHE_eraseV, hasHE_eraseV, hasHE_eraseHE, if_pos hET]
                  · rw [hasHE_eraseV, hasHE_eraseV, hasHE_eraseHE, if_neg hET,
                      hasHE_eraseHE, if_pos rfl]
                · rw [hasHE_eraseV, hasHE_eraseV, hasHE_eraseHE, if_pos rfl]
                · by_cases hv12 : m.hv (m.ehe e) = m.hv (m.twn (m.ehe e))
                  · rw [hasV_eraseV, if_pos hv12]
                  · rw [hasV_eraseV, if_neg hv12, hasV_eraseV, if_pos rfl]
                · rw [hasV_eraseV, if_pos rfl]
                · intro h hh horig
                  rw [hasHE_eraseV, hasHE_eraseV, hasHE_eraseHE, hasHE_eraseHE,
                    hasHE_eraseE, hM5hasHE] at hh
                  by_cases x1 : h = m.twn (m.ehe e)
                  · rw [if_pos x1] at hh; exact absurd hh (by simp)
                  rw [if_neg x1] at hh
                  by_cases x2 : h = m.ehe e
                  · rw [if_pos x2] at hh; exact absurd hh (by simp)
                  rw [if_neg x2] at hh
                  by_cases x3 : h = m.nxt (m.nxt (m.twn (m.ehe e)))
                  · rw [if_pos x3] at hh; exact absurd hh (by simp)
                  rw [if_neg x3] at hh
                  by_cases x4 : h = m.nxt (m.twn (m.ehe e))
                  · rw [if_pos x4] at hh; exact absurd hh (by simp)
                  rw [if_neg x4] at hh
                  by_cases x5 : h = m.nxt (m.nxt (m.ehe e))
                  · rw [if_pos x5] at hh; exact absurd hh (by simp)
                  rw [if_neg x5] at hh
                  by_cases x6 : h = m.nxt (m.ehe e)
                  · rw [if_pos x6] at hh; exact absurd hh (by simp)
                  rw [if_neg x6] at hh
                  obtain ⟨rc, hfind, hmemhs, hveq⟩ := hasHE_to_findA m h hh
                  have hmem : h ∈ l1 ++ l2 :=
                    hcov (h, rc) hmemhs (by rw [← hveq]; exact horig)
                  rw [hv_eraseV, hv_eraseV, hv_eraseHE_ne _ _ _ x1, hv_eraseHE_ne _ _ _ x2,
                    hv_eraseE, hM5hv h x6 x5 x4 x3, hMChv_mem h hmem hh]
              | false =>
                rw [if_neg (by simp)] at hres
                cases hsp : spliceOutEdge MC fuel e with
                | none => rw [hsp] at hres; simp at hres
                | some M5 =>
                  rw [hsp] at hres
                  obtain ⟨f_ehe, f_twn, f_hv, f_hasHE, f_vpos, f_hasV, f_hasE⟩ :=
                    spliceOutEdge_fields MC fuel e M5 hsp
                  have hM5eheE : M5.ehe e = m.ehe e := by rw [f_ehe, hMCehe]
                  simp only [hM5eheE] at hres
                  have hM5twnE : M5.twn (m.ehe e) = m.twn (m.ehe e) := by
                    rw [f_twn, hMCtwn]
                  simp only [hM5twnE] at hres
                  rw [Option.some.injEq, Prod.mk.injEq, Option.some.injEq] at hres
                  obtain ⟨hm2e, hre⟩ := hres
                  subst hre
                  subst hm2e
                  refine ⟨?_, ?_, ?_, ?_, ?_, ?_, ?_, ?_, ?_⟩
                  · cases hx : m.hasV m.fresh with
                    | false => rfl
                    | true => exact absurd (hkeyv _ hx) (by omega)
                  · rw [hasV_eraseV, if_neg hf2, hasV_eraseV, if_neg hf1, hasV_eraseHE,
                      hasV_eraseHE, hasV_eraseE, f_hasV, hMChasV, if_pos rfl]
                  · rw [vpos_eraseV_ne _ _ _ (Ne.symm hv2f), vpos_eraseV_ne _ _ _ (Ne.symm hv1f),
                      vpos_eraseHE, vpos_eraseHE, vpos_eraseE, f_vpos, hMCvposF]
                  · rw [hasE_eraseV, hasE_eraseV, hasE_eraseHE, hasE_eraseHE, hasE_eraseE,
                      if_pos rfl]
                  · by_cases hET : m.ehe e = m.twn (m.ehe e)
                    · rw [hasHE_eraseV, hasHE_eraseV, hasHE_eraseHE, if_pos hET]
                    · rw [hasHE_eraseV, hasHE_eraseV, hasHE_eraseHE, if_neg hET,
                        hasHE_eraseHE, if_pos rfl]
                  · rw [hasHE_eraseV, hasHE_eraseV, hasHE_eraseHE, if_pos rfl]
                  · by_cases hv12 : m.hv (m.ehe e) = m.hv (m.twn (m.ehe e))
                    · rw [hasV_eraseV, if_pos hv12]
                    · rw [hasV_eraseV, if_neg hv12, hasV_eraseV, if_pos rfl]
                  · rw [hasV_eraseV, if_pos rfl]
                  · intro h hh horig
                    rw [hasHE_eraseV, hasHE_eraseV, hasHE_eraseHE, hasHE_eraseHE,
                      hasHE_eraseE, f_hasHE, hMChasHE] at hh
                    by_cases x1 : h = m.twn (m.ehe e)
                    · rw [if_pos x1] at hh; exact absurd hh (by simp)
                    rw [if_neg x1] at hh
                    by_cases x2 : h = m.ehe e
                    · rw [if_pos x2] at hh; exact absurd hh (by simp)
                    rw [if_neg x2] at hh
                    obtain ⟨rc, hfind, hmemhs, hveq⟩ := hasHE_to_findA m h hh
                    have hmem : h ∈ l1 ++ l2 :=
                      hcov (h, rc) hmemhs (by rw [← hveq]; exact horig)
                    rw [hv_eraseV, hv_eraseV, hv_eraseHE_ne _ _ _ x1, hv_eraseHE_ne _ _ _ x2,
                      hv_eraseE, f_hv, hMChv_mem h hmem hh]

theorem collapse_edge_success_spec_witness :
    ∃ m2 r, collapse_edge TetM 30 30 = some (m2, some r) ∧
      TetM.hasV r = false ∧ m2.hasV r = true ∧
      m2.vpos r = (TetM.vpos (TetM.hv (TetM.ehe 30)) +
        TetM.vpos (TetM.hv (TetM.twn (TetM.ehe 30)))).divQ 2 ∧
      m2.hasE 30 = false ∧ m2.hasHE (TetM.ehe 30) = false ∧
      m2.hasHE (TetM.twn (TetM.ehe 30)) = false ∧
      m2.hasV (TetM.hv (TetM.ehe 30)) = false ∧
      m2.hasV (TetM.hv (TetM.twn (TetM.ehe 30))) = false := by
  have h1 : (match collapse_edge TetM 30 30 with
      | some (_, some _) => true
      | _ => false) = true := by with_unfolding_all rfl
  obtain ⟨m2x, rx, hres⟩ : ∃ m2 r, collapse_edge TetM 30 30 = some (m2, some r) := by
    cases h : collapse_edge TetM 30 30 with
    | none => rw [h] at h1; exact absurd h1 (by simp)
    | some p =>
      obtain ⟨mm, rr⟩ := p
      cases rr with
      | none => rw [h] at h1; exact absurd h1 (by simp)
      | some v => exact ⟨mm, v, rfl⟩
  have main := collapse_edge_success_spec TetM 30 30 m2x rx hres
    (keysBounded TetM.vs 50 (by decide)) (by decide) (by decide)
    [10, 16, 13] [11, 19, 18] (by decide) (by decide) (by decide)
    (by decide) (by decide) (by decide) (by decide) (by decide) (by decide)
    (by decide) (by decide) (by decide) (by decide) (by decide) (by decide)
    (by decide) (by decide) (by decide) (by decide) (by decide) (by decide)
    (by decide) (by decide) (by decide) (by decide)
  exact ⟨m2x, rx, hres, main.1, main.2.1, main.2.2.1, main.2.2.2.1, main.2.2.2.2.1,
    main.2.2.2.2.2.1, main.2.2.2.2.2.2.1, main.2.2.2.2.2.2.2.1⟩
